import Mathlib

/-!
Verification of the `vj`/`jvim` modal JSON editor and diff engine.

Python strings are modelled as `List Char`; Python integers as `Int`
(cursor coordinates can go negative before clamping) or `Nat` where the
source only ever holds non-negative values.  The Python standard library
`json` module and `difflib.SequenceMatcher` are external primitives of
the program (the spec lists "JSON parse/serialize primitives" and "a
line-sequence matching primitive" as the only dependencies of the core);
they are modelled as parameters of the definitions that use them.
-/

namespace VJ

/-- Python strings, modelled as lists of characters. -/
abbrev PyStr := List Char

/-- Model of `unicodedata.east_asian_width(ch) in ("W", "F")` for code
points `≥ 0x100`: the wide/fullwidth ranges of the Unicode East Asian
Width table. -/
def east_asian_wide (c : Char) : Bool :=
  let n := c.toNat
  (0x1100 ≤ n && n ≤ 0x115F) ||
  (0x2E80 ≤ n && n ≤ 0x303E) ||
  (0x3041 ≤ n && n ≤ 0x33FF) ||
  (0x3400 ≤ n && n ≤ 0x4DBF) ||
  (0x4E00 ≤ n && n ≤ 0x9FFF) ||
  (0xA000 ≤ n && n ≤ 0xA4CF) ||
  (0xAC00 ≤ n && n ≤ 0xD7A3) ||
  (0xF900 ≤ n && n ≤ 0xFAFF) ||
  (0xFE30 ≤ n && n ≤ 0xFE4F) ||
  (0xFF00 ≤ n && n ≤ 0xFF60) ||
  (0xFFE0 ≤ n && n ≤ 0xFFE6) ||
  (0x20000 ≤ n && n ≤ 0x2FFFD) ||
  (0x30000 ≤ n && n ≤ 0x3FFFD)

/-- `JsonEditor._char_width`: display width of a character
(2 for fullwidth/wide). -/
def char_width (c : Char) : Nat :=
  if c.toNat < 0x100 then 1
  else if east_asian_wide c then 2 else 1

/-- `str.isascii()`: every code point is below 128. -/
def is_ascii (line : PyStr) : Bool :=
  line.all (fun c => c.toNat < 128)

/-- The ASCII fast path of `_make_segments`:
`[(s, min(s + avail, len(line))) for s in range(0, len(line), avail)]`.
(`range` with step 0 raises in Python; the source always calls this with
`avail ≥ 1`.) -/
def ascii_segs (n avail : Nat) (s : Nat) : List (Nat × Nat) :=
  if _h : s < n ∧ 0 < avail then
    (s, min (s + avail) n) :: ascii_segs n avail (s + avail)
  else
    []
termination_by n - s
decreasing_by omega

/-- The character loop of `_make_segments` for the non-ASCII path,
carrying the absolute index `i`, the current segment start `seg_start`
and the accumulated display width `w`. -/
def make_segments_go (avail : Nat) : List Char → Nat → Nat → Nat → List (Nat × Nat)
  | [], i, seg_start, _ => [(seg_start, i)]
  | c :: cs, i, seg_start, w =>
      if w + char_width c > avail ∧ i > seg_start then
        (seg_start, i) :: make_segments_go avail cs (i + 1) i (char_width c)
      else
        make_segments_go avail cs (i + 1) seg_start (w + char_width c)

/-- `JsonEditor._make_segments`: break a line into segments fitting
within `avail` display columns. -/
def make_segments (line : PyStr) (avail : Nat) : List (Nat × Nat) :=
  if line = [] then [(0, 0)]
  else if is_ascii line then ascii_segs line.length avail 0
  else make_segments_go avail line 0 0 0

/-- The character loop of `_wrap_rows` for the non-ASCII path. -/
def wrap_rows_go (avail : Nat) : List Char → Nat → Nat → Nat
  | [], _, rows => rows
  | c :: cs, w, rows =>
      if w + char_width c > avail then wrap_rows_go avail cs (char_width c) (rows + 1)
      else wrap_rows_go avail cs (w + char_width c) rows

/-- `JsonEditor._wrap_rows`: number of display rows a line occupies when
wrapped.  The ASCII fast path is Python's `-(-len(line) // avail)`
(`//` is floor division, modelled by `Int.fdiv`). -/
def wrap_rows (line : PyStr) (avail : Nat) : Nat :=
  if line = [] then 1
  else if is_ascii line then
    (-(Int.fdiv (-(line.length : Int)) (avail : Int))).toNat
  else wrap_rows_go avail line 0 1

/-- `tiles start segs stop`: the segments cover `[start, stop)`
contiguously and in order. -/
def tiles : Nat → List (Nat × Nat) → Nat → Prop
  | start, [], stop => start = stop
  | start, (a, b) :: rest, stop => a = start ∧ a ≤ b ∧ tiles b rest stop

theorem tiles_nil (start stop : Nat) : tiles start [] stop ↔ start = stop := Iff.rfl

theorem tiles_cons (start a b stop : Nat) (rest : List (Nat × Nat)) :
    tiles start ((a, b) :: rest) stop ↔ a = start ∧ a ≤ b ∧ tiles b rest stop :=
  Iff.rfl

theorem char_width_le_two (c : Char) : char_width c ≤ 2 := by
  unfold char_width
  split
  · omega
  · split <;> omega

theorem char_width_pos (c : Char) : 1 ≤ char_width c := by
  unfold char_width
  split
  · omega
  · split <;> omega

theorem ascii_segs_spec (n k : Nat) (hk : 0 < k) :
    ∀ s, s < n →
      n - s ≤ k * (ascii_segs n k s).length ∧
      k * ((ascii_segs n k s).length - 1) < n - s := by
  intro s hs
  rw [ascii_segs, dif_pos ⟨hs, hk⟩]
  simp only [List.length_cons]
  by_cases h : s + k < n
  · obtain ⟨ih1, ih2⟩ := ascii_segs_spec n k hk (s + k) h
    set L := (ascii_segs n k (s + k)).length with hL
    have hL1 : 1 ≤ L := by
      rw [hL, ascii_segs, dif_pos ⟨h, hk⟩]
      simp
    have hm1 : k * (L + 1) = k * L + k := Nat.mul_succ k L
    have hm2 : k * (L - 1 + 1) = k * (L - 1) + k := Nat.mul_succ k (L - 1)
    rw [(by omega : L - 1 + 1 = L)] at hm2
    constructor
    · omega
    · rw [Nat.add_sub_cancel]
      omega
  · have hnil : ascii_segs n k (s + k) = [] := by
      rw [ascii_segs, dif_neg (by omega)]
    rw [hnil]
    simp only [List.length_nil, Nat.zero_add, Nat.mul_one]
    constructor
    · omega
    · simpa using (by omega : 0 < n - s)
termination_by s => n - s
decreasing_by omega

theorem ascii_rows_eq (n k : Nat) (hn : 0 < n) (hk : 0 < k) :
    (-(Int.fdiv (-(n : Int)) (k : Int))).toNat = (ascii_segs n k 0).length := by
  obtain ⟨h1, h2⟩ := ascii_segs_spec n k hk 0 hn
  set L := (ascii_segs n k 0).length with hL
  have hL1 : 1 ≤ L := by
    rw [hL, ascii_segs, dif_pos ⟨hn, hk⟩]
    simp
  have hm2 : k * (L - 1 + 1) = k * (L - 1) + k := Nat.mul_succ k (L - 1)
  rw [(by omega : L - 1 + 1 = L)] at hm2
  have h0 : (0 : Int) < (k : Int) := by exact_mod_cast hk
  have hcast1 : (n : Int) ≤ (k : Int) * (L : Int) := by exact_mod_cast (by omega : n ≤ k * L)
  have hcast2 : (k : Int) * (L : Int) < (n : Int) + (k : Int) := by
    exact_mod_cast (by omega : k * L < n + k)
  have hq : (-(n : Int)) / (k : Int) = -(L : Int) := by
    refine ((Int.ediv_emod_unique (a := -(n : Int)) (b := (k : Int))
      (q := -(L : Int)) (r := (k : Int) * (L : Int) - (n : Int)) h0).mpr
      ⟨by ring, by omega, by omega⟩).1
  rw [Int.fdiv_eq_ediv _ (le_of_lt h0), hq]
  simp

theorem make_segments_go_len (avail : Nat) :
    ∀ (cs : List Char) (i ss w rows : Nat), ss < i →
      (make_segments_go avail cs i ss w).length + rows =
        wrap_rows_go avail cs w (rows + 1) := by
  intro cs
  induction cs with
  | nil =>
      intro i ss w rows _
      simp only [make_segments_go, wrap_rows_go, List.length_cons, List.length_nil]
      omega
  | cons c cs ih =>
      intro i ss w rows hlt
      simp only [make_segments_go, wrap_rows_go]
      by_cases hw : avail < w + char_width c
      · rw [if_pos (⟨hw, hlt⟩ : _ ∧ _), if_pos hw]
        have h := ih (i + 1) i (char_width c) (rows + 1) (by omega)
        simp only [List.length_cons]
        omega
      · rw [if_neg (fun hc => hw hc.1), if_neg hw]
        exact ih (i + 1) ss (w + char_width c) rows (by omega)

theorem make_segments_go_tiles (avail : Nat) :
    ∀ (cs : List Char) (i ss w stop : Nat), ss ≤ i → stop = i + cs.length →
      tiles ss (make_segments_go avail cs i ss w) stop := by
  intro cs
  induction cs with
  | nil =>
      intro i ss w stop h hstop
      simp only [List.length_nil] at hstop
      rw [make_segments_go, tiles_cons, tiles_nil]
      exact ⟨rfl, h, by omega⟩
  | cons c cs ih =>
      intro i ss w stop h hstop
      simp only [List.length_cons] at hstop
      rw [make_segments_go]
      split
      · rw [tiles_cons]
        exact ⟨rfl, h, ih (i + 1) i (char_width c) stop (by omega) (by omega)⟩
      · exact ih (i + 1) ss (w + char_width c) stop (by omega) (by omega)

theorem ascii_segs_tiles (n k : Nat) (hk : 0 < k) :
    ∀ s, s < n → tiles s (ascii_segs n k s) n := by
  intro s hs
  rw [ascii_segs, dif_pos ⟨hs, hk⟩]
  by_cases h : s + k < n
  · refine ⟨rfl, by omega, ?_⟩
    have := ascii_segs_tiles n k hk (s + k) h
    rwa [min_eq_left (by omega)]
  · refine ⟨rfl, by omega, ?_⟩
    rw [ascii_segs, dif_neg (by omega), min_eq_right (by omega)]
    rfl
termination_by s => n - s
decreasing_by omega

/-- C10, amended.  For every line and every `avail ≥ 2`,
`_wrap_rows(line, avail) == len(_make_segments(line, avail))`; for every
`avail ≥ 1` the segments tile the line contiguously from column 0 to
`len(line)`; an empty line yields the single segment `(0, 0)`.
(At `avail = 1` a width-2 character breaks the row-count equality, see
the counterexample.) -/
theorem wrap_rows_eq_segments (line : PyStr) (avail : Nat) :
    (2 ≤ avail → wrap_rows line avail = (make_segments line avail).length) ∧
    (1 ≤ avail → tiles 0 (make_segments line avail) line.length) ∧
    make_segments [] avail = [(0, 0)] := by
  refine ⟨?_, ?_, rfl⟩
  · intro ha
    by_cases hemp : line = []
    · subst hemp; rfl
    · unfold wrap_rows make_segments
      rw [if_neg hemp, if_neg hemp]
      by_cases hasc : is_ascii line
      · rw [if_pos hasc, if_pos hasc]
        exact ascii_rows_eq line.length avail (List.length_pos.mpr hemp) (by omega)
      · rw [if_neg hasc, if_neg hasc]
        obtain ⟨c, cs, rfl⟩ : ∃ c cs, line = c :: cs := by
          cases line with
          | nil => exact absurd rfl hemp
          | cons c cs => exact ⟨c, cs, rfl⟩
        have hcw2 : char_width c ≤ 2 := char_width_le_two c
        simp only [make_segments_go, wrap_rows_go]
        rw [if_neg (show ¬ (0 + char_width c > avail) by omega),
          if_neg (show ¬ (0 + char_width c > avail ∧ 0 > 0) from
            fun hc => absurd hc.2 (lt_irrefl 0))]
        have h := make_segments_go_len avail cs 1 0 (char_width c) 0 (by omega)
        simp only [Nat.zero_add] at *
        omega
  · intro ha
    by_cases hemp : line = []
    · subst hemp
      exact ⟨rfl, le_refl 0, rfl⟩
    · unfold make_segments
      rw [if_neg hemp]
      by_cases hasc : is_ascii line
      · rw [if_pos hasc]
        exact ascii_segs_tiles line.length avail (by omega) 0
          (List.length_pos.mpr hemp)
      · rw [if_neg hasc]
        exact make_segments_go_tiles avail line 0 0 0 line.length (le_refl 0)
          (by omega)

/-- Witness for the amended C10 theorem at a concrete input. -/
theorem wrap_rows_eq_segments_w :
    wrap_rows ['a', 'b', 'c'] 2 = (make_segments ['a', 'b', 'c'] 2).length ∧
    tiles 0 (make_segments ['a', 'b', 'c'] 2) 3 := by
  have h := wrap_rows_eq_segments ['a', 'b', 'c'] 2
  exact ⟨h.1 (by omega), h.2.1 (by omega)⟩

/-- C10 counterexample: for the single wide character `'あ'` (display
width 2) at `avail = 1`, `_wrap_rows` reports 2 rows but
`_make_segments` returns a single segment, so the claimed equality
`_wrap_rows(line, avail) == len(_make_segments(line, avail))` fails at
an `avail ≥ 1`. -/
theorem wrap_rows_ne_segments_cex :
    wrap_rows ['あ'] 1 = 2 ∧ (make_segments ['あ'] 1).length = 1 := by
  constructor <;> rfl

/-! ## Python string helpers -/

/-- Conversion from Lean string literals to the `PyStr` model. -/
def str (s : String) : PyStr := s.data

/-- Python whitespace, as stripped by `str.strip()` and friends
(the ASCII whitespace characters). -/
def is_space (c : Char) : Bool :=
  c = ' ' || c = '\t' || c = '\n' || c = '\r' || c = '\x0b' || c = '\x0c'

def py_lstrip (s : PyStr) : PyStr := s.dropWhile is_space

def py_rstrip (s : PyStr) : PyStr := (s.reverse.dropWhile is_space).reverse

def py_strip (s : PyStr) : PyStr := py_rstrip (py_lstrip s)

/-- `str.isdigit()` restricted to ASCII digits. -/
def py_isdigit (s : PyStr) : Bool := !s.isEmpty && s.all (·.isDigit)

/-- `int(s)` on a digit string. -/
def py_int (s : PyStr) : Nat := s.foldl (fun a c => a * 10 + (c.toNat - 48)) 0

def nat_str (n : Nat) : PyStr := (Nat.repr n).data

def int_str (i : Int) : PyStr := (Int.repr i).data

/-- `s.split()` (split on whitespace runs, dropping empty parts). -/
def py_split_ws : PyStr → List PyStr
  | [] => []
  | c :: cs =>
      if is_space c then py_split_ws cs
      else (c :: cs.takeWhile (fun x => !is_space x)) ::
        py_split_ws (cs.dropWhile (fun x => !is_space x))
termination_by s => s.length
decreasing_by
  · simp only [List.length_cons]; omega
  · simp only [List.length_cons]
    have := (List.dropWhile_sublist (l := cs) (fun x => !is_space x)).length_le
    omega

/-- `cmd.split(None, 1)`: first whitespace-separated word and the rest
(with its leading whitespace removed). -/
def py_split1 (s : PyStr) : PyStr × PyStr :=
  let s1 := py_lstrip s
  let verb := s1.takeWhile (fun c => !is_space c)
  (verb, py_lstrip (s1.drop verb.length))

/-- `content.split("\n")`. -/
def split_nl (s : PyStr) : List PyStr := List.splitOn '\n' s

/-- `"\n".join(lines)` (and other separators). -/
def py_join (sep : PyStr) (xs : List PyStr) : PyStr := List.intercalate sep xs

/-- `lines[i]` for an index known to be in range in the source
(out-of-range access, which would raise in Python, yields the default). -/
def py_get {α : Type} (xs : List α) (i : Int) (d : α) : α :=
  if 0 ≤ i ∧ i < (xs.length : Int) then xs.getD i.toNat d else d

/-- `lines[i] = v` (no-op where Python would raise). -/
def py_set {α : Type} (xs : List α) (i : Int) (v : α) : List α :=
  if 0 ≤ i ∧ i < (xs.length : Int) then xs.set i.toNat v else xs

/-- `lines.insert(i, v)` (Python clamps the index into range). -/
def py_insert {α : Type} (xs : List α) (i : Int) (v : α) : List α :=
  List.insertIdx (min (max i 0).toNat xs.length) v xs

/-- `lines.pop(i)` (no-op where Python would raise). -/
def py_pop {α : Type} (xs : List α) (i : Int) : List α :=
  if 0 ≤ i ∧ i < (xs.length : Int) then xs.eraseIdx i.toNat else xs

/-- `line[i]` for a character index known to be in range. -/
def char_at (line : PyStr) (i : Nat) : Char := line.getD i (Char.ofNat 0)

/-- `s.endswith(("{", "["))`. -/
def ends_with_open (s : PyStr) : Bool :=
  match s.getLast? with
  | some c => c = '{' || c = '['
  | none => false

/-- Model of `str.isprintable()` (exact on ASCII; the C0/C1 control
ranges and DEL are the non-printable characters relevant here). -/
def py_printable (c : Char) : Bool :=
  !(c.toNat < 0x20 || c.toNat = 0x7F || (0x80 ≤ c.toNat && c.toNat ≤ 0x9F))

/-! ## Editor data model -/

inductive EditorMode
  | NORMAL
  | INSERT
  | COMMAND
deriving DecidableEq, Repr

def EditorMode.name : EditorMode → PyStr
  | .NORMAL => str "NORMAL"
  | .INSERT => str "INSERT"
  | .COMMAND => str "COMMAND"

/-- `textual.events.Key`: the key name and the printable character
(`None` for special keys). -/
structure KeyEvent where
  key : String
  character : Option Char
deriving DecidableEq, Repr

/-- The outbound messages posted by the editor (`post_message`). -/
inductive Msg
  | jsonValidated (content : PyStr) (valid : Bool) (error : PyStr)
  | fileSaveRequested (content : PyStr) (file_path : PyStr) (quit_after : Bool)
  | fileOpenRequested (file_path : PyStr)
  | quit
  | forceQuit
  | helpToggleRequested
  | embeddedEditRequested (content : PyStr) (source_row : Int)
      (source_col_start source_col_end : Nat)
deriving DecidableEq, Repr

/-- Model of the Python `json` module over an abstract type `J` of
parsed JSON values.  `loads` returns `none` where `json.loads` raises
`JSONDecodeError`; `err_msg`/`err_lineno` are that error's `msg` and
`lineno`; `dumps_indent` is `json.dumps(v, indent=4, ensure_ascii=False)`;
`dumps_plain` is `json.dumps(v, ensure_ascii=False)`; `loads_qstr`
models `json.loads('"' + raw + '"')` (string-literal unescaping);
`dumps_string` models `json.dumps(s, ensure_ascii=False)` on a `str`;
`is_container` is `isinstance(v, (list, dict))`; `dumps_indent_sorted`
is `json.dumps(v, indent=4, ensure_ascii=False, sort_keys=True)`. -/
structure Jsonlib (J : Type) where
  loads : PyStr → Option J
  err_msg : PyStr → PyStr
  err_lineno : PyStr → Nat
  dumps_indent : J → PyStr
  dumps_plain : J → PyStr
  loads_qstr : PyStr → Option PyStr
  dumps_string : PyStr → PyStr
  is_container : J → Bool
  dumps_indent_sorted : J → PyStr

/-- An undo/redo snapshot: `(buffer copy, cursor row, cursor col)`. -/
abbrev Snapshot := List PyStr × Int × Int

/-- The `JsonEditor` widget state.  `height` is the host widget's
`content_region.height`, fixed during key handling; `posted` collects
the messages sent with `post_message`. -/
structure Ed where
  read_only : Bool
  jsonl : Bool
  lines : List PyStr
  cursor_row : Int
  cursor_col : Int
  mode : EditorMode
  command_buffer : PyStr
  pending : PyStr
  status_msg : PyStr
  undo_stack : List Snapshot
  redo_stack : List Snapshot
  yank_buffer : List PyStr
  scroll_top : Int
  dot_buffer : List KeyEvent
  dot_recording : Bool
  dot_replaying : Bool
  height : Int
  posted : List Msg
deriving DecidableEq, Repr

/-- `self.lines[self.cursor_row]`. -/
def line_at (st : Ed) : PyStr := py_get st.lines st.cursor_row []

/-- `JsonEditor.get_content`. -/
def get_content (st : Ed) : PyStr := py_join (str "\n") st.lines

/-- `JsonEditor._visible_height` (`max(1, content_region.height - 2)`). -/
def visible_height (st : Ed) : Int := max 1 (st.height - 2)

/-- `JsonEditor._dot_start`. -/
def dot_start (st : Ed) (ev : KeyEvent) : Ed :=
  if st.dot_replaying then st
  else { st with dot_buffer := [ev], dot_recording := true }

/-- `JsonEditor._dot_stop`. -/
def dot_stop (st : Ed) : Ed := { st with dot_recording := false }

/-- `JsonEditor._save_undo`: push a snapshot, evict the oldest entry
beyond 200, clear the redo stack. -/
def save_undo (st : Ed) : Ed :=
  let us := st.undo_stack ++ [(st.lines, st.cursor_row, st.cursor_col)]
  { st with
    undo_stack := if us.length > 200 then us.tail else us
    redo_stack := [] }

/-- `JsonEditor._clamp_cursor`. -/
def clamp_cursor (st : Ed) : Ed :=
  let row := max 0 (min st.cursor_row ((st.lines.length : Int) - 1))
  let line_len := (py_get st.lines row []).length
  let max_col : Int :=
    if st.mode = EditorMode.NORMAL then
      if line_len ≠ 0 then max 0 ((line_len : Int) - 1) else 0
    else (line_len : Int)
  { st with cursor_row := row, cursor_col := max 0 (min st.cursor_col max_col) }

/-- `JsonEditor._current_indent`. -/
def current_indent (st : Ed) : Nat :=
  let line := line_at st
  if py_strip line ≠ [] then line.length - (py_lstrip line).length else 0

/-- `JsonEditor._enter_insert`. -/
def enter_insert (st : Ed) : Ed :=
  if st.read_only then { st with status_msg := str "[readonly]" }
  else { st with mode := .INSERT, status_msg := str "-- INSERT --" }

/-- `JsonEditor._undo`. -/
def undo (st : Ed) : Ed :=
  match st.undo_stack.getLast? with
  | none => { st with status_msg := str "nothing to undo" }
  | some (lines, row, col) =>
      { st with
        redo_stack := st.redo_stack ++ [(st.lines, st.cursor_row, st.cursor_col)]
        undo_stack := st.undo_stack.dropLast
        lines := lines, cursor_row := row, cursor_col := col
        status_msg := str "undone" }

/-- `JsonEditor._redo`. -/
def redo (st : Ed) : Ed :=
  match st.redo_stack.getLast? with
  | none => { st with status_msg := str "nothing to redo" }
  | some (lines, row, col) =>
      { st with
        undo_stack := st.undo_stack ++ [(st.lines, st.cursor_row, st.cursor_col)]
        redo_stack := st.redo_stack.dropLast
        lines := lines, cursor_row := row, cursor_col := col
        status_msg := str "redone" }

/-- The `for i, line in enumerate(...): lines.insert(pos + i, line)`
pattern of `_paste_after` / `_paste_before`. -/
def insert_all (xs : List PyStr) (pos : Int) : List PyStr → List PyStr
  | [] => xs
  | y :: ys => insert_all (py_insert xs pos y) (pos + 1) ys

/-- `JsonEditor._paste_after`. -/
def paste_after (st : Ed) : Ed :=
  if st.yank_buffer = [] then st
  else
    let st := save_undo st
    { st with
      lines := insert_all st.lines (st.cursor_row + 1) st.yank_buffer
      cursor_row := st.cursor_row + 1
      cursor_col := 0 }

/-- `JsonEditor._paste_before`. -/
def paste_before (st : Ed) : Ed :=
  if st.yank_buffer = [] then st
  else
    let st := save_undo st
    { st with
      lines := insert_all st.lines st.cursor_row st.yank_buffer
      cursor_col := 0 }

/-- `JsonEditor._join_lines`. -/
def join_lines (st : Ed) : Ed :=
  if st.cursor_row ≥ (st.lines.length : Int) - 1 then st
  else
    let st := save_undo st
    let cur := py_rstrip (line_at st)
    let nxt := py_lstrip (py_get st.lines (st.cursor_row + 1) [])
    let lines := py_set st.lines st.cursor_row (cur ++ [' '] ++ nxt)
    { st with
      cursor_col := (cur.length : Int)
      lines := py_pop lines (st.cursor_row + 1) }

/-- `col += len(takeWhile)` loops: advance `col` while in bounds and
the character satisfies `p`. -/
def adv (line : PyStr) (col : Nat) (p : Char → Bool) : Nat :=
  col + ((line.drop col).takeWhile p).length

/-- Python `str.isalnum() or c == "_"` (ASCII model). -/
def is_word_char (c : Char) : Bool := c.isAlphanum || c = '_'

/-- `JsonEditor._delete_word`. -/
def delete_word (st : Ed) : Ed :=
  let line := line_at st
  let start := st.cursor_col.toNat
  let col := adv line start is_word_char
  let col := adv line col (fun c => c = ' ')
  let col := if col = start ∧ col < line.length then col + 1 else col
  { st with lines := py_set st.lines st.cursor_row (line.take start ++ line.drop col) }

/-- `JsonEditor._move_word_forward`. -/
def move_word_forward (st : Ed) : Ed :=
  let line := line_at st
  let col := adv line st.cursor_col.toNat is_word_char
  let col := adv line col (fun c => !is_word_char c)
  if col ≥ line.length ∧ st.cursor_row < (st.lines.length : Int) - 1 then
    let row := st.cursor_row + 1
    let nline := py_get st.lines row []
    { st with
      cursor_row := row
      cursor_col := ((nline.length - (py_lstrip nline).length : Nat) : Int) }
  else
    { st with cursor_col := ((min col (line.length - 1) : Nat) : Int) }

/-- `while col > 0 and p(col): col -= 1` loops, by recursion on `col`. -/
def retreat (p : Nat → Bool) : Nat → Nat
  | 0 => 0
  | n + 1 => if p (n + 1) then retreat p n else n + 1

/-- `JsonEditor._move_word_backward`. -/
def move_word_backward (st : Ed) : Ed :=
  let line := line_at st
  if st.cursor_col = 0 then
    if st.cursor_row > 0 then
      let row := st.cursor_row - 1
      { st with
        cursor_row := row
        cursor_col := max 0 (((py_get st.lines row []).length : Int) - 1) }
    else st
  else
    let c1 := retreat (fun i => !is_word_char (char_at line i)) (st.cursor_col.toNat - 1)
    let c2 := retreat (fun i => is_word_char (char_at line (i - 1))) c1
    { st with cursor_col := (c2 : Int) }

/-- The inner character scan of `_search_bracket_forward`: returns the
column of the match, or the depth after the line. -/
def scan_fwd_chars (oc cc : Char) : List Char → Nat → Nat → Option Nat × Nat
  | [], _, depth => (none, depth)
  | c :: cs, idx, depth =>
      if c = oc then scan_fwd_chars oc cc cs (idx + 1) (depth + 1)
      else if c = cc then
        if depth = 1 then (some idx, 0)
        else scan_fwd_chars oc cc cs (idx + 1) (depth - 1)
      else scan_fwd_chars oc cc cs (idx + 1) depth

/-- The row loop of `_search_bracket_forward`. -/
def search_fwd_go (oc cc : Char) :
    List PyStr → Nat → Nat → Nat → Option (Nat × Nat)
  | [], _, _, _ => none
  | l :: ls, row, startCol, depth =>
      match scan_fwd_chars oc cc (l.drop startCol) startCol depth with
      | (some idx, _) => some (row, idx)
      | (none, depth') => search_fwd_go oc cc ls (row + 1) 0 depth'

/-- `JsonEditor._search_bracket_forward`. -/
def search_fwd (st : Ed) (oc cc : Char) : Ed :=
  match search_fwd_go oc cc (st.lines.drop st.cursor_row.toNat)
      st.cursor_row.toNat (st.cursor_col.toNat + 1) 1 with
  | some (row, col) => { st with cursor_row := (row : Int), cursor_col := (col : Int) }
  | none => st

/-- The inner character scan of `_search_bracket_backward`, over a
reversed line segment with descending absolute indices. -/
def scan_bwd_chars (cc oc : Char) : List Char → Nat → Nat → Option Nat × Nat
  | [], _, depth => (none, depth)
  | c :: cs, idx, depth =>
      if c = cc then scan_bwd_chars cc oc cs (idx - 1) (depth + 1)
      else if c = oc then
        if depth = 1 then (some idx, 0)
        else scan_bwd_chars cc oc cs (idx - 1) (depth - 1)
      else scan_bwd_chars cc oc cs (idx - 1) depth

/-- The row loop of `_search_bracket_backward`, over rows in
descending order. -/
def search_bwd_rows (cc oc : Char) : List (Nat × PyStr) → Nat → Option (Nat × Nat)
  | [], _ => none
  | (row, seg) :: rest, depth =>
      match scan_bwd_chars cc oc seg.reverse (seg.length - 1) depth with
      | (some idx, _) => some (row, idx)
      | (none, depth') => search_bwd_rows cc oc rest depth'

/-- `JsonEditor._search_bracket_backward`. -/
def search_bwd (st : Ed) (cc oc : Char) : Ed :=
  let row0 := st.cursor_row.toNat
  let first := (row0, (line_at st).take st.cursor_col.toNat)
  let rest := (List.range row0).reverse.map
    (fun r => (r, py_get st.lines (Int.ofNat r) []))
  match search_bwd_rows cc oc (first :: rest) 1 with
  | some (row, col) => { st with cursor_row := (row : Int), cursor_col := (col : Int) }
  | none => st

/-- `JsonEditor._jump_matching_bracket`. -/
def jump_matching (st : Ed) : Ed :=
  let line := line_at st
  if st.cursor_col ≥ (line.length : Int) then st
  else
    let ch := char_at line st.cursor_col.toNat
    if ch = '{' then search_fwd st '{' '}'
    else if ch = '[' then search_fwd st '[' ']'
    else if ch = '(' then search_fwd st '(' ')'
    else if ch = '}' then search_bwd st '}' '{'
    else if ch = ']' then search_bwd st ']' '['
    else if ch = ')' then search_bwd st ')' '('
    else st

/-! ## JSON / JSONL helpers -/

/-- `JsonEditor._split_jsonl_blocks` loop. -/
def split_jsonl_blocks_go : List PyStr → List PyStr → List PyStr
  | [], current => if current ≠ [] then [py_join (str "\n") current] else []
  | l :: ls, current =>
      if py_strip l ≠ [] then split_jsonl_blocks_go ls (current ++ [l])
      else if current ≠ [] then
        py_join (str "\n") current :: split_jsonl_blocks_go ls []
      else split_jsonl_blocks_go ls []

/-- `JsonEditor._split_jsonl_blocks`: split pretty-printed content into
blocks separated by blank lines. -/
def split_jsonl_blocks (content : PyStr) : List PyStr :=
  split_jsonl_blocks_go (split_nl content) []

/-- `JsonEditor._jsonl_to_pretty`. -/
def jsonl_to_pretty {J : Type} (lib : Jsonlib J) (content : PyStr) : PyStr :=
  let blocks := (split_nl content).filterMap (fun line =>
    let stripped := py_strip line
    if stripped = [] then none
    else match lib.loads stripped with
      | some v => some (lib.dumps_indent v)
      | none => some stripped)
  py_join (str "\n\n") blocks

/-- `JsonEditor._pretty_to_jsonl`. -/
def pretty_to_jsonl {J : Type} (lib : Jsonlib J) (content : PyStr) : PyStr :=
  let lines := (split_jsonl_blocks content).map (fun block =>
    match lib.loads block with
    | some v => lib.dumps_plain v
    | none => py_join (str " ") (py_split_ws block))
  py_join (str "\n") lines

/-- The per-record loop of `JsonEditor._check_content` in JSONL mode
(`i` is the 1-based record index). -/
def check_blocks {J : Type} (lib : Jsonlib J) : List PyStr → Nat → Bool × PyStr
  | [], _ => (true, [])
  | b :: bs, i =>
      match lib.loads b with
      | some _ => check_blocks lib bs (i + 1)
      | none =>
          (false, str "JSONL error: record " ++ nat_str i ++ str ": " ++ lib.err_msg b)

/-- `JsonEditor._check_content`. -/
def check_content {J : Type} (lib : Jsonlib J) (st : Ed) (content : PyStr) :
    Bool × PyStr :=
  if st.jsonl then check_blocks lib (split_jsonl_blocks content) 1
  else
    match lib.loads content with
    | some _ => (true, [])
    | none =>
        (false, str "JSON error: " ++ lib.err_msg content ++ str " (line " ++
          nat_str (lib.err_lineno content) ++ str ")")

/-- The per-record formatting loop of `JsonEditor._format_jsonl`
(`i` is the 1-based record index of the error message). -/
def fmt_blocks {J : Type} (lib : Jsonlib J) :
    List PyStr → Nat → Except (Nat × PyStr) (List PyStr)
  | [], _ => .ok []
  | b :: bs, i =>
      match lib.loads b with
      | some v =>
          match fmt_blocks lib bs (i + 1) with
          | .ok rest => .ok (lib.dumps_indent v :: rest)
          | .error e => .error e
      | none => .error (i, lib.err_msg b)

/-- `JsonEditor._format_jsonl`. -/
def format_jsonl {J : Type} (lib : Jsonlib J) (st : Ed) : Ed :=
  let content := get_content st
  match fmt_blocks lib (split_jsonl_blocks content) 1 with
  | .error (i, msg) =>
      { st with status_msg := (str "cannot format: record " ++ nat_str i ++
          str ": " ++ msg) }
  | .ok formatted =>
      let st := save_undo st
      { st with
        lines := split_nl (py_join (str "\n\n") formatted)
        cursor_row := 0, cursor_col := 0
        status_msg := str "formatted" }

/-- `JsonEditor._format_json`. -/
def format_json {J : Type} (lib : Jsonlib J) (st : Ed) : Ed :=
  if st.jsonl then format_jsonl lib st
  else
    let content := get_content st
    match lib.loads content with
    | some v =>
        let st := save_undo st
        { st with
          lines := split_nl (lib.dumps_indent v)
          cursor_row := 0, cursor_col := 0
          status_msg := str "formatted" }
    | none =>
        { st with status_msg := (str "cannot format: " ++ lib.err_msg content ++
            str " (line " ++ nat_str (lib.err_lineno content) ++ str ")") }

/-- `JsonEditor._jsonl_line_records` loop. -/
def jsonl_line_records_go : List PyStr → Nat → Bool → List Nat
  | [], _, _ => []
  | l :: ls, record, in_block =>
      if py_strip l ≠ [] then
        if !in_block then (record + 1) :: jsonl_line_records_go ls (record + 1) true
        else 0 :: jsonl_line_records_go ls record true
      else 0 :: jsonl_line_records_go ls record false

/-- `JsonEditor._jsonl_line_records`: 1-based record number of the
first line of each block, 0 elsewhere. -/
def jsonl_line_records (lines : List PyStr) : List Nat :=
  jsonl_line_records_go lines 0 false

/-- `JsonEditor._find_string_at_cursor` scan: `i` is the index of the
head character, `prev` the previous character, `sstart` the opening
quote of the string currently open. -/
def find_string_go {J : Type} (lib : Jsonlib J) (line : PyStr) (col : Int) :
    List Char → Nat → Option Char → Option Nat → Option (Nat × Nat × PyStr)
  | [], _, _, _ => none
  | c :: rest, i, prev, sstart =>
      if c = '"' ∧ prev ≠ some '\\' then
        match sstart with
        | none => find_string_go lib line col rest (i + 1) (some c) (some i)
        | some s =>
            if (s : Int) ≤ col ∧ col ≤ (i : Int) then
              match lib.loads_qstr ((line.take i).drop (s + 1)) with
              | some content => some (s, i + 1, content)
              | none => none
            else find_string_go lib line col rest (i + 1) (some c) none
      else find_string_go lib line col rest (i + 1) (some c) sstart

/-- `JsonEditor._find_string_at_cursor`. -/
def find_string_at_cursor {J : Type} (lib : Jsonlib J) (st : Ed) :
    Option (Nat × Nat × PyStr) :=
  let line := line_at st
  find_string_go lib line st.cursor_col line 0 none none

/-- `JsonEditor._edit_embedded_json`. -/
def edit_embedded_json {J : Type} (lib : Jsonlib J) (st : Ed) : Ed :=
  match find_string_at_cursor lib st with
  | none => { st with status_msg := str "cursor not on a string value" }
  | some (col_start, col_end, content) =>
      match lib.loads content with
      | none => { st with status_msg := str "string is not valid JSON" }
      | some v =>
          if !lib.is_container v then
            { st with status_msg := str "string is not a list or dict" }
          else
            { st with posted := (st.posted ++
                [Msg.embeddedEditRequested (lib.dumps_indent v) st.cursor_row
                  col_start col_end]) }

/-! ## Command mode -/

/-- `JsonEditor._exec_command`. -/
def exec_command {J : Type} (lib : Jsonlib J) (st : Ed) (cmd : PyStr) : Ed :=
  let stripped := py_strip cmd
  if stripped = str "$" then
    { st with cursor_row := (st.lines.length : Int) - 1, cursor_col := 0 }
  else if stripped.length > 1 ∧ stripped.head? = some 'l' ∧
      py_isdigit (stripped.drop 1) then
    let num := py_int (stripped.drop 1)
    { st with
      cursor_row := max 0 (min ((num : Int) - 1) ((st.lines.length : Int) - 1))
      cursor_col := 0 }
  else if py_isdigit stripped ∨ (stripped.length > 1 ∧ stripped.head? = some 'p' ∧
      py_isdigit (stripped.drop 1)) then
    let num := if py_isdigit stripped then py_int stripped
               else py_int (stripped.drop 1)
    if st.jsonl then
      match (jsonl_line_records st.lines).findIdx? (· = num) with
      | some i => { st with cursor_row := (i : Int), cursor_col := 0 }
      | none =>
          { st with status_msg := (str "record " ++ nat_str num ++ str " not found") }
    else
      { st with
        cursor_row := max 0 (min ((num : Int) - 1) ((st.lines.length : Int) - 1))
        cursor_col := 0 }
  else
    let parts := py_split1 cmd
    let verb0 := parts.1
    let arg := parts.2
    let force := verb0.getLast? = some '!'
    let verb := if force then verb0.dropLast else verb0
    if verb = str "w" then
      if st.read_only then { st with status_msg := str "[readonly]" }
      else
        let content := get_content st
        let chk := if !force then check_content lib st content else (true, [])
        if !chk.1 then { st with status_msg := chk.2 }
        else
          let save := if st.jsonl then pretty_to_jsonl lib content else content
          { st with posted := st.posted ++ [Msg.fileSaveRequested save arg false] }
    else if verb = str "q" then
      if force then { st with posted := st.posted ++ [Msg.forceQuit] }
      else { st with posted := st.posted ++ [Msg.quit] }
    else if verb = str "wq" ∨ verb = str "x" then
      if st.read_only then { st with posted := st.posted ++ [Msg.quit] }
      else
        let content := get_content st
        let chk := if !force then check_content lib st content else (true, [])
        if !chk.1 then { st with status_msg := chk.2 }
        else
          let save := if st.jsonl then pretty_to_jsonl lib content else content
          { st with posted := st.posted ++ [Msg.fileSaveRequested save arg true] }
    else if verb = str "e" then
      if arg = [] then { st with status_msg := str "Usage: :e <file>" }
      else { st with posted := st.posted ++ [Msg.fileOpenRequested arg] }
    else if verb = str "fmt" ∨ verb = str "format" then
      if st.read_only then { st with status_msg := str "[readonly]" }
      else format_json lib st
    else if verb = str "help" then
      { st with posted := st.posted ++ [Msg.helpToggleRequested] }
    else
      { st with status_msg := str "unknown command: :" ++ cmd }

/-- `JsonEditor._handle_command`. -/
def handle_command {J : Type} (lib : Jsonlib J) (st : Ed) (ev : KeyEvent) : Ed :=
  if ev.key = "escape" then
    { st with mode := .NORMAL, command_buffer := [], status_msg := [] }
  else if ev.key = "enter" then
    let st := exec_command lib st (py_strip st.command_buffer)
    let st := if st.mode = .COMMAND then { st with mode := .NORMAL } else st
    { st with command_buffer := [] }
  else if ev.key = "backspace" then
    if st.command_buffer ≠ [] then
      { st with command_buffer := st.command_buffer.dropLast }
    else { st with mode := .NORMAL }
  else
    match ev.character with
    | some c =>
        if py_printable c then { st with command_buffer := st.command_buffer ++ [c] }
        else st
    | none => st

/-! ## Insert mode -/

/-- `JsonEditor._handle_insert`. -/
def handle_insert {J : Type} (_lib : Jsonlib J) (st : Ed) (ev : KeyEvent) : Ed :=
  let ch := ev.character
  if ev.key = "escape" then
    { (dot_stop st) with
      mode := .NORMAL
      cursor_col := max 0 (st.cursor_col - 1)
      status_msg := [] }
  else if ev.key = "backspace" then
    let st := save_undo st
    if st.cursor_col > 0 then
      let line := line_at st
      { st with
        lines := py_set st.lines st.cursor_row
          (line.take (st.cursor_col.toNat - 1) ++ line.drop st.cursor_col.toNat)
        cursor_col := st.cursor_col - 1 }
    else if st.cursor_row > 0 then
      let prev := py_get st.lines (st.cursor_row - 1) []
      let lines := py_set st.lines (st.cursor_row - 1) (prev ++ line_at st)
      { st with
        cursor_col := (prev.length : Int)
        lines := py_pop lines st.cursor_row
        cursor_row := st.cursor_row - 1 }
    else st
  else if ev.key = "enter" then
    let st := save_undo st
    let line := line_at st
    let indent := if py_strip line ≠ [] then line.length - (py_lstrip line).length else 0
    let before := py_rstrip (line.take st.cursor_col.toNat)
    let after := py_lstrip (line.drop st.cursor_col.toNat)
    if ends_with_open before ∧ after ≠ [] ∧
        (after.head? = some '}' ∨ after.head? = some ']') then
      let closing_indent := List.replicate indent ' '
      let new_indent := List.replicate indent ' ' ++ str "    "
      let lines := py_set st.lines st.cursor_row (line.take st.cursor_col.toNat)
      let lines := py_insert lines (st.cursor_row + 1) new_indent
      let lines := py_insert lines (st.cursor_row + 2)
        (closing_indent ++ py_lstrip (line.drop st.cursor_col.toNat))
      { st with
        lines := lines
        cursor_row := st.cursor_row + 1
        cursor_col := (new_indent.length : Int) }
    else
      let extra := if ends_with_open before then str "    " else ([] : PyStr)
      let lines := py_set st.lines st.cursor_row (line.take st.cursor_col.toNat)
      let new_line := List.replicate indent ' ' ++ extra ++ line.drop st.cursor_col.toNat
      { st with
        lines := py_insert lines (st.cursor_row + 1) new_line
        cursor_row := st.cursor_row + 1
        cursor_col := ((indent + extra.length : Nat) : Int) }
  else if ev.key = "tab" then
    let st := save_undo st
    let line := line_at st
    { st with
      lines := py_set st.lines st.cursor_row
        (line.take st.cursor_col.toNat ++ str "    " ++ line.drop st.cursor_col.toNat)
      cursor_col := st.cursor_col + 4 }
  else if ev.key = "end" then
    { st with cursor_col := ((line_at st).length : Int) }
  else if ev.key = "home" then
    let line := line_at st
    { st with cursor_col := ((line.length - (py_lstrip line).length : Nat) : Int) }
  else if ev.key = "left" then { st with cursor_col := st.cursor_col - 1 }
  else if ev.key = "right" then { st with cursor_col := st.cursor_col + 1 }
  else if ev.key = "up" then { st with cursor_row := st.cursor_row - 1 }
  else if ev.key = "down" then { st with cursor_row := st.cursor_row + 1 }
  else
    -- a `}`/`]` pushes an undo snapshot and, when the text before the
    -- cursor is all whitespace, dedents; otherwise it falls through to
    -- the printable-character branch (which pushes a second snapshot)
    let st := if ch = some '}' ∨ ch = some ']' then save_undo st else st
    if (ch = some '}' ∨ ch = some ']') ∧
        py_strip ((line_at st).take st.cursor_col.toNat) = [] then
      let line := line_at st
      let before := line.take st.cursor_col.toNat
      let new_indent := before.length - 4
      { st with
        lines := py_set st.lines st.cursor_row
          (List.replicate new_indent ' ' ++ ch.toList ++ line.drop st.cursor_col.toNat)
        cursor_col := ((new_indent + 1 : Nat) : Int) }
    else
      match ch with
      | some c =>
          if py_printable c then
            let st := save_undo st
            let line := line_at st
            { st with
              lines := py_set st.lines st.cursor_row
                (line.take st.cursor_col.toNat ++ [c] ++ line.drop st.cursor_col.toNat)
              cursor_col := st.cursor_col + 1 }
          else st
      | none => st

/-! ## Normal mode -/

/-- The `ctrl+g` status line. -/
def ctrl_g_msg (st : Ed) : PyStr :=
  let total := st.lines.length
  let pct : Int := if total ≠ 0 then
    Int.fdiv ((st.cursor_row + 1) * 100) (total : Int) else 0
  str "\"" ++ st.mode.name ++ str "\" line " ++ int_str (st.cursor_row + 1) ++
    str " of " ++ nat_str total ++ str " --" ++ int_str pct ++ str "%--"

/-- `JsonEditor._handle_pending`: resolve a two-character command. -/
def handle_pending {J : Type} (lib : Jsonlib J) (st : Ed) (ch : Option Char)
    (key : String) : Ed :=
  if key = "escape" ∨ ch = none then
    dot_stop { st with pending := [], status_msg := [] }
  else
    match ch with
    | none => st
    | some c =>
      let combo := st.pending ++ [c]
      let st := { st with pending := [] }
      if st.read_only ∧ combo ≠ str "yy" ∧ combo ≠ str "gg" ∧ combo ≠ str "ej" then
        { st with status_msg := str "[readonly]" }
      else if combo = str "dd" then
        let st := save_undo st
        let st := { st with yank_buffer := [line_at st] }
        let st :=
          if st.lines.length > 1 then
            let lines := py_pop st.lines st.cursor_row
            let st := { st with lines := lines }
            if st.cursor_row ≥ (lines.length : Int) then
              { st with cursor_row := (lines.length : Int) - 1 }
            else st
          else { st with lines := py_set st.lines 0 [] }
        dot_stop { st with cursor_col := 0, status_msg := str "line deleted" }
      else if combo = str "dw" then
        dot_stop (delete_word (save_undo st))
      else if combo = str "d$" then
        let st := save_undo st
        let line := line_at st
        dot_stop { st with
          lines := py_set st.lines st.cursor_row (line.take st.cursor_col.toNat) }
      else if combo = str "d0" then
        let st := save_undo st
        let line := line_at st
        dot_stop { st with
          lines := py_set st.lines st.cursor_row (line.drop st.cursor_col.toNat)
          cursor_col := 0 }
      else if combo = str "cw" then
        enter_insert (delete_word (save_undo st))
      else if combo = str "cc" then
        let st := save_undo st
        let indent := current_indent st
        let st := { st with yank_buffer := [line_at st] }
        enter_insert { st with
          lines := py_set st.lines st.cursor_row (List.replicate indent ' ')
          cursor_col := (indent : Int) }
      else if combo = str "yy" then
        { st with yank_buffer := [line_at st], status_msg := str "line yanked" }
      else if combo = str "gg" then
        { st with cursor_row := 0, cursor_col := 0 }
      else if combo.length = 2 ∧ combo.head? = some 'r' then
        let st := save_undo st
        let line := line_at st
        let st :=
          if st.cursor_col < (line.length : Int) then
            { st with lines := (py_set st.lines st.cursor_row
                (line.take st.cursor_col.toNat ++ [c] ++
                  line.drop (st.cursor_col.toNat + 1))) }
          else st
        dot_stop st
      else if combo = str "ej" then
        edit_embedded_json lib st
      else
        dot_stop { st with status_msg := str "unknown: " ++ combo }

/-- `JsonEditor._handle_normal`, with the `.`-repeat branch abstracted
into the `replay` callback (tied to the fuelled `dot_replay` below). -/
def handle_normal_f {J : Type} (lib : Jsonlib J) (replay : Ed → Ed) (st : Ed)
    (ev : KeyEvent) : Ed :=
  let key := ev.key
  let ch := ev.character
  if st.pending ≠ [] then handle_pending lib st ch key
  else if ch = some 'h' ∨ key = "left" then
    { st with cursor_col := st.cursor_col - 1 }
  else if ch = some 'j' ∨ key = "down" then
    { st with cursor_row := st.cursor_row + 1 }
  else if ch = some 'k' ∨ key = "up" then
    { st with cursor_row := st.cursor_row - 1 }
  else if ch = some 'l' ∨ key = "right" then
    { st with cursor_col := st.cursor_col + 1 }
  else if ch = some 'w' then move_word_forward st
  else if ch = some 'b' then move_word_backward st
  else if ch = some '0' then { st with cursor_col := 0 }
  else if ch = some '$' ∨ key = "end" then
    { st with cursor_col := max 0 (((line_at st).length : Int) - 1) }
  else if ch = some '^' ∨ key = "home" then
    let line := line_at st
    { st with cursor_col := ((line.length - (py_lstrip line).length : Nat) : Int) }
  else if ch = some 'G' then
    { st with cursor_row := (st.lines.length : Int) - 1 }
  else if ch = some '%' then jump_matching st
  else if key = "pagedown" ∨ key = "ctrl+f" then
    { st with cursor_row := st.cursor_row + visible_height st }
  else if key = "pageup" ∨ key = "ctrl+b" then
    { st with cursor_row := st.cursor_row - visible_height st }
  else if key = "ctrl+d" then
    { st with cursor_row := st.cursor_row + Int.fdiv (visible_height st) 2 }
  else if key = "ctrl+u" then
    { st with cursor_row := st.cursor_row - Int.fdiv (visible_height st) 2 }
  else if key = "ctrl+e" then
    { st with scroll_top := min (st.scroll_top + 1) ((st.lines.length : Int) - 1) }
  else if key = "ctrl+y" then
    { st with scroll_top := max (st.scroll_top - 1) 0 }
  else if key = "ctrl+g" then
    { st with status_msg := ctrl_g_msg st }
  else if ch = some 'i' then
    let st := if !st.read_only then dot_start st ev else st
    enter_insert st
  else if ch = some 'I' then
    let st := if !st.read_only then dot_start st ev else st
    let line := line_at st
    enter_insert { st with
      cursor_col := ((line.length - (py_lstrip line).length : Nat) : Int) }
  else if ch = some 'a' then
    let st := if !st.read_only then dot_start st ev else st
    enter_insert { st with cursor_col := st.cursor_col + 1 }
  else if ch = some 'A' then
    let st := if !st.read_only then dot_start st ev else st
    enter_insert { st with cursor_col := ((line_at st).length : Int) }
  else if ch = some 'o' then
    if st.read_only then { st with status_msg := str "[readonly]" }
    else
      let st := save_undo (dot_start st ev)
      let indent := current_indent st
      let before := py_rstrip (line_at st)
      let extra := if ends_with_open before then str "    " else ([] : PyStr)
      let row := st.cursor_row + 1
      enter_insert { st with
        cursor_row := row
        lines := py_insert st.lines row (List.replicate indent ' ' ++ extra)
        cursor_col := ((indent + extra.length : Nat) : Int) }
  else if ch = some 'O' then
    if st.read_only then { st with status_msg := str "[readonly]" }
    else
      let st := save_undo (dot_start st ev)
      let indent := current_indent st
      enter_insert { st with
        lines := py_insert st.lines st.cursor_row (List.replicate indent ' ')
        cursor_col := (indent : Int) }
  else if ch = some 'x' then
    if st.read_only then { st with status_msg := str "[readonly]" }
    else
      let st := save_undo (dot_stop (dot_start st ev))
      let line := line_at st
      if line ≠ [] ∧ st.cursor_col < (line.length : Int) then
        { st with lines := (py_set st.lines st.cursor_row
            (line.take st.cursor_col.toNat ++ line.drop (st.cursor_col.toNat + 1))) }
      else st
  else if ch = some 'p' then
    if st.read_only then { st with status_msg := str "[readonly]" }
    else paste_after (dot_stop (dot_start st ev))
  else if ch = some 'P' then
    if st.read_only then { st with status_msg := str "[readonly]" }
    else paste_before (dot_stop (dot_start st ev))
  else if ch = some 'u' then
    if st.read_only then { st with status_msg := str "[readonly]" }
    else undo st
  else if key = "ctrl+r" then
    if st.read_only then { st with status_msg := str "[readonly]" }
    else redo st
  else if ch = some 'J' then
    if st.read_only then { st with status_msg := str "[readonly]" }
    else join_lines (dot_stop (dot_start st ev))
  else if ch = some '.' then
    if !st.read_only then replay st else st
  else if ch = some 'd' ∨ ch = some 'c' ∨ ch = some 'y' ∨ ch = some 'r' ∨
      ch = some 'g' ∨ ch = some 'e' then
    if st.read_only ∧ ¬(ch = some 'y' ∨ ch = some 'g' ∨ ch = some 'e') then
      { st with status_msg := str "[readonly]" }
    else
      let st := if ¬(ch = some 'y' ∨ ch = some 'g' ∨ ch = some 'e') then
        dot_start st ev else st
      { st with pending := ch.toList }
  else if ch = some ':' then
    { st with mode := .COMMAND, command_buffer := [], status_msg := [] }
  else st

/-- One step of `JsonEditor._dot_replay`'s loop: dispatch the replayed
event by mode, then re-clamp. -/
def replay_step {J : Type} (lib : Jsonlib J) (replay : Ed → Ed) (st : Ed)
    (ev : KeyEvent) : Ed :=
  let st' :=
    if st.mode = .NORMAL then handle_normal_f lib replay st ev
    else if st.mode = .INSERT then handle_insert lib st ev
    else st
  clamp_cursor st'

/-- `JsonEditor._dot_replay`.  Python recursion (a replayed `.`, never
reachable from a recorded buffer) is modelled by the `fuel` parameter;
at fuel 0 a nested replay is a no-op.  The theorems hold for every
fuel. -/
def dot_replay {J : Type} (lib : Jsonlib J) : Nat → Ed → Ed
  | 0, st => st
  | fuel + 1, st =>
      if st.dot_buffer = [] then st
      else
        let st1 := { st with dot_replaying := true }
        let st2 := st1.dot_buffer.foldl (replay_step lib (dot_replay lib fuel)) st1
        { st2 with dot_replaying := false }

/-- `JsonEditor._handle_normal`. -/
def handle_normal {J : Type} (lib : Jsonlib J) (fuel : Nat) (st : Ed)
    (ev : KeyEvent) : Ed :=
  handle_normal_f lib (dot_replay lib fuel) st ev

/-- `JsonEditor.on_key`: record for dot-repeat, dispatch by mode,
re-clamp. -/
def on_key {J : Type} (lib : Jsonlib J) (fuel : Nat) (st : Ed) (ev : KeyEvent) : Ed :=
  let st :=
    if ¬st.dot_replaying ∧ st.dot_recording then
      { st with dot_buffer := st.dot_buffer ++ [ev] }
    else st
  let st :=
    if st.mode = .NORMAL then handle_normal lib fuel st ev
    else if st.mode = .INSERT then handle_insert lib st ev
    else handle_command lib st ev
  clamp_cursor st

/-- `JsonEditor.__init__`. -/
def mk_editor {J : Type} (lib : Jsonlib J) (initial_content : PyStr)
    (read_only jsonl : Bool) (height : Int) : Ed :=
  let content :=
    if jsonl ∧ initial_content ≠ [] then jsonl_to_pretty lib initial_content
    else initial_content
  { read_only := read_only
    jsonl := jsonl
    lines := if content ≠ [] then split_nl content else [[]]
    cursor_row := 0, cursor_col := 0
    mode := .NORMAL
    command_buffer := [], pending := [], status_msg := []
    undo_stack := [], redo_stack := [], yank_buffer := []
    scroll_top := 0
    dot_buffer := [], dot_recording := false, dot_replaying := false
    height := height
    posted := [] }

/-- Process a sequence of key events through `on_key`. -/
def run_keys {J : Type} (lib : Jsonlib J) (fuel : Nat) : Ed → List KeyEvent → Ed
  | st, [] => st
  | st, ev :: evs => run_keys lib fuel (on_key lib fuel st ev) evs

/-- The dot-repeat recording step at the top of `on_key`. -/
def rec_key (st : Ed) (ev : KeyEvent) : Ed :=
  if ¬st.dot_replaying ∧ st.dot_recording then
    { st with dot_buffer := st.dot_buffer ++ [ev] }
  else st

/-- The states reachable from a freshly constructed editor by any
sequence of key events (any contents, flags, geometry, fuel). -/
inductive Reachable {J : Type} (lib : Jsonlib J) : Ed → Prop
  | init (initial_content : PyStr) (read_only jsonl : Bool) (height : Int) :
      Reachable lib (mk_editor lib initial_content read_only jsonl height)
  | step {st : Ed} (fuel : Nat) (ev : KeyEvent) :
      Reachable lib st → Reachable lib (on_key lib fuel st ev)

/-! ## Diff engine (`jvim/diff.py`)

`difflib.SequenceMatcher(None, a, b).get_opcodes()` is the external
line-sequence matching primitive; it is modelled as a `Matcher`
parameter producing a list of opcodes. -/

namespace Diff

inductive DiffTag
  | EQUAL
  | INSERT
  | DELETE
  | REPLACE
deriving DecidableEq, Repr

structure DiffHunk where
  left_start : Nat
  left_count : Nat
  right_start : Nat
  right_count : Nat
  tag : DiffTag
deriving DecidableEq, Repr

structure DiffResult where
  left_lines : List PyStr := []
  right_lines : List PyStr := []
  left_line_tags : List DiffTag := []
  right_line_tags : List DiffTag := []
  hunks : List DiffHunk := []
deriving DecidableEq, Repr

/-- `DiffResult.append_pair`. -/
def DiffResult.append_pair (r : DiffResult) (left right : PyStr) (tag : DiffTag) :
    DiffResult :=
  { r with
    left_lines := r.left_lines ++ [left]
    right_lines := r.right_lines ++ [right]
    left_line_tags := r.left_line_tags ++ [tag]
    right_line_tags := r.right_line_tags ++ [tag] }

/-- `DiffResult.append_equal`: `for i in range(len(left_lines))`. -/
def DiffResult.append_equal (r : DiffResult) (ls rs : List PyStr) : DiffResult :=
  (List.range ls.length).foldl
    (fun r i => r.append_pair (ls.getD i []) (rs.getD i []) .EQUAL) r

/-- `DiffResult.append_hunk` (its `count` return value is unused by
every caller and is dropped here). -/
def DiffResult.append_hunk (r : DiffResult) (ls rs : List PyStr) (tag : DiffTag) :
    DiffResult :=
  let hunk_start := r.left_lines.length
  let count := max ls.length rs.length
  let r := (List.range count).foldl
    (fun r k => r.append_pair (ls.getD k []) (rs.getD k []) tag) r
  if count ≠ 0 then
    { r with hunks := r.hunks ++ [⟨hunk_start, count, hunk_start, count, tag⟩] }
  else r

/-- The tags of `SequenceMatcher.get_opcodes()`. -/
inductive OpTag
  | equal
  | delete
  | insert
  | replace
deriving DecidableEq, Repr

/-- One opcode `(tag, i1, i2, j1, j2)`. -/
abbrev Opcode := OpTag × Nat × Nat × Nat × Nat

/-- The external line-sequence matching primitive:
`SequenceMatcher(None, a, b).get_opcodes()`. -/
abbrev Matcher := List PyStr → List PyStr → List Opcode

/-- `_STR_TO_TAG` / `DiffTag[...]` (the source map has no `"equal"`
key; that path is never consulted with `equal`). -/
def op_to_tag : OpTag → DiffTag
  | .equal => .EQUAL
  | .delete => .DELETE
  | .insert => .INSERT
  | .replace => .REPLACE

/-- `xs[a:b]`. -/
def py_slice {α : Type} (xs : List α) (a b : Nat) : List α := (xs.take b).drop a

/-- `_line_diff`. -/
def line_diff (m : Matcher) (r : DiffResult) (ls rs : List PyStr) : DiffResult :=
  let hunk_start := r.left_lines.length
  let step := fun (acc : DiffResult × Nat) (op : Opcode) =>
    match op with
    | (.equal, i1, i2, j1, j2) =>
        (acc.1.append_equal (py_slice ls i1 i2) (py_slice rs j1 j2),
          acc.2 + (i2 - i1))
    | (tag, i1, i2, j1, j2) =>
        let dt := op_to_tag tag
        let mc := max (i2 - i1) (j2 - j1)
        let r := (List.range mc).foldl (fun r k =>
          r.append_pair
            (if k < i2 - i1 then ls.getD (i1 + k) [] else [])
            (if k < j2 - j1 then rs.getD (j1 + k) [] else []) dt) acc.1
        (r, acc.2 + mc)
  let res := (m ls rs).foldl step (r, 0)
  if res.2 ≠ 0 then
    { res.1 with hunks := res.1.hunks ++
        [⟨hunk_start, res.2, hunk_start, res.2, .REPLACE⟩] }
  else res.1

/-- `_dumps(obj, sort_keys)` of `diff.py`. -/
def dumps {J : Type} (lib : Jsonlib J) (sort_keys : Bool) (v : J) : PyStr :=
  if sort_keys then lib.dumps_indent_sorted v else lib.dumps_indent v

/-- `_try_format`. -/
def try_format {J : Type} (lib : Jsonlib J) (content : PyStr) (sort_keys : Bool) :
    PyStr :=
  match lib.loads content with
  | some v => dumps lib sort_keys v
  | none => content

/-- `format_json` of `diff.py`. -/
def format_json {J : Type} (lib : Jsonlib J) (content : PyStr) : PyStr :=
  try_format lib content false

/-- `normalize_json` of `diff.py`. -/
def normalize_json {J : Type} (lib : Jsonlib J) (content : PyStr) : PyStr :=
  try_format lib content true

/-- `_format_jsonl_records`. -/
def format_jsonl_records {J : Type} (lib : Jsonlib J) (content : PyStr)
    (sort_keys : Bool) : List PyStr :=
  (split_nl content).filterMap (fun line =>
    let stripped := py_strip line
    if stripped = [] then none
    else
      match lib.loads stripped with
      | some v => some (dumps lib sort_keys v)
      | none => some stripped)

/-- The `indent_counts` dict of `_detect_blocks`, as an
insertion-ordered association list. -/
def bump (counts : List (Nat × Nat)) (indent : Nat) : List (Nat × Nat) :=
  match counts with
  | [] => [(indent, 1)]
  | (k, v) :: rest =>
      if k = indent then (k, v + 1) :: rest else (k, v) :: bump rest indent

def indent_counts (lines : List PyStr) : List (Nat × Nat) :=
  lines.foldl (fun counts line =>
    let stripped := py_lstrip line
    if stripped ≠ [] ∧ (stripped.head? = some '{' ∨ stripped.head? = some '[') then
      bump counts (line.length - stripped.length)
    else counts) []

/-- `max(indent_counts, key=indent_counts.get)`: the first key of
maximal count in insertion order. -/
def best_of (counts : List (Nat × Nat)) : Option (Nat × Nat) :=
  counts.foldl (fun best kv =>
    match best with
    | none => some kv
    | some (bk, bv) => if kv.2 > bv then some kv else some (bk, bv)) none

/-- `_detect_blocks`. -/
def detect_blocks (lines : List PyStr) : Option (Nat × Nat) :=
  match best_of (indent_counts lines) with
  | none => none
  | some (best_indent, count) =>
      if count < 4 then none else some (best_indent, count)

/-- The line loop of `_build_segments` (`n` is `len(lines)`). -/
def build_segments_go (target n : Nat) :
    List PyStr → Nat → Option Nat → Nat → List (Nat × Nat)
  | [], _, block_start, gap_start =>
      match block_start with
      | some bs => [(bs, n)]
      | none => if gap_start < n then [(gap_start, n)] else []
  | line :: rest, i, block_start, gap_start =>
      let stripped := py_lstrip line
      if stripped = [] then
        build_segments_go target n rest (i + 1) block_start gap_start
      else if line.length - stripped.length ≠ target then
        build_segments_go target n rest (i + 1) block_start gap_start
      else if (stripped.head? = some '{' ∨ stripped.head? = some '[') ∧
          block_start = none then
        if gap_start < i then
          (gap_start, i) :: build_segments_go target n rest (i + 1) (some i) gap_start
        else build_segments_go target n rest (i + 1) (some i) gap_start
      else if (stripped.head? = some '}' ∨ stripped.head? = some ']') ∧
          block_start ≠ none then
        match block_start with
        | some bs => (bs, i + 1) :: build_segments_go target n rest (i + 1) none (i + 1)
        | none => build_segments_go target n rest (i + 1) block_start gap_start
      else
        build_segments_go target n rest (i + 1) block_start gap_start

/-- `_build_segments`. -/
def build_segments (lines : List PyStr) (target : Nat) : List (Nat × Nat) :=
  build_segments_go target lines.length lines 0 none 0

/-- `_handle_replace_segments`. -/
def handle_replace_segments (m : Matcher) (r : DiffResult)
    (left_src right_src : List PyStr) (left_segs right_segs : List (Nat × Nat)) :
    DiffResult :=
  let paired := min left_segs.length right_segs.length
  let r := (List.range paired).foldl (fun r k =>
    let lseg := left_segs.getD k (0, 0)
    let rseg := right_segs.getD k (0, 0)
    let l_lines := py_slice left_src lseg.1 lseg.2
    let r_lines := py_slice right_src rseg.1 rseg.2
    if l_lines = r_lines then r.append_equal l_lines r_lines
    else line_diff m r l_lines r_lines) r
  let r := (left_segs.drop paired).foldl
    (fun r seg => r.append_hunk (py_slice left_src seg.1 seg.2) [] .DELETE) r
  (right_segs.drop paired).foldl
    (fun r seg => r.append_hunk [] (py_slice right_src seg.1 seg.2) .INSERT) r

/-- `_compute_block_diff`. -/
def compute_block_diff (m : Matcher) (left_src right_src : List PyStr)
    (left_segs right_segs : List (Nat × Nat)) : DiffResult :=
  let left_keys := left_segs.map (fun seg => py_join (str "\n") (py_slice left_src seg.1 seg.2))
  let right_keys := right_segs.map (fun seg => py_join (str "\n") (py_slice right_src seg.1 seg.2))
  (m left_keys right_keys).foldl (fun r op =>
    match op with
    | (.equal, i1, i2, j1, _) =>
        (List.range (i2 - i1)).foldl (fun r k =>
          let lseg := left_segs.getD (i1 + k) (0, 0)
          let rseg := right_segs.getD (j1 + k) (0, 0)
          r.append_equal (py_slice left_src lseg.1 lseg.2)
            (py_slice right_src rseg.1 rseg.2)) r
    | (.delete, i1, i2, _, _) =>
        (List.range (i2 - i1)).foldl (fun r k =>
          let lseg := left_segs.getD (i1 + k) (0, 0)
          r.append_hunk (py_slice left_src lseg.1 lseg.2) [] .DELETE) r
    | (.insert, _, _, j1, j2) =>
        (List.range (j2 - j1)).foldl (fun r k =>
          let rseg := right_segs.getD (j1 + k) (0, 0)
          r.append_hunk [] (py_slice right_src rseg.1 rseg.2) .INSERT) r
    | (.replace, i1, i2, j1, j2) =>
        handle_replace_segments m r left_src right_src
          (py_slice left_segs i1 i2) (py_slice right_segs j1 j2)) {}

/-- `_FULL_DIFF_LIMIT`. -/
def FULL_DIFF_LIMIT : Nat := 50000

/-- `_make_full_replace`. -/
def make_full_replace (l r : List PyStr) : DiffResult :=
  DiffResult.append_hunk {} l r .REPLACE

/-- `_compute_line_diff_full`. -/
def compute_line_diff_full (m : Matcher) (l r : List PyStr) : DiffResult :=
  if l.length + r.length > FULL_DIFF_LIMIT then make_full_replace l r
  else
    (m l r).foldl (fun res op =>
      match op with
      | (.equal, i1, i2, j1, j2) =>
          res.append_equal (py_slice l i1 i2) (py_slice r j1 j2)
      | (.delete, i1, i2, _, _) => res.append_hunk (py_slice l i1 i2) [] .DELETE
      | (.insert, _, _, j1, j2) => res.append_hunk [] (py_slice r j1 j2) .INSERT
      | (.replace, i1, i2, j1, j2) =>
          res.append_hunk (py_slice l i1 i2) (py_slice r j1 j2) .REPLACE) {}

/-- `_compute_line_diff`. -/
def compute_line_diff (m : Matcher) (l r : List PyStr) : DiffResult :=
  match detect_blocks l, detect_blocks r with
  | some lb, some rb =>
      if lb.1 = rb.1 then
        compute_block_diff m l r (build_segments l lb.1) (build_segments r lb.1)
      else compute_line_diff_full m l r
  | _, _ => compute_line_diff_full m l r

/-- `_jsonl_sep`. -/
def jsonl_sep (r : DiffResult) (tag : DiffTag) (first : Bool) : DiffResult × Bool :=
  (if !first then r.append_pair [] [] tag else r, false)

/-- `_compute_jsonl_diff`. -/
def compute_jsonl_diff {J : Type} (m : Matcher) (lib : Jsonlib J)
    (left right : PyStr) (normalize : Bool) : DiffResult :=
  let lrec := format_jsonl_records lib left normalize
  let rrec := format_jsonl_records lib right normalize
  let step := fun (acc : DiffResult × Bool) (op : Opcode) =>
    match op with
    | (.equal, i1, i2, _, _) =>
        (List.range (i2 - i1)).foldl (fun (acc : DiffResult × Bool) k =>
          let s := jsonl_sep acc.1 .EQUAL acc.2
          ((split_nl (lrec.getD (i1 + k) [])).foldl
            (fun r line => r.append_pair line line .EQUAL) s.1, s.2)) acc
    | (.delete, i1, i2, _, _) =>
        (List.range (i2 - i1)).foldl (fun (acc : DiffResult × Bool) k =>
          let s := jsonl_sep acc.1 .DELETE acc.2
          (s.1.append_hunk (split_nl (lrec.getD (i1 + k) [])) [] .DELETE, s.2)) acc
    | (.insert, _, _, j1, j2) =>
        (List.range (j2 - j1)).foldl (fun (acc : DiffResult × Bool) k =>
          let s := jsonl_sep acc.1 .INSERT acc.2
          (s.1.append_hunk [] (split_nl (rrec.getD (j1 + k) [])) .INSERT, s.2)) acc
    | (.replace, i1, i2, j1, j2) =>
        let lc := i2 - i1
        let rc := j2 - j1
        let paired := min lc rc
        let acc := (List.range paired).foldl (fun (acc : DiffResult × Bool) k =>
          let s := jsonl_sep acc.1 .REPLACE acc.2
          let l_lines := split_nl (lrec.getD (i1 + k) [])
          let r_lines := split_nl (rrec.getD (j1 + k) [])
          if lrec.getD (i1 + k) [] = rrec.getD (j1 + k) [] then
            (l_lines.foldl (fun r line => r.append_pair line line .EQUAL) s.1, s.2)
          else (line_diff m s.1 l_lines r_lines, s.2)) acc
        let acc := (List.range (lc - paired)).foldl (fun (acc : DiffResult × Bool) k =>
          let s := jsonl_sep acc.1 .DELETE acc.2
          (s.1.append_hunk (split_nl (lrec.getD (i1 + paired + k) [])) [] .DELETE,
            s.2)) acc
        (List.range (rc - paired)).foldl (fun (acc : DiffResult × Bool) k =>
          let s := jsonl_sep acc.1 .INSERT acc.2
          (s.1.append_hunk [] (split_nl (rrec.getD (j1 + paired + k) [])) .INSERT,
            s.2)) acc
  ((m lrec rrec).foldl step ({}, true)).1

/-- `compute_json_diff`. -/
def compute_json_diff {J : Type} (m : Matcher) (lib : Jsonlib J)
    (left right : PyStr) (normalize : Bool) (jsonl : Bool) : DiffResult :=
  if jsonl then compute_jsonl_diff m lib left right normalize
  else
    let fmt := fun c => if normalize then normalize_json lib c else format_json lib c
    compute_line_diff m (split_nl (fmt left)) (split_nl (fmt right))

end Diff

/-! ## Editor invariants -/

/-- Every snapshot on an undo/redo stack has a non-empty buffer. -/
def stack_ok (s : List Snapshot) : Prop := ∀ e ∈ s, e.1 ≠ []

/-- The structural invariant of the editor state: the buffer is never
empty, stack snapshots have non-empty buffers, and the two history
stacks together hold at most 200 entries. -/
def CoreInv (st : Ed) : Prop :=
  st.lines ≠ [] ∧ stack_ok st.undo_stack ∧ stack_ok st.redo_stack ∧
  st.undo_stack.length + st.redo_stack.length ≤ 200

/-- `CoreInv` plus the cursor-row bound that holds whenever a handler
is entered (re-established by `_clamp_cursor`). -/
def EntryInv (st : Ed) : Prop :=
  CoreInv st ∧ 0 ≤ st.cursor_row ∧ st.cursor_row < (st.lines.length : Int)

/-- The full cursor condition of the spec, as established by
`_clamp_cursor`. -/
def cursor_ok (st : Ed) : Prop :=
  0 ≤ st.cursor_row ∧ st.cursor_row < (st.lines.length : Int) ∧
  0 ≤ st.cursor_col ∧ st.cursor_col ≤ ((line_at st).length : Int) ∧
  (st.mode = .NORMAL → line_at st ≠ [] →
    st.cursor_col ≤ ((line_at st).length : Int) - 1)

theorem core_of_fields {s t : Ed} (h : CoreInv s) (hl : t.lines = s.lines)
    (hu : t.undo_stack = s.undo_stack) (hr : t.redo_stack = s.redo_stack) :
    CoreInv t := by
  obtain ⟨h1, h2, h3, h4⟩ := h
  exact ⟨hl ▸ h1, hu ▸ h2, hr ▸ h3, by rw [hu, hr]; exact h4⟩

theorem entry_of_fields {s t : Ed} (h : EntryInv s) (hl : t.lines = s.lines)
    (hu : t.undo_stack = s.undo_stack) (hr : t.redo_stack = s.redo_stack)
    (hrow : t.cursor_row = s.cursor_row) : EntryInv t := by
  obtain ⟨h1, h2, h3⟩ := h
  exact ⟨core_of_fields h1 hl hu hr, hrow ▸ h2, by rw [hrow, hl]; exact h3⟩

theorem split_nl_ne_nil (s : PyStr) : split_nl s ≠ [] :=
  List.splitOnP_ne_nil _ s

theorem py_set_length {α : Type} (xs : List α) (i : Int) (v : α) :
    (py_set xs i v).length = xs.length := by
  unfold py_set
  split
  · exact List.length_set xs _ v
  · rfl

theorem py_set_ne_nil {α : Type} {xs : List α} (h : xs ≠ []) (i : Int) (v : α) :
    py_set xs i v ≠ [] := by
  have := py_set_length xs i v
  have h2 : 0 < xs.length := List.length_pos.mpr h
  exact List.length_pos.mp (by omega)

theorem py_insert_length {α : Type} (xs : List α) (i : Int) (v : α) :
    (py_insert xs i v).length = xs.length + 1 := by
  unfold py_insert
  exact List.length_insertIdx _ _ (by omega)

theorem py_insert_ne_nil {α : Type} (xs : List α) (i : Int) (v : α) :
    py_insert xs i v ≠ [] := by
  have := py_insert_length xs i v
  exact List.length_pos.mp (by omega)

theorem py_pop_length {α : Type} (xs : List α) (i : Int) :
    (py_pop xs i).length = if 0 ≤ i ∧ i < (xs.length : Int)
      then xs.length - 1 else xs.length := by
  unfold py_pop
  split
  · next h => exact List.length_eraseIdx_of_lt (by omega)
  · rfl

theorem py_pop_ne_nil {α : Type} {xs : List α} (h2 : 2 ≤ xs.length) (i : Int) :
    py_pop xs i ≠ [] := by
  have := py_pop_length xs i
  apply List.length_pos.mp
  split at this <;> omega

theorem insert_all_length (ys : List PyStr) :
    ∀ (xs : List PyStr) (pos : Int),
      (insert_all xs pos ys).length = xs.length + ys.length := by
  induction ys with
  | nil => intro xs pos; simp [insert_all]
  | cons y ys ih =>
      intro xs pos
      simp only [insert_all]
      rw [ih, py_insert_length]
      simp only [List.length_cons]
      omega

theorem insert_all_ne_nil {xs : List PyStr} (h : xs ≠ []) (pos : Int)
    (ys : List PyStr) : insert_all xs pos ys ≠ [] := by
  have := insert_all_length ys xs pos
  have h2 : 0 < xs.length := List.length_pos.mpr h
  exact List.length_pos.mp (by omega)

theorem stack_ok_append {u : List Snapshot} {e : Snapshot} (hu : stack_ok u)
    (he : e.1 ≠ []) : stack_ok (u ++ [e]) := by
  intro x hx
  rcases List.mem_append.mp hx with h | h
  · exact hu x h
  · rcases List.mem_singleton.mp h with rfl
    exact he

theorem stack_ok_tail {u : List Snapshot} (hu : stack_ok u) : stack_ok u.tail :=
  fun x hx => hu x ((List.tail_sublist u).subset hx)

theorem stack_ok_dropLast {u : List Snapshot} (hu : stack_ok u) :
    stack_ok u.dropLast :=
  fun x hx => hu x ((List.dropLast_sublist u).subset hx)

/-! Projection lemmas for the state helpers, used to evaluate
individual operations symbolically. -/
@[simp] theorem clamp_cursor_read_only (s : Ed) : (clamp_cursor s).read_only = s.read_only := rfl
@[simp] theorem clamp_cursor_jsonl (s : Ed) : (clamp_cursor s).jsonl = s.jsonl := rfl
@[simp] theorem clamp_cursor_lines (s : Ed) : (clamp_cursor s).lines = s.lines := rfl
@[simp] theorem clamp_cursor_mode (s : Ed) : (clamp_cursor s).mode = s.mode := rfl
@[simp] theorem clamp_cursor_command_buffer (s : Ed) : (clamp_cursor s).command_buffer = s.command_buffer := rfl
@[simp] theorem clamp_cursor_pending (s : Ed) : (clamp_cursor s).pending = s.pending := rfl
@[simp] theorem clamp_cursor_status_msg (s : Ed) : (clamp_cursor s).status_msg = s.status_msg := rfl
@[simp] theorem clamp_cursor_undo_stack (s : Ed) : (clamp_cursor s).undo_stack = s.undo_stack := rfl
@[simp] theorem clamp_cursor_redo_stack (s : Ed) : (clamp_cursor s).redo_stack = s.redo_stack := rfl
@[simp] theorem clamp_cursor_yank_buffer (s : Ed) : (clamp_cursor s).yank_buffer = s.yank_buffer := rfl
@[simp] theorem clamp_cursor_scroll_top (s : Ed) : (clamp_cursor s).scroll_top = s.scroll_top := rfl
@[simp] theorem clamp_cursor_dot_buffer (s : Ed) : (clamp_cursor s).dot_buffer = s.dot_buffer := rfl
@[simp] theorem clamp_cursor_dot_recording (s : Ed) : (clamp_cursor s).dot_recording = s.dot_recording := rfl
@[simp] theorem clamp_cursor_dot_replaying (s : Ed) : (clamp_cursor s).dot_replaying = s.dot_replaying := rfl
@[simp] theorem clamp_cursor_height (s : Ed) : (clamp_cursor s).height = s.height := rfl
@[simp] theorem clamp_cursor_posted (s : Ed) : (clamp_cursor s).posted = s.posted := rfl
@[simp] theorem save_undo_read_only (s : Ed) : (save_undo s).read_only = s.read_only := rfl
@[simp] theorem save_undo_jsonl (s : Ed) : (save_undo s).jsonl = s.jsonl := rfl
@[simp] theorem save_undo_lines (s : Ed) : (save_undo s).lines = s.lines := rfl
@[simp] theorem save_undo_cursor_row (s : Ed) : (save_undo s).cursor_row = s.cursor_row := rfl
@[simp] theorem save_undo_cursor_col (s : Ed) : (save_undo s).cursor_col = s.cursor_col := rfl
@[simp] theorem save_undo_mode (s : Ed) : (save_undo s).mode = s.mode := rfl
@[simp] theorem save_undo_command_buffer (s : Ed) : (save_undo s).command_buffer = s.command_buffer := rfl
@[simp] theorem save_undo_pending (s : Ed) : (save_undo s).pending = s.pending := rfl
@[simp] theorem save_undo_status_msg (s : Ed) : (save_undo s).status_msg = s.status_msg := rfl
@[simp] theorem save_undo_yank_buffer (s : Ed) : (save_undo s).yank_buffer = s.yank_buffer := rfl
@[simp] theorem save_undo_scroll_top (s : Ed) : (save_undo s).scroll_top = s.scroll_top := rfl
@[simp] theorem save_undo_dot_buffer (s : Ed) : (save_undo s).dot_buffer = s.dot_buffer := rfl
@[simp] theorem save_undo_dot_recording (s : Ed) : (save_undo s).dot_recording = s.dot_recording := rfl
@[simp] theorem save_undo_dot_replaying (s : Ed) : (save_undo s).dot_replaying = s.dot_replaying := rfl
@[simp] theorem save_undo_height (s : Ed) : (save_undo s).height = s.height := rfl
@[simp] theorem save_undo_posted (s : Ed) : (save_undo s).posted = s.posted := rfl
@[simp] theorem dot_start_read_only (s : Ed) (ev : KeyEvent) : (dot_start s ev).read_only = s.read_only := by unfold dot_start; split <;> rfl
@[simp] theorem dot_start_jsonl (s : Ed) (ev : KeyEvent) : (dot_start s ev).jsonl = s.jsonl := by unfold dot_start; split <;> rfl
@[simp] theorem dot_start_lines (s : Ed) (ev : KeyEvent) : (dot_start s ev).lines = s.lines := by unfold dot_start; split <;> rfl
@[simp] theorem dot_start_cursor_row (s : Ed) (ev : KeyEvent) : (dot_start s ev).cursor_row = s.cursor_row := by unfold dot_start; split <;> rfl
@[simp] theorem dot_start_cursor_col (s : Ed) (ev : KeyEvent) : (dot_start s ev).cursor_col = s.cursor_col := by unfold dot_start; split <;> rfl
@[simp] theorem dot_start_mode (s : Ed) (ev : KeyEvent) : (dot_start s ev).mode = s.mode := by unfold dot_start; split <;> rfl
@[simp] theorem dot_start_command_buffer (s : Ed) (ev : KeyEvent) : (dot_start s ev).command_buffer = s.command_buffer := by unfold dot_start; split <;> rfl
@[simp] theorem dot_start_pending (s : Ed) (ev : KeyEvent) : (dot_start s ev).pending = s.pending := by unfold dot_start; split <;> rfl
@[simp] theorem dot_start_status_msg (s : Ed) (ev : KeyEvent) : (dot_start s ev).status_msg = s.status_msg := by unfold dot_start; split <;> rfl
@[simp] theorem dot_start_undo_stack (s : Ed) (ev : KeyEvent) : (dot_start s ev).undo_stack = s.undo_stack := by unfold dot_start; split <;> rfl
@[simp] theorem dot_start_redo_stack (s : Ed) (ev : KeyEvent) : (dot_start s ev).redo_stack = s.redo_stack := by unfold dot_start; split <;> rfl
@[simp] theorem dot_start_yank_buffer (s : Ed) (ev : KeyEvent) : (dot_start s ev).yank_buffer = s.yank_buffer := by unfold dot_start; split <;> rfl
@[simp] theorem dot_start_scroll_top (s : Ed) (ev : KeyEvent) : (dot_start s ev).scroll_top = s.scroll_top := by unfold dot_start; split <;> rfl
@[simp] theorem dot_start_dot_replaying (s : Ed) (ev : KeyEvent) : (dot_start s ev).dot_replaying = s.dot_replaying := by unfold dot_start; split <;> rfl
@[simp] theorem dot_start_height (s : Ed) (ev : KeyEvent) : (dot_start s ev).height = s.height := by unfold dot_start; split <;> rfl
@[simp] theorem dot_start_posted (s : Ed) (ev : KeyEvent) : (dot_start s ev).posted = s.posted := by unfold dot_start; split <;> rfl
@[simp] theorem dot_stop_read_only (s : Ed) : (dot_stop s).read_only = s.read_only := rfl
@[simp] theorem dot_stop_jsonl (s : Ed) : (dot_stop s).jsonl = s.jsonl := rfl
@[simp] theorem dot_stop_lines (s : Ed) : (dot_stop s).lines = s.lines := rfl
@[simp] theorem dot_stop_cursor_row (s : Ed) : (dot_stop s).cursor_row = s.cursor_row := rfl
@[simp] theorem dot_stop_cursor_col (s : Ed) : (dot_stop s).cursor_col = s.cursor_col := rfl
@[simp] theorem dot_stop_mode (s : Ed) : (dot_stop s).mode = s.mode := rfl
@[simp] theorem dot_stop_command_buffer (s : Ed) : (dot_stop s).command_buffer = s.command_buffer := rfl
@[simp] theorem dot_stop_pending (s : Ed) : (dot_stop s).pending = s.pending := rfl
@[simp] theorem dot_stop_status_msg (s : Ed) : (dot_stop s).status_msg = s.status_msg := rfl
@[simp] theorem dot_stop_undo_stack (s : Ed) : (dot_stop s).undo_stack = s.undo_stack := rfl
@[simp] theorem dot_stop_redo_stack (s : Ed) : (dot_stop s).redo_stack = s.redo_stack := rfl
@[simp] theorem dot_stop_yank_buffer (s : Ed) : (dot_stop s).yank_buffer = s.yank_buffer := rfl
@[simp] theorem dot_stop_scroll_top (s : Ed) : (dot_stop s).scroll_top = s.scroll_top := rfl
@[simp] theorem dot_stop_dot_buffer (s : Ed) : (dot_stop s).dot_buffer = s.dot_buffer := rfl
@[simp] theorem dot_stop_dot_replaying (s : Ed) : (dot_stop s).dot_replaying = s.dot_replaying := rfl
@[simp] theorem dot_stop_height (s : Ed) : (dot_stop s).height = s.height := rfl
@[simp] theorem dot_stop_posted (s : Ed) : (dot_stop s).posted = s.posted := rfl
@[simp] theorem enter_insert_read_only (s : Ed) : (enter_insert s).read_only = s.read_only := by unfold enter_insert; split <;> rfl
@[simp] theorem enter_insert_jsonl (s : Ed) : (enter_insert s).jsonl = s.jsonl := by unfold enter_insert; split <;> rfl
@[simp] theorem enter_insert_lines (s : Ed) : (enter_insert s).lines = s.lines := by unfold enter_insert; split <;> rfl
@[simp] theorem enter_insert_cursor_row (s : Ed) : (enter_insert s).cursor_row = s.cursor_row := by unfold enter_insert; split <;> rfl
@[simp] theorem enter_insert_cursor_col (s : Ed) : (enter_insert s).cursor_col = s.cursor_col := by unfold enter_insert; split <;> rfl
@[simp] theorem enter_insert_command_buffer (s : Ed) : (enter_insert s).command_buffer = s.command_buffer := by unfold enter_insert; split <;> rfl
@[simp] theorem enter_insert_pending (s : Ed) : (enter_insert s).pending = s.pending := by unfold enter_insert; split <;> rfl
@[simp] theorem enter_insert_undo_stack (s : Ed) : (enter_insert s).undo_stack = s.undo_stack := by unfold enter_insert; split <;> rfl
@[simp] theorem enter_insert_redo_stack (s : Ed) : (enter_insert s).redo_stack = s.redo_stack := by unfold enter_insert; split <;> rfl
@[simp] theorem enter_insert_yank_buffer (s : Ed) : (enter_insert s).yank_buffer = s.yank_buffer := by unfold enter_insert; split <;> rfl
@[simp] theorem enter_insert_scroll_top (s : Ed) : (enter_insert s).scroll_top = s.scroll_top := by unfold enter_insert; split <;> rfl
@[simp] theorem enter_insert_dot_buffer (s : Ed) : (enter_insert s).dot_buffer = s.dot_buffer := by unfold enter_insert; split <;> rfl
@[simp] theorem enter_insert_dot_recording (s : Ed) : (enter_insert s).dot_recording = s.dot_recording := by unfold enter_insert; split <;> rfl
@[simp] theorem enter_insert_dot_replaying (s : Ed) : (enter_insert s).dot_replaying = s.dot_replaying := by unfold enter_insert; split <;> rfl
@[simp] theorem enter_insert_height (s : Ed) : (enter_insert s).height = s.height := by unfold enter_insert; split <;> rfl
@[simp] theorem enter_insert_posted (s : Ed) : (enter_insert s).posted = s.posted := by unfold enter_insert; split <;> rfl
@[simp] theorem save_undo_redo (s : Ed) : (save_undo s).redo_stack = [] := rfl

/-! Core-invariant preservation for the state helpers. -/

theorem save_undo_core {st : Ed} (h : CoreInv st) : CoreInv (save_undo st) := by
  obtain ⟨h1, h2, h3, h4⟩ := h
  unfold save_undo
  refine ⟨h1, ?_, ?_, ?_⟩
  · intro e he
    simp only at he
    split at he
    · exact stack_ok_tail (stack_ok_append h2 h1) e he
    · exact stack_ok_append h2 h1 e he
  · intro e he
    simp only [List.not_mem_nil] at he
  · simp only [List.length_nil, List.length_tail, List.length_append]
    split <;> simp_all <;> omega

theorem save_undo_entry {st : Ed} (h : EntryInv st) : EntryInv (save_undo st) :=
  ⟨save_undo_core h.1, h.2.1, h.2.2⟩

theorem undo_core {st : Ed} (h : CoreInv st) : CoreInv (undo st) := by
  obtain ⟨h1, h2, h3, h4⟩ := h
  unfold undo
  cases hlast : st.undo_stack.getLast? with
  | none => exact ⟨h1, h2, h3, h4⟩
  | some e =>
      obtain ⟨lines, row, col⟩ := e
      obtain ⟨ys, hys⟩ := List.getLast?_eq_some_iff.mp hlast
      have hmem : (lines, row, col) ∈ st.undo_stack := by
        rw [hys]; exact List.mem_append.mpr (Or.inr (List.mem_singleton.mpr rfl))
      refine ⟨h2 _ hmem, stack_ok_dropLast h2, stack_ok_append h3 h1, ?_⟩
      have hlen : st.undo_stack.length = ys.length + 1 := by
        rw [hys]; simp
      simp only [List.length_dropLast, List.length_append, List.length_cons,
        List.length_nil]
      omega

theorem clamp_core {st : Ed} (h : CoreInv st) : CoreInv (clamp_cursor st) :=
  core_of_fields h rfl rfl rfl

theorem clamp_entry {st : Ed} (h : CoreInv st) : EntryInv (clamp_cursor st) := by
  have hlen : 0 < st.lines.length := List.length_pos.mpr h.1
  refine ⟨clamp_core h, ?_, ?_⟩
  · show (0 : Int) ≤ max 0 (min st.cursor_row ((st.lines.length : Int) - 1))
    omega
  · show max 0 (min st.cursor_row ((st.lines.length : Int) - 1)) <
      (st.lines.length : Int)
    omega

theorem clamp_cursor_ok {st : Ed} (h : CoreInv st) : cursor_ok (clamp_cursor st) := by
  have hlen : 0 < st.lines.length := List.length_pos.mpr h.1
  unfold cursor_ok clamp_cursor line_at
  simp only
  constructor
  · omega
  constructor
  · omega
  set row := max 0 (min st.cursor_row ((st.lines.length : Int) - 1)) with hrow
  set line := py_get st.lines row ([] : PyStr) with hline
  constructor
  · exact le_max_left _ _
  constructor
  · split
    · split <;> omega
    · omega
  · intro hmode hne
    rw [if_pos hmode]
    have hl : line.length ≠ 0 := fun hz => hne (List.eq_nil_of_length_eq_zero hz)
    rw [if_pos (by exact_mod_cast hl)]
    omega

theorem dot_start_core {st : Ed} {ev : KeyEvent} (h : CoreInv st) :
    CoreInv (dot_start st ev) := by
  unfold dot_start
  split
  · exact h
  · exact core_of_fields h rfl rfl rfl

theorem dot_start_entry {st : Ed} {ev : KeyEvent} (h : EntryInv st) :
    EntryInv (dot_start st ev) := by
  unfold dot_start
  split
  · exact h
  · exact entry_of_fields h rfl rfl rfl rfl

theorem dot_stop_core {st : Ed} (h : CoreInv st) : CoreInv (dot_stop st) :=
  core_of_fields h rfl rfl rfl

theorem dot_stop_entry {st : Ed} (h : EntryInv st) : EntryInv (dot_stop st) :=
  entry_of_fields h rfl rfl rfl rfl

theorem enter_insert_core {st : Ed} (h : CoreInv st) : CoreInv (enter_insert st) := by
  unfold enter_insert
  split
  · exact core_of_fields h rfl rfl rfl
  · exact core_of_fields h rfl rfl rfl

theorem paste_after_core {st : Ed} (h : CoreInv st) : CoreInv (paste_after st) := by
  unfold paste_after
  split
  · exact h
  · have h2 := save_undo_core h
    exact ⟨insert_all_ne_nil h2.1 _ _, h2.2.1, h2.2.2.1, h2.2.2.2⟩

theorem paste_before_core {st : Ed} (h : CoreInv st) : CoreInv (paste_before st) := by
  unfold paste_before
  split
  · exact h
  · have h2 := save_undo_core h
    exact ⟨insert_all_ne_nil h2.1 _ _, h2.2.1, h2.2.2.1, h2.2.2.2⟩

theorem join_lines_core {st : Ed} (h : EntryInv st) : CoreInv (join_lines st) := by
  obtain ⟨hc, hr0, hr1⟩ := h
  unfold join_lines
  split
  · exact hc
  · next hguard =>
      have h2 := save_undo_core hc
      refine ⟨?_, h2.2.1, h2.2.2.1, h2.2.2.2⟩
      apply py_pop_ne_nil
      rw [py_set_length, save_undo_lines]
      omega

theorem delete_word_core {st : Ed} (h : CoreInv st) : CoreInv (delete_word st) :=
  ⟨py_set_ne_nil h.1 _ _, h.2.1, h.2.2.1, h.2.2.2⟩

theorem move_word_forward_core {st : Ed} (h : CoreInv st) :
    CoreInv (move_word_forward st) := by
  unfold move_word_forward
  try dsimp only
  split
  · exact core_of_fields h rfl rfl rfl
  · exact core_of_fields h rfl rfl rfl

theorem move_word_backward_core {st : Ed} (h : CoreInv st) :
    CoreInv (move_word_backward st) := by
  unfold move_word_backward
  try dsimp only
  split
  · split
    · exact core_of_fields h rfl rfl rfl
    · exact h
  · exact core_of_fields h rfl rfl rfl

theorem search_fwd_core {st : Ed} {oc cc : Char} (h : CoreInv st) :
    CoreInv (search_fwd st oc cc) := by
  unfold search_fwd
  try dsimp only
  split
  · exact core_of_fields h rfl rfl rfl
  · exact h

theorem search_bwd_core {st : Ed} {cc oc : Char} (h : CoreInv st) :
    CoreInv (search_bwd st cc oc) := by
  unfold search_bwd
  try dsimp only
  split
  · exact core_of_fields h rfl rfl rfl
  · exact h

theorem jump_matching_core {st : Ed} (h : CoreInv st) :
    CoreInv (jump_matching st) := by
  unfold jump_matching
  try dsimp only
  split_ifs
  all_goals
    first
    | exact h
    | exact search_fwd_core h
    | exact search_bwd_core h

theorem edit_embedded_core {J : Type} (lib : Jsonlib J) {st : Ed}
    (h : CoreInv st) : CoreInv (edit_embedded_json lib st) := by
  unfold edit_embedded_json
  try dsimp only
  split
  · exact core_of_fields h rfl rfl rfl
  · split
    · exact core_of_fields h rfl rfl rfl
    · split
      · exact core_of_fields h rfl rfl rfl
      · exact core_of_fields h rfl rfl rfl

theorem format_jsonl_core {J : Type} (lib : Jsonlib J) {st : Ed}
    (h : CoreInv st) : CoreInv (format_jsonl lib st) := by
  unfold format_jsonl
  try dsimp only
  split
  · exact core_of_fields h rfl rfl rfl
  · have h2 := save_undo_core h
    exact ⟨split_nl_ne_nil _, h2.2.1, h2.2.2.1, h2.2.2.2⟩

theorem format_json_core {J : Type} (lib : Jsonlib J) {st : Ed}
    (h : CoreInv st) : CoreInv (format_json lib st) := by
  unfold format_json
  try dsimp only
  split
  · exact format_jsonl_core lib h
  · split
    · have h2 := save_undo_core h
      exact ⟨split_nl_ne_nil _, h2.2.1, h2.2.2.1, h2.2.2.2⟩
    · exact core_of_fields h rfl rfl rfl

theorem exec_command_core {J : Type} (lib : Jsonlib J) {st : Ed} (cmd : PyStr)
    (h : CoreInv st) : CoreInv (exec_command lib st cmd) := by
  unfold exec_command
  by_cases h1 : py_strip cmd = str "$"
  · rw [if_pos h1]; exact core_of_fields h rfl rfl rfl
  rw [if_neg h1]
  by_cases h2 : (py_strip cmd).length > 1 ∧ (py_strip cmd).head? = some 'l' ∧
      py_isdigit ((py_strip cmd).drop 1) = true
  · rw [if_pos h2]; exact core_of_fields h rfl rfl rfl
  rw [if_neg h2]
  by_cases h3 : py_isdigit (py_strip cmd) = true ∨ ((py_strip cmd).length > 1 ∧
      (py_strip cmd).head? = some 'p' ∧ py_isdigit ((py_strip cmd).drop 1) = true)
  · rw [if_pos h3]
    by_cases hj : st.jsonl = true
    · rw [if_pos hj]
      split
      · exact core_of_fields h rfl rfl rfl
      · exact core_of_fields h rfl rfl rfl
    · rw [if_neg hj]; exact core_of_fields h rfl rfl rfl
  rw [if_neg h3]
  by_cases hw : (if (py_split1 cmd).1.getLast? = some '!' then (py_split1 cmd).1.dropLast
      else (py_split1 cmd).1) = str "w"
  · rw [if_pos hw]
    try dsimp only
    repeat' split
    all_goals exact core_of_fields h rfl rfl rfl
  rw [if_neg hw]
  by_cases hq : (if (py_split1 cmd).1.getLast? = some '!' then (py_split1 cmd).1.dropLast
      else (py_split1 cmd).1) = str "q"
  · rw [if_pos hq]
    try dsimp only
    repeat' split
    all_goals exact core_of_fields h rfl rfl rfl
  rw [if_neg hq]
  by_cases hwq : (if (py_split1 cmd).1.getLast? = some '!' then (py_split1 cmd).1.dropLast
      else (py_split1 cmd).1) = str "wq" ∨
    (if (py_split1 cmd).1.getLast? = some '!' then (py_split1 cmd).1.dropLast
      else (py_split1 cmd).1) = str "x"
  · rw [if_pos hwq]
    try dsimp only
    repeat' split
    all_goals exact core_of_fields h rfl rfl rfl
  rw [if_neg hwq]
  by_cases he : (if (py_split1 cmd).1.getLast? = some '!' then (py_split1 cmd).1.dropLast
      else (py_split1 cmd).1) = str "e"
  · rw [if_pos he]
    try dsimp only
    repeat' split
    all_goals exact core_of_fields h rfl rfl rfl
  rw [if_neg he]
  by_cases hf : (if (py_split1 cmd).1.getLast? = some '!' then (py_split1 cmd).1.dropLast
      else (py_split1 cmd).1) = str "fmt" ∨
    (if (py_split1 cmd).1.getLast? = some '!' then (py_split1 cmd).1.dropLast
      else (py_split1 cmd).1) = str "format"
  · rw [if_pos hf]
    split
    · exact core_of_fields h rfl rfl rfl
    · exact format_json_core lib h
  rw [if_neg hf]
  by_cases hh : (if (py_split1 cmd).1.getLast? = some '!' then (py_split1 cmd).1.dropLast
      else (py_split1 cmd).1) = str "help"
  · rw [if_pos hh]
    exact core_of_fields h rfl rfl rfl
  rw [if_neg hh]
  exact core_of_fields h rfl rfl rfl

theorem redo_core {st : Ed} (h : CoreInv st) : CoreInv (redo st) := by
  obtain ⟨h1, h2, h3, h4⟩ := h
  unfold redo
  cases hlast : st.redo_stack.getLast? with
  | none => exact ⟨h1, h2, h3, h4⟩
  | some e =>
      obtain ⟨lines, row, col⟩ := e
      obtain ⟨ys, hys⟩ := List.getLast?_eq_some_iff.mp hlast
      have hmem : (lines, row, col) ∈ st.redo_stack := by
        rw [hys]; exact List.mem_append.mpr (Or.inr (List.mem_singleton.mpr rfl))
      refine ⟨h3 _ hmem, stack_ok_append h2 h1, stack_ok_dropLast h3, ?_⟩
      have hlen : st.redo_stack.length = ys.length + 1 := by
        rw [hys]; simp
      simp only [List.length_dropLast, List.length_append, List.length_cons,
        List.length_nil]
      omega

theorem py_pop_ne_nil_of_pos {α : Type} {xs : List α} (h : xs ≠ []) {i : Int}
    (hi : 1 ≤ i) : py_pop xs i ≠ [] := by
  have hlen := py_pop_length xs i
  have hpos := List.length_pos.mpr h
  apply List.length_pos.mp
  split at hlen <;> omega

theorem handle_insert_core {J : Type} (lib : Jsonlib J) {st : Ed}
    (h : CoreInv st) (ev : KeyEvent) : CoreInv (handle_insert lib st ev) := by
  unfold handle_insert
  have h2 := save_undo_core h
  by_cases h1 : ev.key = "escape"
  · rw [if_pos h1]; exact core_of_fields h rfl rfl rfl
  rw [if_neg h1]
  by_cases hb : ev.key = "backspace"
  · rw [if_pos hb]
    try dsimp only
    repeat' split
    · exact ⟨py_set_ne_nil h.1 _ _, h2.2.1, h2.2.2.1, h2.2.2.2⟩
    · exact ⟨py_pop_ne_nil_of_pos (py_set_ne_nil h2.1 _ _) (by omega),
        h2.2.1, h2.2.2.1, h2.2.2.2⟩
    · exact h2
  rw [if_neg hb]
  by_cases hen : ev.key = "enter"
  · rw [if_pos hen]
    try dsimp only
    repeat' split
    all_goals exact ⟨py_insert_ne_nil _ _ _, h2.2.1, h2.2.2.1, h2.2.2.2⟩
  rw [if_neg hen]
  by_cases ht : ev.key = "tab"
  · rw [if_pos ht]
    exact ⟨py_set_ne_nil h.1 _ _, h2.2.1, h2.2.2.1, h2.2.2.2⟩
  rw [if_neg ht]
  by_cases hke : ev.key = "end"
  · rw [if_pos hke]; exact core_of_fields h rfl rfl rfl
  rw [if_neg hke]
  by_cases hkh : ev.key = "home"
  · rw [if_pos hkh]; exact core_of_fields h rfl rfl rfl
  rw [if_neg hkh]
  by_cases hkl : ev.key = "left"
  · rw [if_pos hkl]; exact core_of_fields h rfl rfl rfl
  rw [if_neg hkl]
  by_cases hkr : ev.key = "right"
  · rw [if_pos hkr]; exact core_of_fields h rfl rfl rfl
  rw [if_neg hkr]
  by_cases hku : ev.key = "up"
  · rw [if_pos hku]; exact core_of_fields h rfl rfl rfl
  rw [if_neg hku]
  by_cases hkd : ev.key = "down"
  · rw [if_pos hkd]; exact core_of_fields h rfl rfl rfl
  rw [if_neg hkd]
  try dsimp only
  by_cases hcb : ev.character = some '}' ∨ ev.character = some ']'
  all_goals (
    first | rw [if_pos hcb] | rw [if_neg hcb]
    try dsimp only
    repeat' split
    all_goals
      first
      | exact h
      | exact h2
      | exact save_undo_core h2
      | exact ⟨py_set_ne_nil h.1 _ _, h2.2.1, h2.2.2.1, h2.2.2.2⟩
      | exact ⟨py_set_ne_nil h.1 _ _, h.2.1, h.2.2.1, h.2.2.2⟩
      | exact ⟨py_set_ne_nil h2.1 _ _, (save_undo_core h2).2.1,
          (save_undo_core h2).2.2.1, (save_undo_core h2).2.2.2⟩)

theorem handle_pending_core {J : Type} (lib : Jsonlib J) {st : Ed}
    (h : EntryInv st) (ch : Option Char) (key : String) :
    CoreInv (handle_pending lib st ch key) := by
  obtain ⟨hc, hr0, hr1⟩ := h
  unfold handle_pending
  by_cases h1 : key = "escape" ∨ ch = none
  · rw [if_pos h1]; exact core_of_fields hc rfl rfl rfl
  rw [if_neg h1]
  cases ch with
  | none => exact hc
  | some c =>
  try dsimp only
  by_cases hro : st.read_only = true ∧ st.pending ++ [c] ≠ str "yy" ∧
      st.pending ++ [c] ≠ str "gg" ∧ st.pending ++ [c] ≠ str "ej"
  · rw [if_pos hro]; exact core_of_fields hc rfl rfl rfl
  rw [if_neg hro]
  have h2 := save_undo_core hc
  by_cases hdd : st.pending ++ [c] = str "dd"
  · rw [if_pos hdd]
    try dsimp only
    repeat' split
    · exact ⟨py_pop_ne_nil (by omega) _, h2.2.1, h2.2.2.1, h2.2.2.2⟩
    · exact ⟨py_pop_ne_nil (by omega) _, h2.2.1, h2.2.2.1, h2.2.2.2⟩
    · exact ⟨py_set_ne_nil hc.1 _ _, h2.2.1, h2.2.2.1, h2.2.2.2⟩
  rw [if_neg hdd]
  by_cases hdw : st.pending ++ [c] = str "dw"
  · rw [if_pos hdw]
    exact dot_stop_core (delete_word_core h2)
  rw [if_neg hdw]
  by_cases hd4 : st.pending ++ [c] = str "d$"
  · rw [if_pos hd4]
    exact ⟨py_set_ne_nil hc.1 _ _, h2.2.1, h2.2.2.1, h2.2.2.2⟩
  rw [if_neg hd4]
  by_cases hd0 : st.pending ++ [c] = str "d0"
  · rw [if_pos hd0]
    exact ⟨py_set_ne_nil hc.1 _ _, h2.2.1, h2.2.2.1, h2.2.2.2⟩
  rw [if_neg hd0]
  by_cases hcw : st.pending ++ [c] = str "cw"
  · rw [if_pos hcw]
    exact enter_insert_core (delete_word_core h2)
  rw [if_neg hcw]
  by_cases hcc : st.pending ++ [c] = str "cc"
  · rw [if_pos hcc]
    exact enter_insert_core ⟨py_set_ne_nil hc.1 _ _, h2.2.1, h2.2.2.1, h2.2.2.2⟩
  rw [if_neg hcc]
  by_cases hyy : st.pending ++ [c] = str "yy"
  · rw [if_pos hyy]; exact core_of_fields hc rfl rfl rfl
  rw [if_neg hyy]
  by_cases hgg : st.pending ++ [c] = str "gg"
  · rw [if_pos hgg]; exact core_of_fields hc rfl rfl rfl
  rw [if_neg hgg]
  by_cases hr : (st.pending ++ [c]).length = 2 ∧ (st.pending ++ [c]).head? = some 'r'
  · rw [if_pos hr]
    try dsimp only
    repeat' split
    · exact dot_stop_core ⟨py_set_ne_nil hc.1 _ _, h2.2.1, h2.2.2.1, h2.2.2.2⟩
    · exact dot_stop_core h2
  rw [if_neg hr]
  by_cases hej : st.pending ++ [c] = str "ej"
  · rw [if_pos hej]
    exact edit_embedded_core lib hc
  rw [if_neg hej]
  exact dot_stop_core (core_of_fields hc rfl rfl rfl)

theorem handle_command_core {J : Type} (lib : Jsonlib J) {st : Ed}
    (h : CoreInv st) (ev : KeyEvent) : CoreInv (handle_command lib st ev) := by
  unfold handle_command
  by_cases h1 : ev.key = "escape"
  · rw [if_pos h1]; exact core_of_fields h rfl rfl rfl
  rw [if_neg h1]
  by_cases h2 : ev.key = "enter"
  · rw [if_pos h2]
    try dsimp only
    have hx := exec_command_core lib (py_strip st.command_buffer) h
    repeat' split
    all_goals exact core_of_fields hx rfl rfl rfl
  rw [if_neg h2]
  by_cases h3 : ev.key = "backspace"
  · rw [if_pos h3]
    split
    · exact core_of_fields h rfl rfl rfl
    · exact core_of_fields h rfl rfl rfl
  rw [if_neg h3]
  split
  · split
    · exact core_of_fields h rfl rfl rfl
    · exact h
  · exact h

theorem handle_normal_f_core {J : Type} (lib : Jsonlib J) (replay : Ed → Ed)
    (hrep : ∀ s, EntryInv s → CoreInv (replay s)) {st : Ed} (ev : KeyEvent)
    (h : EntryInv st) : CoreInv (handle_normal_f lib replay st ev) := by
  obtain ⟨hc, hr0, hr1⟩ := h
  unfold handle_normal_f
  try dsimp only
  by_cases c1 : st.pending ≠ []
  · rw [if_pos c1]; exact handle_pending_core lib ⟨hc, hr0, hr1⟩ _ _
  rw [if_neg c1]
  by_cases c2 : ev.character = some 'h' ∨ ev.key = "left"
  · rw [if_pos c2]; exact core_of_fields hc rfl rfl rfl
  rw [if_neg c2]
  by_cases c3 : ev.character = some 'j' ∨ ev.key = "down"
  · rw [if_pos c3]; exact core_of_fields hc rfl rfl rfl
  rw [if_neg c3]
  by_cases c4 : ev.character = some 'k' ∨ ev.key = "up"
  · rw [if_pos c4]; exact core_of_fields hc rfl rfl rfl
  rw [if_neg c4]
  by_cases c5 : ev.character = some 'l' ∨ ev.key = "right"
  · rw [if_pos c5]; exact core_of_fields hc rfl rfl rfl
  rw [if_neg c5]
  by_cases c6 : ev.character = some 'w'
  · rw [if_pos c6]; exact move_word_forward_core hc
  rw [if_neg c6]
  by_cases c7 : ev.character = some 'b'
  · rw [if_pos c7]; exact move_word_backward_core hc
  rw [if_neg c7]
  by_cases c8 : ev.character = some '0'
  · rw [if_pos c8]; exact core_of_fields hc rfl rfl rfl
  rw [if_neg c8]
  by_cases c9 : ev.character = some '$' ∨ ev.key = "end"
  · rw [if_pos c9]; exact core_of_fields hc rfl rfl rfl
  rw [if_neg c9]
  by_cases c10 : ev.character = some '^' ∨ ev.key = "home"
  · rw [if_pos c10]; exact core_of_fields hc rfl rfl rfl
  rw [if_neg c10]
  by_cases c11 : ev.character = some 'G'
  · rw [if_pos c11]; exact core_of_fields hc rfl rfl rfl
  rw [if_neg c11]
  by_cases c12 : ev.character = some '%'
  · rw [if_pos c12]; exact jump_matching_core hc
  rw [if_neg c12]
  by_cases c13 : ev.key = "pagedown" ∨ ev.key = "ctrl+f"
  · rw [if_pos c13]; exact core_of_fields hc rfl rfl rfl
  rw [if_neg c13]
  by_cases c14 : ev.key = "pageup" ∨ ev.key = "ctrl+b"
  · rw [if_pos c14]; exact core_of_fields hc rfl rfl rfl
  rw [if_neg c14]
  by_cases c15 : ev.key = "ctrl+d"
  · rw [if_pos c15]; exact core_of_fields hc rfl rfl rfl
  rw [if_neg c15]
  by_cases c16 : ev.key = "ctrl+u"
  · rw [if_pos c16]; exact core_of_fields hc rfl rfl rfl
  rw [if_neg c16]
  by_cases c17 : ev.key = "ctrl+e"
  · rw [if_pos c17]; exact core_of_fields hc rfl rfl rfl
  rw [if_neg c17]
  by_cases c18 : ev.key = "ctrl+y"
  · rw [if_pos c18]; exact core_of_fields hc rfl rfl rfl
  rw [if_neg c18]
  by_cases c19 : ev.key = "ctrl+g"
  · rw [if_pos c19]; exact core_of_fields hc rfl rfl rfl
  rw [if_neg c19]
  by_cases c20 : ev.character = some 'i'
  · rw [if_pos c20]
    refine enter_insert_core ?_
    split
    · exact dot_start_core hc
    · exact hc
  rw [if_neg c20]
  by_cases c21 : ev.character = some 'I'
  · rw [if_pos c21]
    refine enter_insert_core (core_of_fields ?_ rfl rfl rfl)
    split
    · exact dot_start_core hc
    · exact hc
  rw [if_neg c21]
  by_cases c22 : ev.character = some 'a'
  · rw [if_pos c22]
    refine enter_insert_core (core_of_fields ?_ rfl rfl rfl)
    split
    · exact dot_start_core hc
    · exact hc
  rw [if_neg c22]
  by_cases c23 : ev.character = some 'A'
  · rw [if_pos c23]
    refine enter_insert_core (core_of_fields ?_ rfl rfl rfl)
    split
    · exact dot_start_core hc
    · exact hc
  rw [if_neg c23]
  by_cases c24 : ev.character = some 'o'
  · rw [if_pos c24]
    split
    · exact core_of_fields hc rfl rfl rfl
    · have hx := save_undo_core (@dot_start_core st ev hc)
      exact enter_insert_core ⟨py_insert_ne_nil _ _ _, hx.2.1, hx.2.2.1, hx.2.2.2⟩
  rw [if_neg c24]
  by_cases c25 : ev.character = some 'O'
  · rw [if_pos c25]
    split
    · exact core_of_fields hc rfl rfl rfl
    · have hx := save_undo_core (@dot_start_core st ev hc)
      exact enter_insert_core ⟨py_insert_ne_nil _ _ _, hx.2.1, hx.2.2.1, hx.2.2.2⟩
  rw [if_neg c25]
  by_cases c26 : ev.character = some 'x'
  · rw [if_pos c26]
    split
    · exact core_of_fields hc rfl rfl rfl
    · have hx := save_undo_core (dot_stop_core (@dot_start_core st ev hc))
      try dsimp only
      split
      · exact ⟨py_set_ne_nil hx.1 _ _, hx.2.1, hx.2.2.1, hx.2.2.2⟩
      · exact hx
  rw [if_neg c26]
  by_cases c27 : ev.character = some 'p'
  · rw [if_pos c27]
    split
    · exact core_of_fields hc rfl rfl rfl
    · exact paste_after_core (dot_stop_core (dot_start_core hc))
  rw [if_neg c27]
  by_cases c28 : ev.character = some 'P'
  · rw [if_pos c28]
    split
    · exact core_of_fields hc rfl rfl rfl
    · exact paste_before_core (dot_stop_core (dot_start_core hc))
  rw [if_neg c28]
  by_cases c29 : ev.character = some 'u'
  · rw [if_pos c29]
    split
    · exact core_of_fields hc rfl rfl rfl
    · exact undo_core hc
  rw [if_neg c29]
  by_cases c30 : ev.key = "ctrl+r"
  · rw [if_pos c30]
    split
    · exact core_of_fields hc rfl rfl rfl
    · exact redo_core hc
  rw [if_neg c30]
  by_cases c31 : ev.character = some 'J'
  · rw [if_pos c31]
    split
    · exact core_of_fields hc rfl rfl rfl
    · exact join_lines_core (dot_stop_entry (dot_start_entry ⟨hc, hr0, hr1⟩))
  rw [if_neg c31]
  by_cases c32 : ev.character = some '.'
  · rw [if_pos c32]
    split
    · exact hrep st ⟨hc, hr0, hr1⟩
    · exact hc
  rw [if_neg c32]
  by_cases c33 : ev.character = some 'd' ∨ ev.character = some 'c' ∨
      ev.character = some 'y' ∨ ev.character = some 'r' ∨
      ev.character = some 'g' ∨ ev.character = some 'e'
  · rw [if_pos c33]
    split
    · exact core_of_fields hc rfl rfl rfl
    · refine core_of_fields ?_ rfl rfl rfl
      split
      · exact dot_start_core hc
      · exact hc
  rw [if_neg c33]
  by_cases c34 : ev.character = some ':'
  · rw [if_pos c34]; exact core_of_fields hc rfl rfl rfl
  rw [if_neg c34]
  exact hc


theorem replay_step_entry {J : Type} (lib : Jsonlib J) (replay : Ed → Ed)
    (hrep : ∀ s, EntryInv s → CoreInv (replay s)) {st : Ed} (ev : KeyEvent)
    (h : EntryInv st) : EntryInv (replay_step lib replay st ev) := by
  unfold replay_step
  try dsimp only
  apply clamp_entry
  split
  · exact handle_normal_f_core lib replay hrep ev h
  split
  · exact handle_insert_core lib h.1 ev
  · exact h.1

theorem foldl_replay_entry {J : Type} (lib : Jsonlib J) (replay : Ed → Ed)
    (hrep : ∀ s, EntryInv s → CoreInv (replay s)) :
    ∀ (evs : List KeyEvent) (st : Ed), EntryInv st →
      EntryInv (evs.foldl (replay_step lib replay) st) := by
  intro evs
  induction evs with
  | nil => intro st h; exact h
  | cons ev evs ih =>
      intro st h
      exact ih _ (replay_step_entry lib replay hrep ev h)

theorem dot_replay_entry {J : Type} (lib : Jsonlib J) :
    ∀ (fuel : Nat) (st : Ed), EntryInv st → EntryInv (dot_replay lib fuel st) := by
  intro fuel
  induction fuel with
  | zero => intro st h; exact h
  | succ n ih =>
      intro st h
      unfold dot_replay
      split
      · exact h
      · refine entry_of_fields ?_ rfl rfl rfl rfl
        exact foldl_replay_entry lib _ (fun s hs => (ih s hs).1) _ _
          (entry_of_fields h rfl rfl rfl rfl)

theorem handle_normal_core {J : Type} (lib : Jsonlib J) (fuel : Nat) {st : Ed}
    (ev : KeyEvent) (h : EntryInv st) : CoreInv (handle_normal lib fuel st ev) :=
  handle_normal_f_core lib _ (fun s hs => (dot_replay_entry lib fuel s hs).1) ev h

theorem on_key_entry {J : Type} (lib : Jsonlib J) (fuel : Nat) {st : Ed}
    (ev : KeyEvent) (h : EntryInv st) :
    EntryInv (on_key lib fuel st ev) ∧ cursor_ok (on_key lib fuel st ev) := by
  have hdis : ∀ s : Ed, EntryInv s →
      CoreInv (if s.mode = .NORMAL then handle_normal lib fuel s ev
        else if s.mode = .INSERT then handle_insert lib s ev
        else handle_command lib s ev) := by
    intro s hs
    split
    · exact handle_normal_core lib fuel ev hs
    split
    · exact handle_insert_core lib hs.1 ev
    · exact handle_command_core lib hs.1 ev
  have h0 : EntryInv (if ¬st.dot_replaying = true ∧ st.dot_recording = true then
      { st with dot_buffer := st.dot_buffer ++ [ev] } else st) := by
    split
    · exact entry_of_fields h rfl rfl rfl rfl
    · exact h
  unfold on_key
  try dsimp only
  exact ⟨clamp_entry (hdis _ h0), clamp_cursor_ok (hdis _ h0)⟩

theorem mk_editor_entry {J : Type} (lib : Jsonlib J) (content : PyStr)
    (ro jsonl : Bool) (height : Int) :
    EntryInv (mk_editor lib content ro jsonl height) := by
  unfold mk_editor
  try dsimp only
  have hne : ∀ c : PyStr, (if c ≠ [] then split_nl c else [[]]) ≠ [] := by
    intro c
    split
    · exact split_nl_ne_nil c
    · simp
  refine ⟨⟨hne _, ?_, ?_, ?_⟩, le_refl 0, ?_⟩
  · intro e he; simp at he
  · intro e he; simp at he
  · simp
  · dsimp only
    exact_mod_cast List.length_pos.mpr (hne _)

theorem reachable_entry {J : Type} (lib : Jsonlib J) {st : Ed}
    (h : Reachable lib st) : EntryInv st := by
  induction h with
  | init c ro j hgt => exact mk_editor_entry lib c ro j hgt
  | step fuel ev hr ih => exact (on_key_entry lib fuel ev ih).1

/-- The Python `json` hooks instantiated trivially, for concrete
witness states. -/
def triv_lib : Jsonlib Unit :=
  ⟨fun _ => none, fun _ => [], fun _ => 0, fun _ => [], fun _ => [],
    fun _ => none, fun _ => [], fun _ => false, fun _ => []⟩

/-- C1: after every key event processed by `on_key`, the cursor
satisfies `0 ≤ cursor_row < len(lines)` and
`0 ≤ cursor_col ≤ len(lines[cursor_row])`, and in Normal mode on a
non-empty line `cursor_col ≤ len(line) - 1`; this holds for every
sequence of key events from any initial content. -/
theorem cursor_invariant {J : Type} (lib : Jsonlib J) {st : Ed}
    (h : Reachable lib st) :
    0 ≤ st.cursor_row ∧ st.cursor_row < (st.lines.length : Int) ∧
    0 ≤ st.cursor_col ∧ st.cursor_col ≤ ((line_at st).length : Int) ∧
    (st.mode = .NORMAL → line_at st ≠ [] →
      st.cursor_col ≤ ((line_at st).length : Int) - 1) := by
  induction h with
  | init c ro j hgt =>
      obtain ⟨hc, hr0, hr1⟩ := mk_editor_entry lib c ro j hgt
      have hcol : (mk_editor lib c ro j hgt).cursor_col = 0 := rfl
      refine ⟨hr0, hr1, by rw [hcol], by rw [hcol]; positivity, ?_⟩
      intro _ hne
      rw [hcol]
      have := List.length_pos.mpr hne
      omega
  | step fuel ev hr ih =>
      exact (on_key_entry lib fuel ev (reachable_entry lib hr)).2

/-- Witness for C1: one `j` keypress on a fresh two-line editor. -/
theorem cursor_invariant_w :
    0 ≤ (on_key triv_lib 1 (mk_editor triv_lib (str "ab") false false 10)
      ⟨"down", some 'j'⟩).cursor_row ∧
    (on_key triv_lib 1 (mk_editor triv_lib (str "ab") false false 10)
      ⟨"down", some 'j'⟩).cursor_row <
      ((on_key triv_lib 1 (mk_editor triv_lib (str "ab") false false 10)
        ⟨"down", some 'j'⟩).lines.length : Int) ∧
    0 ≤ (on_key triv_lib 1 (mk_editor triv_lib (str "ab") false false 10)
      ⟨"down", some 'j'⟩).cursor_col ∧
    (on_key triv_lib 1 (mk_editor triv_lib (str "ab") false false 10)
      ⟨"down", some 'j'⟩).cursor_col ≤
      ((line_at (on_key triv_lib 1 (mk_editor triv_lib (str "ab") false false 10)
        ⟨"down", some 'j'⟩)).length : Int) ∧
    ((on_key triv_lib 1 (mk_editor triv_lib (str "ab") false false 10)
      ⟨"down", some 'j'⟩).mode = .NORMAL →
      line_at (on_key triv_lib 1 (mk_editor triv_lib (str "ab") false false 10)
        ⟨"down", some 'j'⟩) ≠ [] →
      (on_key triv_lib 1 (mk_editor triv_lib (str "ab") false false 10)
        ⟨"down", some 'j'⟩).cursor_col ≤
        ((line_at (on_key triv_lib 1 (mk_editor triv_lib (str "ab") false false 10)
          ⟨"down", some 'j'⟩)).length : Int) - 1) :=
  cursor_invariant triv_lib
    (Reachable.step 1 ⟨"down", some 'j'⟩ (Reachable.init (str "ab") false false 10))

/-- C3: at every reachable state the undo stack holds at most 200
entries; `_save_undo` always clears the redo stack, and a push at the
bound evicts the oldest entry (the head of the stack) first. -/
theorem undo_stack_bound {J : Type} (lib : Jsonlib J) {st : Ed}
    (h : Reachable lib st) :
    st.undo_stack.length ≤ 200 ∧
    (save_undo st).redo_stack = [] ∧
    (st.undo_stack.length = 200 →
      (save_undo st).undo_stack =
        st.undo_stack.tail ++ [(st.lines, st.cursor_row, st.cursor_col)]) := by
  obtain ⟨⟨_, _, _, hb⟩, _, _⟩ := reachable_entry lib h
  refine ⟨by omega, rfl, ?_⟩
  intro h200
  unfold save_undo
  try dsimp only
  rw [if_pos (by simp [h200])]
  cases hcase : st.undo_stack with
  | nil => rw [hcase] at h200; simp at h200
  | cons a t => rfl

/-- Witness for C3 at the freshly constructed editor. -/
theorem undo_stack_bound_w :
    (mk_editor triv_lib (str "x") false false 10).undo_stack.length ≤ 200 ∧
    (save_undo (mk_editor triv_lib (str "x") false false 10)).redo_stack = [] ∧
    ((mk_editor triv_lib (str "x") false false 10).undo_stack.length = 200 →
      (save_undo (mk_editor triv_lib (str "x") false false 10)).undo_stack =
        (mk_editor triv_lib (str "x") false false 10).undo_stack.tail ++
          [((mk_editor triv_lib (str "x") false false 10).lines,
            (mk_editor triv_lib (str "x") false false 10).cursor_row,
            (mk_editor triv_lib (str "x") false false 10).cursor_col)]) :=
  undo_stack_bound triv_lib (Reachable.init (str "x") false false 10)

theorem on_key_normal_eq {J : Type} (lib : Jsonlib J) (fuel : Nat) {st : Ed}
    (ev : KeyEvent) (hm : st.mode = EditorMode.NORMAL) :
    on_key lib fuel st ev = clamp_cursor (handle_normal lib fuel (rec_key st ev) ev) := by
  unfold on_key rec_key
  try dsimp only
  have hm1 : (if ¬st.dot_replaying = true ∧ st.dot_recording = true then
      { st with dot_buffer := st.dot_buffer ++ [ev] } else st).mode =
      EditorMode.NORMAL := by
    split
    · exact hm
    · exact hm
  rw [if_pos hm1]

@[simp] theorem rec_key_lines (s : Ed) (ev : KeyEvent) : (rec_key s ev).lines = s.lines := by
  unfold rec_key; split <;> rfl
@[simp] theorem rec_key_cursor_row (s : Ed) (ev : KeyEvent) :
    (rec_key s ev).cursor_row = s.cursor_row := by unfold rec_key; split <;> rfl
@[simp] theorem rec_key_cursor_col (s : Ed) (ev : KeyEvent) :
    (rec_key s ev).cursor_col = s.cursor_col := by unfold rec_key; split <;> rfl
@[simp] theorem rec_key_mode (s : Ed) (ev : KeyEvent) : (rec_key s ev).mode = s.mode := by
  unfold rec_key; split <;> rfl
@[simp] theorem rec_key_pending (s : Ed) (ev : KeyEvent) : (rec_key s ev).pending = s.pending := by
  unfold rec_key; split <;> rfl
@[simp] theorem rec_key_read_only (s : Ed) (ev : KeyEvent) :
    (rec_key s ev).read_only = s.read_only := by unfold rec_key; split <;> rfl
@[simp] theorem rec_key_status_msg (s : Ed) (ev : KeyEvent) :
    (rec_key s ev).status_msg = s.status_msg := by unfold rec_key; split <;> rfl
@[simp] theorem rec_key_undo_stack (s : Ed) (ev : KeyEvent) :
    (rec_key s ev).undo_stack = s.undo_stack := by unfold rec_key; split <;> rfl
@[simp] theorem rec_key_redo_stack (s : Ed) (ev : KeyEvent) :
    (rec_key s ev).redo_stack = s.redo_stack := by unfold rec_key; split <;> rfl
@[simp] theorem rec_key_yank_buffer (s : Ed) (ev : KeyEvent) :
    (rec_key s ev).yank_buffer = s.yank_buffer := by unfold rec_key; split <;> rfl
@[simp] theorem rec_key_dot_replaying (s : Ed) (ev : KeyEvent) :
    (rec_key s ev).dot_replaying = s.dot_replaying := by unfold rec_key; split <;> rfl

/-- `handle_normal` unfolds to `handle_normal_f` with the fuelled replay. -/
theorem handle_normal_eq {J : Type} (lib : Jsonlib J) (fuel : Nat) (st : Ed)
    (ev : KeyEvent) :
    handle_normal lib fuel st ev = handle_normal_f lib (dot_replay lib fuel) st ev := rfl

theorem hn_pending {J : Type} (lib : Jsonlib J) (replay : Ed → Ed) {st : Ed}
    (ev : KeyEvent) (hp : st.pending ≠ []) :
    handle_normal_f lib replay st ev = handle_pending lib st ev.character ev.key := by
  unfold handle_normal_f
  rw [if_pos hp]

theorem hn_d {J : Type} (lib : Jsonlib J) (replay : Ed → Ed) {st : Ed}
    (hp : st.pending = []) (hro : st.read_only = false) :
    handle_normal_f lib replay st ⟨"d", some 'd'⟩ =
      { dot_start st ⟨"d", some 'd'⟩ with pending := ['d'] } := by
  unfold handle_normal_f
  try dsimp only
  rw [if_neg (by simp [hp])]
  repeat rw [if_neg (by decide)]
  rw [if_pos (by decide), if_neg (by simp [hro]), if_pos (by decide)]
  rfl

theorem hp_dd {J : Type} (lib : Jsonlib J) {st : Ed}
    (hp : st.pending = ['d']) (hro : st.read_only = false) :
    handle_pending lib st (some 'd') "d" =
      (let st1 := { save_undo { st with pending := [] } with
          yank_buffer := [line_at { st with pending := ([] : PyStr) }] }
       let st2 :=
         if st1.lines.length > 1 then
           let lines := py_pop st1.lines st1.cursor_row
           let st3 := { st1 with lines := lines }
           if st3.cursor_row ≥ (lines.length : Int) then
             { st3 with cursor_row := (lines.length : Int) - 1 }
           else st3
         else { st1 with lines := py_set st1.lines 0 [] }
       dot_stop { st2 with cursor_col := 0, status_msg := str "line deleted" }) := by
  unfold handle_pending
  rw [if_neg (by decide)]
  try dsimp only
  rw [hp]
  rw [if_neg (by simp [hro]), if_pos (by decide)]
  rfl

theorem cursor_ok_of_fields {s t : Ed} (h : cursor_ok s) (hl : t.lines = s.lines)
    (hr : t.cursor_row = s.cursor_row) (hc : t.cursor_col = s.cursor_col)
    (hm : t.mode = s.mode) : cursor_ok t := by
  unfold cursor_ok line_at at *
  rw [hl, hr, hc, hm]
  exact h

theorem clamp_proj_eq {s : Ed} (h : cursor_ok s) :
    (clamp_cursor s).cursor_row = s.cursor_row ∧
    (clamp_cursor s).cursor_col = s.cursor_col := by
  obtain ⟨h0, h1, h2, h3, h4⟩ := h
  have hrow : (clamp_cursor s).cursor_row = s.cursor_row := by
    show max 0 (min s.cursor_row ((s.lines.length : Int) - 1)) = s.cursor_row
    omega
  refine ⟨hrow, ?_⟩
  show max 0 (min s.cursor_col _) = s.cursor_col
  have hidx : max 0 (min s.cursor_row ((s.lines.length : Int) - 1)) = s.cursor_row := by
    omega
  have hline : py_get s.lines (max 0 (min s.cursor_row ((s.lines.length : Int) - 1)))
      ([] : PyStr) = line_at s := by
    rw [hidx]; rfl
  rw [hline]
  by_cases hm : s.mode = EditorMode.NORMAL
  · rw [if_pos hm]
    by_cases hne : line_at s = []
    · rw [if_neg (by simp [hne])]
      have : (line_at s).length = 0 := by simp [hne]
      omega
    · rw [if_pos (by simpa using fun hz => hne (List.eq_nil_of_length_eq_zero hz))]
      have := h4 hm hne
      have hpos : 0 < (line_at s).length := List.length_pos.mpr hne
      omega
  · rw [if_neg hm]
    omega

/-- C4: `dd` yanks the current line and removes it, except on a
single-line buffer where the line is emptied instead; the buffer never
shrinks below one line. -/
theorem dd_deletes_line {J : Type} (lib : Jsonlib J) (fuel : Nat) {st : Ed}
    (hok : cursor_ok st) (hInv : EntryInv st) (hm : st.mode = EditorMode.NORMAL)
    (hp : st.pending = []) (hro : st.read_only = false) :
    (run_keys lib fuel st [⟨"d", some 'd'⟩, ⟨"d", some 'd'⟩]).yank_buffer =
      [line_at st] ∧
    (st.lines.length > 1 →
      (run_keys lib fuel st [⟨"d", some 'd'⟩, ⟨"d", some 'd'⟩]).lines =
        py_pop st.lines st.cursor_row) ∧
    (st.lines.length = 1 →
      (run_keys lib fuel st [⟨"d", some 'd'⟩, ⟨"d", some 'd'⟩]).lines = [[]]) ∧
    1 ≤ (run_keys lib fuel st [⟨"d", some 'd'⟩, ⟨"d", some 'd'⟩]).lines.length := by
  have hrun : run_keys lib fuel st [⟨"d", some 'd'⟩, ⟨"d", some 'd'⟩] =
      on_key lib fuel (on_key lib fuel st ⟨"d", some 'd'⟩) ⟨"d", some 'd'⟩ := rfl
  rw [hrun]
  -- first keypress: enter pending "d"
  rw [on_key_normal_eq lib fuel _ hm, handle_normal_eq,
    hn_d lib _ (by simp [hp]) (by simp [hro])]
  set base := { dot_start (rec_key st ⟨"d", some 'd'⟩) ⟨"d", some 'd'⟩ with
    pending := ['d'] } with hbase
  have hbase_lines : base.lines = st.lines := by simp [hbase]
  have hbase_row : base.cursor_row = st.cursor_row := by simp [hbase]
  have hbase_col : base.cursor_col = st.cursor_col := by simp [hbase]
  have hbase_mode : base.mode = EditorMode.NORMAL := by simp [hbase, hm]
  set st1 := clamp_cursor base with hst1
  have hok1 : cursor_ok base :=
    cursor_ok_of_fields hok hbase_lines hbase_row hbase_col (by rw [hbase_mode, hm])
  obtain ⟨hrow1, hcol1⟩ := clamp_proj_eq hok1
  have h1lines : st1.lines = st.lines := by simp [hst1, hbase_lines]
  have h1row : st1.cursor_row = st.cursor_row := by
    rw [hst1, hrow1, hbase_row]
  have h1mode : st1.mode = EditorMode.NORMAL := by simp [hst1, hbase_mode, hm]
  have h1pending : st1.pending = ['d'] := by simp [hst1, hbase]
  have h1ro : st1.read_only = false := by simp [hst1, hbase, hro]
  have h1yank : st1.yank_buffer = st.yank_buffer := by simp [hst1, hbase]
  -- second keypress: resolve "dd"
  rw [on_key_normal_eq lib fuel _ h1mode, handle_normal_eq,
    hn_pending lib _ _ (by simp [h1pending]),
    hp_dd lib (by simp [h1pending]) (by simp [h1ro])]
  try dsimp only
  set mid := rec_key st1 ⟨"d", some 'd'⟩ with hmid
  have hmid_lines : mid.lines = st.lines := by simp [hmid, h1lines]
  have hmid_row : mid.cursor_row = st.cursor_row := by simp [hmid, h1row]
  have hyank2 : line_at { mid with pending := ([] : PyStr) } = line_at st := by
    unfold line_at
    simp [hmid_lines, hmid_row]
  constructor
  · -- yank buffer
    simp only [clamp_cursor_yank_buffer, dot_stop_yank_buffer]
    split
    · split
      · simp [hyank2]
      · simp [hyank2]
    · simp [hyank2]
  refine ⟨?_, ?_, ?_⟩
  · intro hgt
    simp only [clamp_cursor_lines, dot_stop_lines]
    rw [if_pos (by simp [hmid_lines]; omega)]
    try dsimp only
    split
    · simp [hmid_lines, hmid_row]
    · simp [hmid_lines, hmid_row]
  · intro heq
    simp only [clamp_cursor_lines, dot_stop_lines]
    rw [if_neg (by simp [hmid_lines]; omega)]
    try dsimp only
    obtain ⟨x, hx⟩ : ∃ x, st.lines = [x] := by
      cases hl : st.lines with
      | nil => rw [hl] at heq; simp at heq
      | cons a t =>
          rw [hl] at heq
          simp at heq
          exact ⟨a, by rw [heq]⟩
    simp [py_set, hmid_lines, hx]
  · simp only [clamp_cursor_lines, dot_stop_lines]
    split
    · split
      · simp only [save_undo_lines, save_undo_cursor_row] at *
        have hl := py_pop_length mid.lines mid.cursor_row
        split at hl <;> omega
      · simp only [save_undo_lines, save_undo_cursor_row] at *
        have hl := py_pop_length mid.lines mid.cursor_row
        split at hl <;> omega
    · simp only [save_undo_lines, py_set_length, hmid_lines]
      have := List.length_pos.mpr hInv.1.1
      omega

theorem hn_x {J : Type} (lib : Jsonlib J) (replay : Ed → Ed) {st : Ed}
    (hp : st.pending = []) (hro : st.read_only = false) :
    handle_normal_f lib replay st ⟨"x", some 'x'⟩ =
      (let s := save_undo (dot_stop (dot_start st ⟨"x", some 'x'⟩))
       if line_at s ≠ [] ∧ s.cursor_col < ((line_at s).length : Int) then
         { s with lines := (py_set s.lines s.cursor_row
             ((line_at s).take s.cursor_col.toNat ++
               (line_at s).drop (s.cursor_col.toNat + 1))) }
       else s) := by
  unfold handle_normal_f
  try dsimp only
  rw [if_neg (by simp [hp])]
  repeat rw [if_neg (by decide)]
  rw [if_pos (by decide), if_neg (by simp [hro])]

theorem hn_p {J : Type} (lib : Jsonlib J) (replay : Ed → Ed) {st : Ed}
    (hp : st.pending = []) (hro : st.read_only = false) :
    handle_normal_f lib replay st ⟨"p", some 'p'⟩ =
      paste_after (dot_stop (dot_start st ⟨"p", some 'p'⟩)) := by
  unfold handle_normal_f
  try dsimp only
  rw [if_neg (by simp [hp])]
  repeat rw [if_neg (by decide)]
  rw [if_pos (by decide), if_neg (by simp [hro])]

theorem hn_P {J : Type} (lib : Jsonlib J) (replay : Ed → Ed) {st : Ed}
    (hp : st.pending = []) (hro : st.read_only = false) :
    handle_normal_f lib replay st ⟨"P", some 'P'⟩ =
      paste_before (dot_stop (dot_start st ⟨"P", some 'P'⟩)) := by
  unfold handle_normal_f
  try dsimp only
  rw [if_neg (by simp [hp])]
  repeat rw [if_neg (by decide)]
  rw [if_pos (by decide), if_neg (by simp [hro])]

theorem hn_u {J : Type} (lib : Jsonlib J) (replay : Ed → Ed) {st : Ed}
    (hp : st.pending = []) (hro : st.read_only = false) :
    handle_normal_f lib replay st ⟨"u", some 'u'⟩ = undo st := by
  unfold handle_normal_f
  try dsimp only
  rw [if_neg (by simp [hp])]
  repeat rw [if_neg (by decide)]
  rw [if_pos (by decide), if_neg (by simp [hro])]

theorem hn_ctrlr {J : Type} (lib : Jsonlib J) (replay : Ed → Ed) {st : Ed}
    (hp : st.pending = []) (hro : st.read_only = false) :
    handle_normal_f lib replay st ⟨"ctrl+r", none⟩ = redo st := by
  unfold handle_normal_f
  try dsimp only
  rw [if_neg (by simp [hp])]
  repeat rw [if_neg (by decide)]
  rw [if_pos (by decide), if_neg (by simp [hro])]

theorem hn_J {J : Type} (lib : Jsonlib J) (replay : Ed → Ed) {st : Ed}
    (hp : st.pending = []) (hro : st.read_only = false) :
    handle_normal_f lib replay st ⟨"J", some 'J'⟩ =
      join_lines (dot_stop (dot_start st ⟨"J", some 'J'⟩)) := by
  unfold handle_normal_f
  try dsimp only
  rw [if_neg (by simp [hp])]
  repeat rw [if_neg (by decide)]
  rw [if_pos (by decide), if_neg (by simp [hro])]

theorem hn_o {J : Type} (lib : Jsonlib J) (replay : Ed → Ed) {st : Ed}
    (hp : st.pending = []) (hro : st.read_only = false) :
    handle_normal_f lib replay st ⟨"o", some 'o'⟩ =
      (let s := save_undo (dot_start st ⟨"o", some 'o'⟩)
       let indent := current_indent s
       let before := py_rstrip (line_at s)
       let extra := if ends_with_open before then str "    " else ([] : PyStr)
       enter_insert { s with
         cursor_row := s.cursor_row + 1
         lines := (py_insert s.lines (s.cursor_row + 1)
           (List.replicate indent ' ' ++ extra))
         cursor_col := ((indent + extra.length : Nat) : Int) }) := by
  unfold handle_normal_f
  try dsimp only
  rw [if_neg (by simp [hp])]
  repeat rw [if_neg (by decide)]
  rw [if_pos (by decide), if_neg (by simp [hro])]

theorem hn_O {J : Type} (lib : Jsonlib J) (replay : Ed → Ed) {st : Ed}
    (hp : st.pending = []) (hro : st.read_only = false) :
    handle_normal_f lib replay st ⟨"O", some 'O'⟩ =
      (let s := save_undo (dot_start st ⟨"O", some 'O'⟩)
       let indent := current_indent s
       enter_insert { s with
         lines := (py_insert s.lines s.cursor_row (List.replicate indent ' '))
         cursor_col := (indent : Int) }) := by
  unfold handle_normal_f
  try dsimp only
  rw [if_neg (by simp [hp])]
  repeat rw [if_neg (by decide)]
  rw [if_pos (by decide), if_neg (by simp [hro])]

theorem paste_after_empty {s : Ed} (h : s.yank_buffer = []) : paste_after s = s := by
  unfold paste_after
  rw [if_pos h]

theorem paste_before_empty {s : Ed} (h : s.yank_buffer = []) : paste_before s = s := by
  unfold paste_before
  rw [if_pos h]

theorem join_lines_last {s : Ed} (h : s.cursor_row ≥ (s.lines.length : Int) - 1) :
    join_lines s = s := by
  unfold join_lines
  rw [if_pos h]

theorem undo_empty {s : Ed} (h : s.undo_stack = []) :
    undo s = { s with status_msg := str "nothing to undo" } := by
  unfold undo
  rw [h]
  rfl

theorem dd_deletes_line_w :
    cursor_ok (mk_editor triv_lib (str "only") false false 10) ∧
    (run_keys triv_lib 0 (mk_editor triv_lib (str "only") false false 10)
        [⟨"d", some 'd'⟩, ⟨"d", some 'd'⟩]).yank_buffer = [str "only"] ∧
    (run_keys triv_lib 0 (mk_editor triv_lib (str "only") false false 10)
        [⟨"d", some 'd'⟩, ⟨"d", some 'd'⟩]).lines = [[]] ∧
    1 ≤ (run_keys triv_lib 0 (mk_editor triv_lib (str "only") false false 10)
        [⟨"d", some 'd'⟩, ⟨"d", some 'd'⟩]).lines.length := by
  have h := @dd_deletes_line Unit triv_lib 0
    (mk_editor triv_lib (str "only") false false 10)
    (by unfold cursor_ok line_at; decide)
    (by unfold EntryInv CoreInv stack_ok; decide)
    rfl rfl rfl
  refine ⟨by unfold cursor_ok line_at; decide, ?_, h.2.2.1 (by decide), h.2.2.2⟩
  rw [h.1]
  rfl

/-- C9 (amended): the structural edge cases are defined no-ops. -/
theorem edge_cases_noop {J : Type} (lib : Jsonlib J) (fuel : Nat) {st : Ed}
    (hok : cursor_ok st) (hm : st.mode = EditorMode.NORMAL)
    (hp : st.pending = []) (hro : st.read_only = false) :
    (st.yank_buffer = [] →
      ((on_key lib fuel st ⟨"p", some 'p'⟩).lines = st.lines ∧
       (on_key lib fuel st ⟨"p", some 'p'⟩).cursor_row = st.cursor_row ∧
       (on_key lib fuel st ⟨"p", some 'p'⟩).cursor_col = st.cursor_col ∧
       (on_key lib fuel st ⟨"p", some 'p'⟩).status_msg = st.status_msg) ∧
      ((on_key lib fuel st ⟨"P", some 'P'⟩).lines = st.lines ∧
       (on_key lib fuel st ⟨"P", some 'P'⟩).cursor_row = st.cursor_row ∧
       (on_key lib fuel st ⟨"P", some 'P'⟩).cursor_col = st.cursor_col ∧
       (on_key lib fuel st ⟨"P", some 'P'⟩).status_msg = st.status_msg)) ∧
    (st.undo_stack = [] →
      (on_key lib fuel st ⟨"u", some 'u'⟩).lines = st.lines ∧
      (on_key lib fuel st ⟨"u", some 'u'⟩).cursor_row = st.cursor_row ∧
      (on_key lib fuel st ⟨"u", some 'u'⟩).cursor_col = st.cursor_col ∧
      (on_key lib fuel st ⟨"u", some 'u'⟩).status_msg = str "nothing to undo") ∧
    (st.cursor_row ≥ (st.lines.length : Int) - 1 →
      (on_key lib fuel st ⟨"J", some 'J'⟩).lines = st.lines ∧
      (on_key lib fuel st ⟨"J", some 'J'⟩).cursor_row = st.cursor_row ∧
      (on_key lib fuel st ⟨"J", some 'J'⟩).cursor_col = st.cursor_col ∧
      (on_key lib fuel st ⟨"J", some 'J'⟩).status_msg = st.status_msg) := by
  have key : ∀ s : Ed, s.lines = st.lines → s.cursor_row = st.cursor_row →
      s.cursor_col = st.cursor_col → s.mode = st.mode →
      s.status_msg = st.status_msg →
      (clamp_cursor s).lines = st.lines ∧
      (clamp_cursor s).cursor_row = st.cursor_row ∧
      (clamp_cursor s).cursor_col = st.cursor_col ∧
      (clamp_cursor s).status_msg = st.status_msg := by
    intro s h1 h2 h3 h4 h5
    have hok' : cursor_ok s := cursor_ok_of_fields hok h1 h2 h3 h4
    obtain ⟨hr, hc⟩ := clamp_proj_eq hok'
    exact ⟨by simp [h1], by rw [hr, h2], by rw [hc, h3], by simp [h5]⟩
  refine ⟨?_, ?_, ?_⟩
  · intro hy
    constructor
    · rw [on_key_normal_eq lib fuel _ hm, handle_normal_eq,
        hn_p lib _ (by simp [hp]) (by simp [hro]),
        paste_after_empty (by simp [hy])]
      exact key _ (by simp) (by simp) (by simp) (by simp) (by simp)
    · rw [on_key_normal_eq lib fuel _ hm, handle_normal_eq,
        hn_P lib _ (by simp [hp]) (by simp [hro]),
        paste_before_empty (by simp [hy])]
      exact key _ (by simp) (by simp) (by simp) (by simp) (by simp)
  · intro hu
    rw [on_key_normal_eq lib fuel _ hm, handle_normal_eq,
      hn_u lib _ (by simp [hp]) (by simp [hro]),
      undo_empty (by simp [hu])]
    have hok' : cursor_ok { rec_key st ⟨"u", some 'u'⟩ with
        status_msg := str "nothing to undo" } :=
      cursor_ok_of_fields hok (by simp) (by simp) (by simp) (by simp)
    obtain ⟨hr, hc⟩ := clamp_proj_eq hok'
    exact ⟨by simp, by rw [hr]; simp, by rw [hc]; simp, by simp⟩
  · intro hJ
    rw [on_key_normal_eq lib fuel _ hm, handle_normal_eq,
      hn_J lib _ (by simp [hp]) (by simp [hro]),
      join_lines_last (by simpa using hJ)]
    exact key _ (by simp) (by simp) (by simp) (by simp) (by simp)

theorem edge_cases_noop_w :
    (on_key triv_lib 0 (mk_editor triv_lib (str "a") false false 10)
        ⟨"u", some 'u'⟩).lines = [str "a"] ∧
    (on_key triv_lib 0 (mk_editor triv_lib (str "a") false false 10)
        ⟨"u", some 'u'⟩).status_msg = str "nothing to undo" ∧
    (on_key triv_lib 0 (mk_editor triv_lib (str "a") false false 10)
        ⟨"J", some 'J'⟩).lines = [str "a"] := by
  have h := @edge_cases_noop Unit triv_lib 0
    (mk_editor triv_lib (str "a") false false 10)
    (by unfold cursor_ok line_at; decide) rfl rfl rfl
  have h2 := h.2.1 rfl
  have h3 := h.2.2 (by decide)
  exact ⟨by rw [h2.1]; rfl, by rw [h2.2.2.2], by rw [h3.1]; rfl⟩

/-- C9 counterexample: joining at the last line leaves the status line
empty — no status message is surfaced, contrary to the claim. -/
theorem edge_cases_cex :
    (on_key triv_lib 0 (mk_editor triv_lib (str "a") false false 10)
        ⟨"J", some 'J'⟩).lines = [str "a"] ∧
    (on_key triv_lib 0 (mk_editor triv_lib (str "a") false false 10)
        ⟨"J", some 'J'⟩).status_msg = [] := by
  constructor
  · rfl
  · rfl

theorem py_get_py_insert_self {α : Type} {xs : List α} {i : Int} (h0 : 0 ≤ i)
    (h1 : i ≤ (xs.length : Int)) (v d : α) :
    py_get (py_insert xs i v) i d = v := by
  unfold py_get py_insert
  have htn : i.toNat ≤ xs.length := by omega
  have hidx : min (max i 0).toNat xs.length = i.toNat := by
    rw [(by omega : max i 0 = i)]
    omega
  rw [hidx]
  have hlen : (List.insertIdx i.toNat v xs).length = xs.length + 1 :=
    List.length_insertIdx i.toNat xs htn
  rw [if_pos (by rw [hlen]; omega)]
  rw [List.getD_eq_getElem _ _ (by rw [hlen]; omega)]
  exact List.getElem_insertIdx_self xs v i.toNat htn

theorem enter_insert_not_ro {s : Ed} (h : s.read_only = false) :
    enter_insert s = { s with mode := .INSERT, status_msg := str "-- INSERT --" } := by
  unfold enter_insert
  rw [if_neg (by simp [h])]

theorem line_at_eq {s t : Ed} (hl : s.lines = t.lines)
    (hr : s.cursor_row = t.cursor_row) : line_at s = line_at t := by
  unfold line_at
  rw [hl, hr]

theorem current_indent_eq {s t : Ed} (hl : s.lines = t.lines)
    (hr : s.cursor_row = t.cursor_row) : current_indent s = current_indent t := by
  unfold current_indent
  rw [line_at_eq hl hr]

theorem clamp_insert_proj {t : Ed} (hm : t.mode = EditorMode.INSERT)
    (h0 : 0 ≤ t.cursor_row) (h1 : t.cursor_row < (t.lines.length : Int))
    (h2 : 0 ≤ t.cursor_col) (h3 : t.cursor_col ≤ ((line_at t).length : Int)) :
    (clamp_cursor t).cursor_row = t.cursor_row ∧
    (clamp_cursor t).cursor_col = t.cursor_col :=
  clamp_proj_eq ⟨h0, h1, h2, h3,
    fun hn => absurd (hm.symm.trans hn) (by decide)⟩

/-- C7 (amended): in a non-read-only Normal-mode session, `o` opens a
line below the current one indented to the current indentation, with one
extra 4-space level exactly when the rstripped current line ends with an
open bracket, and `O` opens a line above indented to the current
indentation only, never adding the extra level; both enter Insert mode
with the cursor right after the inserted indentation. -/
theorem open_line_indent {J : Type} (lib : Jsonlib J) (fuel : Nat) {st : Ed}
    (hok : cursor_ok st) (hm : st.mode = EditorMode.NORMAL)
    (hp : st.pending = []) (hro : st.read_only = false) :
    ((on_key lib fuel st ⟨"o", some 'o'⟩).lines =
        py_insert st.lines (st.cursor_row + 1)
          (List.replicate (current_indent st) ' ' ++
            (if ends_with_open (py_rstrip (line_at st)) then str "    "
             else [])) ∧
      (on_key lib fuel st ⟨"o", some 'o'⟩).cursor_row = st.cursor_row + 1 ∧
      (on_key lib fuel st ⟨"o", some 'o'⟩).cursor_col =
        ((current_indent st +
          (if ends_with_open (py_rstrip (line_at st)) then str "    "
           else ([] : PyStr)).length : Nat) : Int) ∧
      (on_key lib fuel st ⟨"o", some 'o'⟩).mode = EditorMode.INSERT) ∧
    ((on_key lib fuel st ⟨"O", some 'O'⟩).lines =
        py_insert st.lines st.cursor_row
          (List.replicate (current_indent st) ' ') ∧
      (on_key lib fuel st ⟨"O", some 'O'⟩).cursor_row = st.cursor_row ∧
      (on_key lib fuel st ⟨"O", some 'O'⟩).cursor_col =
        ((current_indent st : Nat) : Int) ∧
      (on_key lib fuel st ⟨"O", some 'O'⟩).mode = EditorMode.INSERT) := by
  obtain ⟨hr0, hr1, hc0, hc1, -⟩ := hok
  constructor
  · rw [on_key_normal_eq lib fuel _ hm, handle_normal_eq,
      hn_o lib _ (by simp [hp]) (by simp [hro])]
    try dsimp only
    set s0 := save_undo (dot_start (rec_key st ⟨"o", some 'o'⟩) ⟨"o", some 'o'⟩)
      with hs0
    have hsl : s0.lines = st.lines := by rw [hs0]; simp
    have hsr : s0.cursor_row = st.cursor_row := by rw [hs0]; simp
    have hsro : s0.read_only = false := by rw [hs0]; simp [hro]
    have hci : current_indent s0 = current_indent st :=
      current_indent_eq hsl hsr
    have hli : line_at s0 = line_at st := line_at_eq hsl hsr
    rw [enter_insert_not_ro (by simp [hsro]), hci, hli, hsl, hsr]
    set nl := List.replicate (current_indent st) ' ' ++
      (if ends_with_open (py_rstrip (line_at st)) then str "    "
       else ([] : PyStr)) with hnl
    set t : Ed := { s0 with
        cursor_row := st.cursor_row + 1
        lines := py_insert st.lines (st.cursor_row + 1) nl
        cursor_col := ((current_indent st +
          (if ends_with_open (py_rstrip (line_at st)) then str "    "
           else ([] : PyStr)).length : Nat) : Int)
        mode := EditorMode.INSERT
        status_msg := str "-- INSERT --" } with ht
    have htr : t.cursor_row = st.cursor_row + 1 := by rw [ht]
    have htlines : t.lines = py_insert st.lines (st.cursor_row + 1) nl := by
      rw [ht]
    have htc : t.cursor_col = ((current_indent st +
        (if ends_with_open (py_rstrip (line_at st)) then str "    "
         else ([] : PyStr)).length : Nat) : Int) := by rw [ht]
    have htm : t.mode = EditorMode.INSERT := by rw [ht]
    have htl : line_at t = nl := by
      show py_get t.lines t.cursor_row [] = nl
      rw [htlines, htr]
      exact py_get_py_insert_self (by omega) (by omega) nl []
    have hpl := py_insert_length st.lines (st.cursor_row + 1) nl
    have hproj := clamp_insert_proj htm (by rw [htr]; omega)
      (by rw [htr, htlines]; omega)
      (by rw [htc]; omega)
      (by rw [htc, htl, hnl]; simp)
    refine ⟨by rw [clamp_cursor_lines, htlines], by rw [hproj.1, htr],
      by rw [hproj.2, htc], by rw [clamp_cursor_mode, htm]⟩
  · rw [on_key_normal_eq lib fuel _ hm, handle_normal_eq,
      hn_O lib _ (by simp [hp]) (by simp [hro])]
    try dsimp only
    set s0 := save_undo (dot_start (rec_key st ⟨"O", some 'O'⟩) ⟨"O", some 'O'⟩)
      with hs0
    have hsl : s0.lines = st.lines := by rw [hs0]; simp
    have hsr : s0.cursor_row = st.cursor_row := by rw [hs0]; simp
    have hsro : s0.read_only = false := by rw [hs0]; simp [hro]
    have hci : current_indent s0 = current_indent st :=
      current_indent_eq hsl hsr
    rw [enter_insert_not_ro (by simp [hsro]), hci, hsl]
    set nl := List.replicate (current_indent st) ' ' with hnl
    set t : Ed := { s0 with
        lines := py_insert st.lines s0.cursor_row nl
        cursor_col := ((current_indent st : Nat) : Int)
        mode := EditorMode.INSERT
        status_msg := str "-- INSERT --" } with ht
    have htr : t.cursor_row = st.cursor_row := by rw [ht]; exact hsr
    have htlines : t.lines = py_insert st.lines st.cursor_row nl := by
      rw [ht]
      try dsimp only
      rw [hsr]
    have htc : t.cursor_col = ((current_indent st : Nat) : Int) := by rw [ht]
    have htm : t.mode = EditorMode.INSERT := by rw [ht]
    have htl : line_at t = nl := by
      show py_get t.lines t.cursor_row [] = nl
      rw [htlines, htr]
      exact py_get_py_insert_self (by omega) (by omega) nl []
    have hpl := py_insert_length st.lines st.cursor_row nl
    have hproj := clamp_insert_proj htm (by rw [htr]; omega)
      (by rw [htr, htlines]; omega)
      (by rw [htc]; omega)
      (by rw [htc, htl, hnl]; simp)
    refine ⟨by rw [clamp_cursor_lines, htlines], by rw [hproj.1, htr],
      by rw [hproj.2, htc], by rw [clamp_cursor_mode, htm]⟩

theorem open_line_indent_w :
    (on_key triv_lib 0 (mk_editor triv_lib ['\x7b'] false false 10)
        ⟨"o", some 'o'⟩).lines = [['\x7b'], [' ', ' ', ' ', ' ']] ∧
    (on_key triv_lib 0 (mk_editor triv_lib ['\x7b'] false false 10)
        ⟨"o", some 'o'⟩).cursor_col = 4 ∧
    (on_key triv_lib 0 (mk_editor triv_lib ['\x7b'] false false 10)
        ⟨"O", some 'O'⟩).lines = [[], ['\x7b']] ∧
    (on_key triv_lib 0 (mk_editor triv_lib ['\x7b'] false false 10)
        ⟨"O", some 'O'⟩).mode = EditorMode.INSERT := by
  have h := @open_line_indent Unit triv_lib 0
    (mk_editor triv_lib ['\x7b'] false false 10)
    (by unfold cursor_ok line_at; decide) rfl rfl rfl
  refine ⟨by rw [h.1.1]; rfl, by rw [h.1.2.2.1]; rfl, by rw [h.2.1]; rfl,
    h.2.2.2.2⟩

/-- C7 counterexample: with buffer lines "\x7b" and "x" and the cursor on
the second line, `O` inserts an empty line even though the line above
the newly inserted line ends with an open bracket — the extra 4-space
indent level the claim promises for `O` is never added. -/
theorem open_line_cex :
    (run_keys triv_lib 0 (mk_editor triv_lib ['\x7b', '\x0a', 'x'] false false 10)
        [⟨"j", some 'j'⟩, ⟨"O", some 'O'⟩]).lines = [['\x7b'], [], ['x']] ∧
    ends_with_open (py_rstrip ['\x7b']) = true := by
  exact ⟨rfl, rfl⟩

theorem hn_r {J : Type} (lib : Jsonlib J) (replay : Ed → Ed) {st : Ed}
    (hp : st.pending = []) (hro : st.read_only = false) :
    handle_normal_f lib replay st ⟨"r", some 'r'⟩ =
      { dot_start st ⟨"r", some 'r'⟩ with pending := ['r'] } := by
  unfold handle_normal_f
  try dsimp only
  rw [if_neg (by simp [hp])]
  repeat rw [if_neg (by decide)]
  rw [if_pos (by decide), if_neg (by simp [hro]), if_pos (by decide)]
  rfl

theorem hp_dw {J : Type} (lib : Jsonlib J) {st : Ed}
    (hp : st.pending = ['d']) (hro : st.read_only = false) :
    handle_pending lib st (some 'w') "w" =
      dot_stop (delete_word (save_undo { st with pending := [] })) := by
  unfold handle_pending
  rw [if_neg (by decide)]
  try dsimp only
  rw [hp]
  rw [if_neg (by simp [hro]), if_neg (by decide), if_pos (by decide)]

theorem hp_dS {J : Type} (lib : Jsonlib J) {st : Ed}
    (hp : st.pending = ['d']) (hro : st.read_only = false) :
    handle_pending lib st (some '$') "$" =
      (let s := save_undo { st with pending := ([] : PyStr) }
       let line := line_at s
       dot_stop { s with
         lines := py_set s.lines s.cursor_row (line.take s.cursor_col.toNat) }) := by
  unfold handle_pending
  rw [if_neg (by decide)]
  try dsimp only
  rw [hp]
  rw [if_neg (by simp [hro]), if_neg (by decide), if_neg (by decide),
    if_pos (by decide)]

theorem hp_d0 {J : Type} (lib : Jsonlib J) {st : Ed}
    (hp : st.pending = ['d']) (hro : st.read_only = false) :
    handle_pending lib st (some '0') "0" =
      (let s := save_undo { st with pending := ([] : PyStr) }
       let line := line_at s
       dot_stop { s with
         lines := py_set s.lines s.cursor_row (line.drop s.cursor_col.toNat)
         cursor_col := 0 }) := by
  unfold handle_pending
  rw [if_neg (by decide)]
  try dsimp only
  rw [hp]
  rw [if_neg (by simp [hro]), if_neg (by decide), if_neg (by decide),
    if_neg (by decide), if_pos (by decide)]

theorem hp_r {J : Type} (lib : Jsonlib J) {st : Ed} (c : Char) {key : String}
    (hkey : ¬(key = "escape")) (hp : st.pending = ['r'])
    (hro : st.read_only = false) :
    handle_pending lib st (some c) key =
      (let s := save_undo { st with pending := ([] : PyStr) }
       let line := line_at s
       dot_stop (if s.cursor_col < (line.length : Int) then
         { s with lines := (py_set s.lines s.cursor_row
             (line.take s.cursor_col.toNat ++ [c] ++
               line.drop (s.cursor_col.toNat + 1))) }
         else s)) := by
  unfold handle_pending
  rw [if_neg (by simp [hkey])]
  try dsimp only
  rw [hp]
  have hyy : str "yy" = ['y', 'y'] := rfl
  have hgg : str "gg" = ['g', 'g'] := rfl
  have hej : str "ej" = ['e', 'j'] := rfl
  have hdd : str "dd" = ['d', 'd'] := rfl
  have hdw : str "dw" = ['d', 'w'] := rfl
  have hdS : str "d$" = ['d', '$'] := rfl
  have hd0 : str "d0" = ['d', '0'] := rfl
  have hcw : str "cw" = ['c', 'w'] := rfl
  have hcc : str "cc" = ['c', 'c'] := rfl
  rw [if_neg (by simp [hro]), if_neg (by simp [hdd]), if_neg (by simp [hdw]),
    if_neg (by simp [hdS]), if_neg (by simp [hd0]), if_neg (by simp [hcw]),
    if_neg (by simp [hcc]), if_neg (by simp [hyy]), if_neg (by simp [hgg]),
    if_pos (by simp)]

theorem paste_after_nonempty {s : Ed} (h : s.yank_buffer ≠ []) :
    paste_after s =
      (let s1 := save_undo s
       { s1 with
         lines := insert_all s1.lines (s1.cursor_row + 1) s1.yank_buffer
         cursor_row := s1.cursor_row + 1
         cursor_col := 0 }) := by
  unfold paste_after
  rw [if_neg h]

theorem paste_before_nonempty {s : Ed} (h : s.yank_buffer ≠ []) :
    paste_before s =
      (let s1 := save_undo s
       { s1 with
         lines := insert_all s1.lines s1.cursor_row s1.yank_buffer
         cursor_col := 0 }) := by
  unfold paste_before
  rw [if_neg h]

theorem join_lines_go {s : Ed} (h : ¬(s.cursor_row ≥ (s.lines.length : Int) - 1)) :
    join_lines s =
      (let s1 := save_undo s
       let cur := py_rstrip (line_at s1)
       let nxt := py_lstrip (py_get s1.lines (s1.cursor_row + 1) [])
       let lines := py_set s1.lines s1.cursor_row (cur ++ [' '] ++ nxt)
       { s1 with
         cursor_col := (cur.length : Int)
         lines := py_pop lines (s1.cursor_row + 1) }) := by
  unfold join_lines
  rw [if_neg h]

theorem save_undo_getLast (s : Ed) :
    (save_undo s).undo_stack.getLast? =
      some (s.lines, s.cursor_row, s.cursor_col) := by
  show (if (s.undo_stack ++ [(s.lines, s.cursor_row, s.cursor_col)]).length > 200
      then (s.undo_stack ++ [(s.lines, s.cursor_row, s.cursor_col)]).tail
      else s.undo_stack ++ [(s.lines, s.cursor_row, s.cursor_col)]).getLast? =
      some (s.lines, s.cursor_row, s.cursor_col)
  split
  · cases hu : s.undo_stack with
    | nil =>
        rename_i hlen
        rw [hu] at hlen
        simp at hlen
    | cons a t =>
        show ((a :: t ++ [(s.lines, s.cursor_row, s.cursor_col)]).tail).getLast? = _
        rw [(rfl : (a :: t ++ [(s.lines, s.cursor_row, s.cursor_col)]).tail =
          t ++ [(s.lines, s.cursor_row, s.cursor_col)])]
        exact List.getLast?_concat t
  · exact List.getLast?_concat s.undo_stack

theorem undo_some {s : Ed} {a : List PyStr} {b c : Int}
    (h : s.undo_stack.getLast? = some (a, b, c)) :
    undo s = { s with
      redo_stack := s.redo_stack ++ [(s.lines, s.cursor_row, s.cursor_col)]
      undo_stack := s.undo_stack.dropLast
      lines := a, cursor_row := b, cursor_col := c
      status_msg := str "undone" } := by
  unfold undo
  rw [h]

theorem redo_some {s : Ed} {a : List PyStr} {b c : Int}
    (h : s.redo_stack.getLast? = some (a, b, c)) :
    redo s = { s with
      undo_stack := s.undo_stack ++ [(s.lines, s.cursor_row, s.cursor_col)]
      redo_stack := s.redo_stack.dropLast
      lines := a, cursor_row := b, cursor_col := c
      status_msg := str "redone" } := by
  unfold redo
  rw [h]

/-- Clamp-stability of a restored snapshot in Normal mode. -/
def snap_ok (a : List PyStr) (b c : Int) : Prop :=
  0 ≤ b ∧ b < (a.length : Int) ∧ 0 ≤ c ∧
  c ≤ ((py_get a b []).length : Int) ∧
  (py_get a b [] ≠ [] → c ≤ ((py_get a b []).length : Int) - 1)

/-- `u` then `ctrl+r` round-trips between the snapshot on top of the
undo stack and the current state. -/
theorem undo_redo_roundtrip {J : Type} (lib : Jsonlib J) (fuel : Nat) {st1 : Ed}
    {a : List PyStr} {b c : Int}
    (hok1 : cursor_ok st1) (hm : st1.mode = EditorMode.NORMAL)
    (hp : st1.pending = []) (hro : st1.read_only = false)
    (hg : st1.undo_stack.getLast? = some (a, b, c))
    (hsnap : snap_ok a b c) :
    (on_key lib fuel st1 ⟨"u", some 'u'⟩).lines = a ∧
    (on_key lib fuel st1 ⟨"u", some 'u'⟩).cursor_row = b ∧
    (on_key lib fuel st1 ⟨"u", some 'u'⟩).cursor_col = c ∧
    (on_key lib fuel (on_key lib fuel st1 ⟨"u", some 'u'⟩)
        ⟨"ctrl+r", none⟩).lines = st1.lines ∧
    (on_key lib fuel (on_key lib fuel st1 ⟨"u", some 'u'⟩)
        ⟨"ctrl+r", none⟩).cursor_row = st1.cursor_row ∧
    (on_key lib fuel (on_key lib fuel st1 ⟨"u", some 'u'⟩)
        ⟨"ctrl+r", none⟩).cursor_col = st1.cursor_col := by
  obtain ⟨hs0, hs1, hs2, hs3, hs4⟩ := hsnap
  rw [on_key_normal_eq lib fuel _ hm, handle_normal_eq,
    hn_u lib _ (by simp [hp]) (by simp [hro]),
    undo_some (a := a) (b := b) (c := c) (by simp [hg])]
  set u1 : Ed := { rec_key st1 ⟨"u", some 'u'⟩ with
      redo_stack := (rec_key st1 ⟨"u", some 'u'⟩).redo_stack ++
        [((rec_key st1 ⟨"u", some 'u'⟩).lines,
          (rec_key st1 ⟨"u", some 'u'⟩).cursor_row,
          (rec_key st1 ⟨"u", some 'u'⟩).cursor_col)]
      undo_stack := (rec_key st1 ⟨"u", some 'u'⟩).undo_stack.dropLast
      lines := a, cursor_row := b, cursor_col := c
      status_msg := str "undone" } with hu1
  have hu1l : u1.lines = a := by rw [hu1]
  have hu1r : u1.cursor_row = b := by rw [hu1]
  have hu1c : u1.cursor_col = c := by rw [hu1]
  have hu1m : u1.mode = EditorMode.NORMAL := by rw [hu1]; simp [hm]
  have hu1p : u1.pending = [] := by rw [hu1]; simp [hp]
  have hu1ro : u1.read_only = false := by rw [hu1]; simp [hro]
  have hu1redo : u1.redo_stack =
      st1.redo_stack ++ [(st1.lines, st1.cursor_row, st1.cursor_col)] := by
    rw [hu1]
    simp
  have hu1line : line_at u1 = py_get a b [] := by
    unfold line_at
    rw [hu1l, hu1r]
  have hok2 : cursor_ok u1 := by
    refine ⟨by rw [hu1r]; exact hs0, by rw [hu1r, hu1l]; exact hs1,
      by rw [hu1c]; exact hs2, by rw [hu1c, hu1line]; exact hs3, ?_⟩
    intro _ hne
    rw [hu1c, hu1line]
    exact hs4 (by rw [hu1line] at hne; exact hne)
  obtain ⟨hcr, hcc⟩ := clamp_proj_eq hok2
  set st2 := clamp_cursor u1 with hst2
  have h2l : st2.lines = a := by rw [hst2, clamp_cursor_lines, hu1l]
  have h2r : st2.cursor_row = b := by rw [hst2, hcr, hu1r]
  have h2c : st2.cursor_col = c := by rw [hst2, hcc, hu1c]
  have h2m : st2.mode = EditorMode.NORMAL := by
    rw [hst2, clamp_cursor_mode, hu1m]
  have h2p : st2.pending = [] := by rw [hst2, clamp_cursor_pending, hu1p]
  have h2ro : st2.read_only = false := by
    rw [hst2, clamp_cursor_read_only, hu1ro]
  have h2redo : st2.redo_stack.getLast? =
      some (st1.lines, st1.cursor_row, st1.cursor_col) := by
    rw [hst2, clamp_cursor_redo_stack, hu1redo]
    exact List.getLast?_concat st1.redo_stack
  have hr : on_key lib fuel st2 ⟨"ctrl+r", none⟩ =
      clamp_cursor (redo (rec_key st2 ⟨"ctrl+r", none⟩)) := by
    rw [on_key_normal_eq lib fuel _ h2m, handle_normal_eq,
      hn_ctrlr lib _ (by simp [h2p]) (by simp [h2ro])]
  rw [redo_some (a := st1.lines) (b := st1.cursor_row) (c := st1.cursor_col)
    (by simp [h2redo])] at hr
  set r1 : Ed := { rec_key st2 ⟨"ctrl+r", none⟩ with
      undo_stack := (rec_key st2 ⟨"ctrl+r", none⟩).undo_stack ++
        [((rec_key st2 ⟨"ctrl+r", none⟩).lines,
          (rec_key st2 ⟨"ctrl+r", none⟩).cursor_row,
          (rec_key st2 ⟨"ctrl+r", none⟩).cursor_col)]
      redo_stack := (rec_key st2 ⟨"ctrl+r", none⟩).redo_stack.dropLast
      lines := st1.lines, cursor_row := st1.cursor_row
      cursor_col := st1.cursor_col
      status_msg := str "redone" } with hr1
  have hr1l : r1.lines = st1.lines := by rw [hr1]
  have hr1r : r1.cursor_row = st1.cursor_row := by rw [hr1]
  have hr1c : r1.cursor_col = st1.cursor_col := by rw [hr1]
  have hr1m : r1.mode = st1.mode := by rw [hr1]; simp [h2m, hm]
  have hok3 : cursor_ok r1 := cursor_ok_of_fields hok1 hr1l hr1r hr1c hr1m
  obtain ⟨hcr3, hcc3⟩ := clamp_proj_eq hok3
  refine ⟨h2l, h2r, h2c, ?_, ?_, ?_⟩
  · rw [hr, clamp_cursor_lines, hr1l]
  · rw [hr, hcr3, hr1r]
  · rw [hr, hcc3, hr1c]

@[simp] theorem delete_word_mode (s : Ed) : (delete_word s).mode = s.mode := rfl
@[simp] theorem delete_word_pending (s : Ed) :
    (delete_word s).pending = s.pending := rfl
@[simp] theorem delete_word_read_only (s : Ed) :
    (delete_word s).read_only = s.read_only := rfl
@[simp] theorem delete_word_undo_stack (s : Ed) :
    (delete_word s).undo_stack = s.undo_stack := rfl

/-- The post-keypress state after a Normal-mode key that only arms a
pending operator keeps the buffer, cursor and mode. -/
theorem clamp_pending_state {J : Type} (lib : Jsonlib J) (fuel : Nat) {st : Ed}
    {ev : KeyEvent} {p : Char}
    (hok : cursor_ok st) (hm : st.mode = EditorMode.NORMAL)
    (heq : on_key lib fuel st ev =
      clamp_cursor { dot_start (rec_key st ev) ev with pending := [p] }) :
    (on_key lib fuel st ev).lines = st.lines ∧
    (on_key lib fuel st ev).cursor_row = st.cursor_row ∧
    (on_key lib fuel st ev).cursor_col = st.cursor_col ∧
    (on_key lib fuel st ev).mode = EditorMode.NORMAL ∧
    (on_key lib fuel st ev).pending = [p] ∧
    (on_key lib fuel st ev).read_only = st.read_only := by
  rw [heq]
  set base := { dot_start (rec_key st ev) ev with pending := [p] } with hb
  have hbl : base.lines = st.lines := by rw [hb]; simp
  have hbr : base.cursor_row = st.cursor_row := by rw [hb]; simp
  have hbc : base.cursor_col = st.cursor_col := by rw [hb]; simp
  have hbm : base.mode = st.mode := by rw [hb]; simp
  have hok2 := cursor_ok_of_fields hok hbl hbr hbc hbm
  obtain ⟨x1, x2⟩ := clamp_proj_eq hok2
  exact ⟨by rw [clamp_cursor_lines, hbl], by rw [x1, hbr], by rw [x2, hbc],
    by rw [clamp_cursor_mode, hbm, hm], by rw [clamp_cursor_pending, hb],
    by rw [clamp_cursor_read_only, hb]; simp⟩

/-- The mutating Normal-mode operations of the undo/redo claim. -/
inductive NormOp
  | del_char | del_line | del_word | del_eol | del_bol
  | replace_char (c : Char) | join | paste_after_op | paste_before_op

/-- The key sequence that performs each operation. -/
def op_events : NormOp → List KeyEvent
  | .del_char => [⟨"x", some 'x'⟩]
  | .del_line => [⟨"d", some 'd'⟩, ⟨"d", some 'd'⟩]
  | .del_word => [⟨"d", some 'd'⟩, ⟨"w", some 'w'⟩]
  | .del_eol => [⟨"d", some 'd'⟩, ⟨"$", some '$'⟩]
  | .del_bol => [⟨"d", some 'd'⟩, ⟨"0", some '0'⟩]
  | .replace_char c => [⟨"r", some 'r'⟩, ⟨String.mk [c], some c⟩]
  | .join => [⟨"J", some 'J'⟩]
  | .paste_after_op => [⟨"p", some 'p'⟩]
  | .paste_before_op => [⟨"P", some 'P'⟩]

/-- The operation-specific guard under which each operation pushes an
undo snapshot (paste needs a yank buffer, join a next line). -/
def op_pre (st : Ed) : NormOp → Prop
  | .join => st.cursor_row < (st.lines.length : Int) - 1
  | .paste_after_op => st.yank_buffer ≠ []
  | .paste_before_op => st.yank_buffer ≠ []
  | _ => True

/-- C2: for each mutating Normal-mode operation, `u` afterwards restores
the pre-operation buffer and cursor, and `ctrl+r` right after that undo
restores the post-operation buffer and cursor. -/
theorem undo_redo_inverse {J : Type} (lib : Jsonlib J) (fuel : Nat) {st : Ed}
    (op : NormOp) (hok : cursor_ok st) (hInv : EntryInv st)
    (hm : st.mode = EditorMode.NORMAL) (hp : st.pending = [])
    (hro : st.read_only = false) (hpre : op_pre st op) :
    ((on_key lib fuel (run_keys lib fuel st (op_events op))
        ⟨"u", some 'u'⟩).lines = st.lines ∧
     (on_key lib fuel (run_keys lib fuel st (op_events op))
        ⟨"u", some 'u'⟩).cursor_row = st.cursor_row ∧
     (on_key lib fuel (run_keys lib fuel st (op_events op))
        ⟨"u", some 'u'⟩).cursor_col = st.cursor_col) ∧
    ((on_key lib fuel (on_key lib fuel (run_keys lib fuel st (op_events op))
        ⟨"u", some 'u'⟩) ⟨"ctrl+r", none⟩).lines =
          (run_keys lib fuel st (op_events op)).lines ∧
     (on_key lib fuel (on_key lib fuel (run_keys lib fuel st (op_events op))
        ⟨"u", some 'u'⟩) ⟨"ctrl+r", none⟩).cursor_row =
          (run_keys lib fuel st (op_events op)).cursor_row ∧
     (on_key lib fuel (on_key lib fuel (run_keys lib fuel st (op_events op))
        ⟨"u", some 'u'⟩) ⟨"ctrl+r", none⟩).cursor_col =
          (run_keys lib fuel st (op_events op)).cursor_col) := by
  have hsnap : snap_ok st.lines st.cursor_row st.cursor_col := by
    obtain ⟨a0, a1, a2, a3, a4⟩ := hok
    exact ⟨a0, a1, a2, a3, fun hne => a4 hm hne⟩
  suffices h : cursor_ok (run_keys lib fuel st (op_events op)) ∧
      (run_keys lib fuel st (op_events op)).mode = EditorMode.NORMAL ∧
      (run_keys lib fuel st (op_events op)).pending = [] ∧
      (run_keys lib fuel st (op_events op)).read_only = false ∧
      (run_keys lib fuel st (op_events op)).undo_stack.getLast? =
        some (st.lines, st.cursor_row, st.cursor_col) by
    obtain ⟨hok1, h1, h2, h3, h4⟩ := h
    have R := undo_redo_roundtrip lib fuel hok1 h1 h2 h3 h4 hsnap
    exact ⟨⟨R.1, R.2.1, R.2.2.1⟩, R.2.2.2.1, R.2.2.2.2.1, R.2.2.2.2.2⟩
  cases op with
  | del_char =>
      have hrun : run_keys lib fuel st (op_events NormOp.del_char) =
          on_key lib fuel st ⟨"x", some 'x'⟩ := rfl
      refine ⟨(on_key_entry lib fuel _ hInv).2, ?_, ?_, ?_, ?_⟩ <;>
        rw [hrun, on_key_normal_eq lib fuel _ hm, handle_normal_eq,
          hn_x lib _ (by simp [hp]) (by simp [hro])] <;>
        try dsimp only
      · simp only [clamp_cursor_mode]
        split <;> simp [hm]
      · simp only [clamp_cursor_pending]
        split <;> simp [hp]
      · simp only [clamp_cursor_read_only]
        split <;> simp [hro]
      · simp only [clamp_cursor_undo_stack]
        split <;> simp [save_undo_getLast]
  | del_line =>
      have hrun : run_keys lib fuel st (op_events NormOp.del_line) =
          on_key lib fuel (on_key lib fuel st ⟨"d", some 'd'⟩)
            ⟨"d", some 'd'⟩ := rfl
      obtain ⟨hAl, hAr, hAc, hAm, hAp, hAro⟩ := clamp_pending_state lib fuel hok hm
        (by rw [on_key_normal_eq lib fuel _ hm, handle_normal_eq,
          hn_d lib _ (by simp [hp]) (by simp [hro])])
      refine ⟨?_, ?_, ?_, ?_, ?_⟩
      · exact (on_key_entry lib fuel _ (on_key_entry lib fuel _ hInv).1).2
      all_goals
        rw [hrun, on_key_normal_eq lib fuel _ hAm, handle_normal_eq,
          hn_pending lib _ _ (by simp [hAp]),
          hp_dd lib (by simp [hAp]) (by simp [hAro, hro])]
      all_goals try dsimp only
      · simp only [clamp_cursor_mode, dot_stop_mode]
        try dsimp only
        split
        · split <;> simp [hAm]
        · simp [hAm]
      · simp only [clamp_cursor_pending, dot_stop_pending]
        try dsimp only
        split
        · split <;> simp
        · simp
      · simp only [clamp_cursor_read_only, dot_stop_read_only]
        try dsimp only
        split
        · split <;> simp [hAro, hro]
        · simp [hAro, hro]
      · simp only [clamp_cursor_undo_stack, dot_stop_undo_stack]
        try dsimp only
        split
        · split <;> simp [save_undo_getLast, hAl, hAr, hAc]
        · simp [save_undo_getLast, hAl, hAr, hAc]
  | del_word =>
      have hrun : run_keys lib fuel st (op_events NormOp.del_word) =
          on_key lib fuel (on_key lib fuel st ⟨"d", some 'd'⟩)
            ⟨"w", some 'w'⟩ := rfl
      obtain ⟨hAl, hAr, hAc, hAm, hAp, hAro⟩ := clamp_pending_state lib fuel hok hm
        (by rw [on_key_normal_eq lib fuel _ hm, handle_normal_eq,
          hn_d lib _ (by simp [hp]) (by simp [hro])])
      refine ⟨?_, ?_, ?_, ?_, ?_⟩
      · exact (on_key_entry lib fuel _ (on_key_entry lib fuel _ hInv).1).2
      all_goals
        rw [hrun, on_key_normal_eq lib fuel _ hAm, handle_normal_eq,
          hn_pending lib _ _ (by simp [hAp]),
          hp_dw lib (by simp [hAp]) (by simp [hAro, hro])]
      · simp [hAm]
      · simp
      · simp [hAro, hro]
      · simp [save_undo_getLast, hAl, hAr, hAc]
  | del_eol =>
      have hrun : run_keys lib fuel st (op_events NormOp.del_eol) =
          on_key lib fuel (on_key lib fuel st ⟨"d", some 'd'⟩)
            ⟨"$", some '$'⟩ := rfl
      obtain ⟨hAl, hAr, hAc, hAm, hAp, hAro⟩ := clamp_pending_state lib fuel hok hm
        (by rw [on_key_normal_eq lib fuel _ hm, handle_normal_eq,
          hn_d lib _ (by simp [hp]) (by simp [hro])])
      refine ⟨?_, ?_, ?_, ?_, ?_⟩
      · exact (on_key_entry lib fuel _ (on_key_entry lib fuel _ hInv).1).2
      all_goals
        rw [hrun, on_key_normal_eq lib fuel _ hAm, handle_normal_eq,
          hn_pending lib _ _ (by simp [hAp]),
          hp_dS lib (by simp [hAp]) (by simp [hAro, hro])]
      all_goals try dsimp only
      · simp [hAm]
      · simp
      · simp [hAro, hro]
      · simp [save_undo_getLast, hAl, hAr, hAc]
  | del_bol =>
      have hrun : run_keys lib fuel st (op_events NormOp.del_bol) =
          on_key lib fuel (on_key lib fuel st ⟨"d", some 'd'⟩)
            ⟨"0", some '0'⟩ := rfl
      obtain ⟨hAl, hAr, hAc, hAm, hAp, hAro⟩ := clamp_pending_state lib fuel hok hm
        (by rw [on_key_normal_eq lib fuel _ hm, handle_normal_eq,
          hn_d lib _ (by simp [hp]) (by simp [hro])])
      refine ⟨?_, ?_, ?_, ?_, ?_⟩
      · exact (on_key_entry lib fuel _ (on_key_entry lib fuel _ hInv).1).2
      all_goals
        rw [hrun, on_key_normal_eq lib fuel _ hAm, handle_normal_eq,
          hn_pending lib _ _ (by simp [hAp]),
          hp_d0 lib (by simp [hAp]) (by simp [hAro, hro])]
      all_goals try dsimp only
      · simp [hAm]
      · simp
      · simp [hAro, hro]
      · simp [save_undo_getLast, hAl, hAr, hAc]
  | replace_char c =>
      have hkey : ¬((String.mk [c]) = "escape") := fun hcontra => by
        have h2 : [c] = ['e', 's', 'c', 'a', 'p', 'e'] :=
          congrArg String.data hcontra
        simp at h2
      have hrun : run_keys lib fuel st (op_events (NormOp.replace_char c)) =
          on_key lib fuel (on_key lib fuel st ⟨"r", some 'r'⟩)
            ⟨String.mk [c], some c⟩ := rfl
      obtain ⟨hAl, hAr, hAc, hAm, hAp, hAro⟩ := clamp_pending_state lib fuel hok hm
        (by rw [on_key_normal_eq lib fuel _ hm, handle_normal_eq,
          hn_r lib _ (by simp [hp]) (by simp [hro])])
      refine ⟨?_, ?_, ?_, ?_, ?_⟩
      · exact (on_key_entry lib fuel _ (on_key_entry lib fuel _ hInv).1).2
      all_goals
        rw [hrun, on_key_normal_eq lib fuel _ hAm, handle_normal_eq,
          hn_pending lib _ _ (by simp [hAp]),
          hp_r lib c hkey (by simp [hAp]) (by simp [hAro, hro])]
      all_goals try dsimp only
      · simp only [clamp_cursor_mode, dot_stop_mode]
        split <;> simp [hAm]
      · simp only [clamp_cursor_pending, dot_stop_pending]
        split <;> simp
      · simp only [clamp_cursor_read_only, dot_stop_read_only]
        split <;> simp [hAro, hro]
      · simp only [clamp_cursor_undo_stack, dot_stop_undo_stack]
        split <;> simp [save_undo_getLast, hAl, hAr, hAc]
  | join =>
      have hpre2 : st.cursor_row < (st.lines.length : Int) - 1 := hpre
      have hrun : run_keys lib fuel st (op_events NormOp.join) =
          on_key lib fuel st ⟨"J", some 'J'⟩ := rfl
      refine ⟨(on_key_entry lib fuel _ hInv).2, ?_, ?_, ?_, ?_⟩ <;>
        rw [hrun, on_key_normal_eq lib fuel _ hm, handle_normal_eq,
          hn_J lib _ (by simp [hp]) (by simp [hro]),
          join_lines_go (by simp; omega)] <;>
        try dsimp only
      · simp [hm]
      · simp [hp]
      · simp [hro]
      · simp [save_undo_getLast]
  | paste_after_op =>
      have hpre2 : st.yank_buffer ≠ [] := hpre
      have hrun : run_keys lib fuel st (op_events NormOp.paste_after_op) =
          on_key lib fuel st ⟨"p", some 'p'⟩ := rfl
      refine ⟨(on_key_entry lib fuel _ hInv).2, ?_, ?_, ?_, ?_⟩ <;>
        rw [hrun, on_key_normal_eq lib fuel _ hm, handle_normal_eq,
          hn_p lib _ (by simp [hp]) (by simp [hro]),
          paste_after_nonempty (by simpa using hpre2)] <;>
        try dsimp only
      · simp [hm]
      · simp [hp]
      · simp [hro]
      · simp [save_undo_getLast]
  | paste_before_op =>
      have hpre2 : st.yank_buffer ≠ [] := hpre
      have hrun : run_keys lib fuel st (op_events NormOp.paste_before_op) =
          on_key lib fuel st ⟨"P", some 'P'⟩ := rfl
      refine ⟨(on_key_entry lib fuel _ hInv).2, ?_, ?_, ?_, ?_⟩ <;>
        rw [hrun, on_key_normal_eq lib fuel _ hm, handle_normal_eq,
          hn_P lib _ (by simp [hp]) (by simp [hro]),
          paste_before_nonempty (by simpa using hpre2)] <;>
        try dsimp only
      · simp [hm]
      · simp [hp]
      · simp [hro]
      · simp [save_undo_getLast]

theorem undo_redo_inverse_w :
    (on_key triv_lib 0 (run_keys triv_lib 0
        (mk_editor triv_lib (str "ab") false false 10)
        (op_events NormOp.del_line)) ⟨"u", some 'u'⟩).lines = [str "ab"] ∧
    (on_key triv_lib 0 (run_keys triv_lib 0
        (mk_editor triv_lib (str "ab") false false 10)
        (op_events NormOp.del_line)) ⟨"u", some 'u'⟩).cursor_row = 0 ∧
    (on_key triv_lib 0 (on_key triv_lib 0 (run_keys triv_lib 0
        (mk_editor triv_lib (str "ab") false false 10)
        (op_events NormOp.del_line)) ⟨"u", some 'u'⟩) ⟨"ctrl+r", none⟩).lines =
      (run_keys triv_lib 0 (mk_editor triv_lib (str "ab") false false 10)
        (op_events NormOp.del_line)).lines := by
  have h := @undo_redo_inverse Unit triv_lib 0
    (mk_editor triv_lib (str "ab") false false 10) NormOp.del_line
    (by unfold cursor_ok line_at; decide)
    (by unfold EntryInv CoreInv stack_ok; decide)
    rfl rfl rfl trivial
  exact ⟨by rw [h.1.1]; rfl, by rw [h.1.2.1]; rfl, h.2.1⟩
namespace Diff

/-- The four per-line lists of a `DiffResult` stay aligned. -/
def Balanced (r : DiffResult) : Prop :=
  r.left_lines.length = r.right_lines.length ∧
  r.left_lines.length = r.left_line_tags.length ∧
  r.left_lines.length = r.right_line_tags.length

theorem balanced_empty : Balanced {} := ⟨rfl, rfl, rfl⟩

theorem balanced_append_pair {r : DiffResult} (h : Balanced r)
    (l rr : PyStr) (t : DiffTag) : Balanced (r.append_pair l rr t) := by
  obtain ⟨h1, h2, h3⟩ := h
  refine ⟨?_, ?_, ?_⟩ <;> simp [DiffResult.append_pair] <;> omega

theorem balanced_hunks {r : DiffResult} (h : Balanced r) (hs : List DiffHunk) :
    Balanced { r with hunks := hs } := h

theorem balanced_foldl {α : Type} (f : DiffResult → α → DiffResult)
    (hf : ∀ r x, Balanced r → Balanced (f r x)) :
    ∀ (xs : List α) (r : DiffResult), Balanced r → Balanced (xs.foldl f r)
  | [], _, h => h
  | x :: xs, r, h => balanced_foldl f hf xs (f r x) (hf r x h)

theorem balanced_foldl_fst {α β : Type} (f : DiffResult × β → α → DiffResult × β)
    (hf : ∀ acc x, Balanced acc.1 → Balanced (f acc x).1) :
    ∀ (xs : List α) (acc : DiffResult × β), Balanced acc.1 →
      Balanced ((xs.foldl f acc).1)
  | [], _, h => h
  | x :: xs, acc, h => balanced_foldl_fst f hf xs (f acc x) (hf acc x h)

theorem balanced_append_equal {r : DiffResult} (h : Balanced r)
    (ls rs : List PyStr) : Balanced (r.append_equal ls rs) := by
  unfold DiffResult.append_equal
  exact balanced_foldl _ (fun r i hr => balanced_append_pair hr _ _ _) _ _ h

theorem balanced_append_hunk {r : DiffResult} (h : Balanced r)
    (ls rs : List PyStr) (t : DiffTag) : Balanced (r.append_hunk ls rs t) := by
  unfold DiffResult.append_hunk
  try dsimp only
  split
  · exact balanced_hunks
      (balanced_foldl _ (fun r k hr => balanced_append_pair hr _ _ _) _ _ h) _
  · exact balanced_foldl _ (fun r k hr => balanced_append_pair hr _ _ _) _ _ h

theorem balanced_line_diff (m : Matcher) {r : DiffResult} (h : Balanced r)
    (ls rs : List PyStr) : Balanced (line_diff m r ls rs) := by
  unfold line_diff
  try dsimp only
  have key : ∀ (acc : DiffResult × Nat) (op : Opcode), Balanced acc.1 →
      Balanced ((match op with
        | (.equal, i1, i2, j1, j2) =>
            (acc.1.append_equal (py_slice ls i1 i2) (py_slice rs j1 j2),
              acc.2 + (i2 - i1))
        | (tag, i1, i2, j1, j2) =>
            let dt := op_to_tag tag
            let mc := max (i2 - i1) (j2 - j1)
            let r := (List.range mc).foldl (fun r k =>
              r.append_pair
                (if k < i2 - i1 then ls.getD (i1 + k) [] else [])
                (if k < j2 - j1 then rs.getD (j1 + k) [] else []) dt) acc.1
            (r, acc.2 + mc) : DiffResult × Nat).1) := by
    intro acc op hacc
    match op with
    | (.equal, i1, i2, j1, j2) => exact balanced_append_equal hacc _ _
    | (.delete, i1, i2, j1, j2) =>
        exact balanced_foldl _ (fun r k hr => balanced_append_pair hr _ _ _) _ _ hacc
    | (.insert, i1, i2, j1, j2) =>
        exact balanced_foldl _ (fun r k hr => balanced_append_pair hr _ _ _) _ _ hacc
    | (.replace, i1, i2, j1, j2) =>
        exact balanced_foldl _ (fun r k hr => balanced_append_pair hr _ _ _) _ _ hacc
  split
  · exact balanced_hunks (balanced_foldl_fst _ key _ _ h) _
  · exact balanced_foldl_fst _ key _ _ h

theorem balanced_handle_replace (m : Matcher) {r : DiffResult} (h : Balanced r)
    (left_src right_src : List PyStr) (left_segs right_segs : List (Nat × Nat)) :
    Balanced (handle_replace_segments m r left_src right_src left_segs right_segs) := by
  unfold handle_replace_segments
  try dsimp only
  refine balanced_foldl _ (fun r seg hr => balanced_append_hunk hr _ _ _) _ _
    (balanced_foldl _ (fun r seg hr => balanced_append_hunk hr _ _ _) _ _
      (balanced_foldl _ ?_ _ _ h))
  intro r k hr
  try dsimp only
  split
  · exact balanced_append_equal hr _ _
  · exact balanced_line_diff m hr _ _

theorem balanced_compute_block_diff (m : Matcher)
    (left_src right_src : List PyStr) (left_segs right_segs : List (Nat × Nat)) :
    Balanced (compute_block_diff m left_src right_src left_segs right_segs) := by
  unfold compute_block_diff
  try dsimp only
  refine balanced_foldl _ ?_ _ _ balanced_empty
  intro r op hr
  match op with
  | (.equal, i1, i2, j1, j2) =>
      exact balanced_foldl _ (fun r k hrr => balanced_append_equal hrr _ _) _ _ hr
  | (.delete, i1, i2, j1, j2) =>
      exact balanced_foldl _ (fun r k hrr => balanced_append_hunk hrr _ _ _) _ _ hr
  | (.insert, i1, i2, j1, j2) =>
      exact balanced_foldl _ (fun r k hrr => balanced_append_hunk hrr _ _ _) _ _ hr
  | (.replace, i1, i2, j1, j2) =>
      exact balanced_handle_replace m hr _ _ _ _

theorem balanced_compute_line_diff_full (m : Matcher) (l r : List PyStr) :
    Balanced (compute_line_diff_full m l r) := by
  unfold compute_line_diff_full
  split
  · exact balanced_append_hunk balanced_empty _ _ _
  · refine balanced_foldl _ ?_ _ _ balanced_empty
    intro res op hres
    match op with
    | (.equal, i1, i2, j1, j2) => exact balanced_append_equal hres _ _
    | (.delete, i1, i2, j1, j2) => exact balanced_append_hunk hres _ _ _
    | (.insert, i1, i2, j1, j2) => exact balanced_append_hunk hres _ _ _
    | (.replace, i1, i2, j1, j2) => exact balanced_append_hunk hres _ _ _

theorem balanced_compute_line_diff (m : Matcher) (l r : List PyStr) :
    Balanced (compute_line_diff m l r) := by
  unfold compute_line_diff
  split
  · split
    · exact balanced_compute_block_diff m _ _ _ _
    · exact balanced_compute_line_diff_full m _ _
  · exact balanced_compute_line_diff_full m _ _

theorem balanced_jsonl_sep {r : DiffResult} (h : Balanced r) (t : DiffTag)
    (first : Bool) : Balanced (jsonl_sep r t first).1 := by
  unfold jsonl_sep
  try dsimp only
  split
  · exact balanced_append_pair h _ _ _
  · exact h

theorem balanced_compute_jsonl_diff {J : Type} (m : Matcher) (lib : Jsonlib J)
    (left right : PyStr) (normalize : Bool) :
    Balanced (compute_jsonl_diff m lib left right normalize) := by
  unfold compute_jsonl_diff
  try dsimp only
  refine balanced_foldl_fst _ ?_ _ _ balanced_empty
  intro acc op hacc
  match op with
  | (.equal, i1, i2, j1, j2) =>
      refine balanced_foldl_fst _ ?_ _ _ hacc
      intro acc2 k h2
      try dsimp only
      exact balanced_foldl _ (fun r line hr => balanced_append_pair hr _ _ _) _ _
        (balanced_jsonl_sep h2 _ _)
  | (.delete, i1, i2, j1, j2) =>
      refine balanced_foldl_fst _ ?_ _ _ hacc
      intro acc2 k h2
      try dsimp only
      exact balanced_append_hunk (balanced_jsonl_sep h2 _ _) _ _ _
  | (.insert, i1, i2, j1, j2) =>
      refine balanced_foldl_fst _ ?_ _ _ hacc
      intro acc2 k h2
      try dsimp only
      exact balanced_append_hunk (balanced_jsonl_sep h2 _ _) _ _ _
  | (.replace, i1, i2, j1, j2) =>
      try dsimp only
      refine balanced_foldl_fst _ ?_ _ _
        (balanced_foldl_fst _ ?_ _ _ (balanced_foldl_fst _ ?_ _ _ hacc))
      · intro acc2 k h2
        try dsimp only
        exact balanced_append_hunk (balanced_jsonl_sep h2 _ _) _ _ _
      · intro acc2 k h2
        try dsimp only
        exact balanced_append_hunk (balanced_jsonl_sep h2 _ _) _ _ _
      · intro acc2 k h2
        try dsimp only
        split
        · exact balanced_foldl _ (fun r line hr => balanced_append_pair hr _ _ _)
            _ _ (balanced_jsonl_sep h2 _ _)
        · exact balanced_line_diff m (balanced_jsonl_sep h2 _ _) _ _

end Diff

/-- C6: for every matcher, json hooks, pair of inputs and flag
combination, the `DiffResult` of `compute_json_diff` has its four
per-line lists of equal length. -/
theorem diff_lists_aligned {J : Type} (m : Diff.Matcher) (lib : Jsonlib J)
    (left right : PyStr) (normalize jsonl : Bool) :
    (Diff.compute_json_diff m lib left right normalize jsonl).left_lines.length =
      (Diff.compute_json_diff m lib left right normalize jsonl).right_lines.length ∧
    (Diff.compute_json_diff m lib left right normalize jsonl).left_lines.length =
      (Diff.compute_json_diff m lib left right normalize jsonl).left_line_tags.length ∧
    (Diff.compute_json_diff m lib left right normalize jsonl).left_lines.length =
      (Diff.compute_json_diff m lib left right normalize jsonl).right_line_tags.length := by
  have h : Diff.Balanced (Diff.compute_json_diff m lib left right normalize jsonl) := by
    unfold Diff.compute_json_diff
    split
    · exact Diff.balanced_compute_jsonl_diff m lib left right normalize
    · exact Diff.balanced_compute_line_diff m _ _
  exact h
namespace Diff

theorem append_pair_hunks (r : DiffResult) (l rr : PyStr) (t : DiffTag) :
    (r.append_pair l rr t).hunks = r.hunks := rfl

theorem foldl_hunks {α : Type} (g : DiffResult → α → DiffResult)
    (hg : ∀ r x, (g r x).hunks = r.hunks) :
    ∀ (xs : List α) (r : DiffResult), (xs.foldl g r).hunks = r.hunks
  | [], _ => rfl
  | x :: xs, r => (foldl_hunks g hg xs (g r x)).trans (hg r x)

theorem append_equal_hunks (r : DiffResult) (ls rs : List PyStr) :
    (r.append_equal ls rs).hunks = r.hunks := by
  unfold DiffResult.append_equal
  exact foldl_hunks
    (fun r i => r.append_pair (ls.getD i []) (rs.getD i []) DiffTag.EQUAL)
    (fun _ _ => rfl) _ r

theorem foldl_llen {α : Type} (g : DiffResult → α → DiffResult)
    (hg : ∀ r x, (g r x).left_lines.length = r.left_lines.length + 1) :
    ∀ (xs : List α) (r : DiffResult),
      (xs.foldl g r).left_lines.length = r.left_lines.length + xs.length
  | [], _ => rfl
  | x :: xs, r => by
      rw [List.foldl_cons, foldl_llen g hg xs (g r x), hg r x]
      simp
      omega

theorem foldl_rlen {α : Type} (g : DiffResult → α → DiffResult)
    (hg : ∀ r x, (g r x).right_lines.length = r.right_lines.length + 1) :
    ∀ (xs : List α) (r : DiffResult),
      (xs.foldl g r).right_lines.length = r.right_lines.length + xs.length
  | [], _ => rfl
  | x :: xs, r => by
      rw [List.foldl_cons, foldl_rlen g hg xs (g r x), hg r x]
      simp
      omega

/-- The exact shape of the large-input fallback result. -/
theorem make_full_replace_spec (l r : List PyStr)
    (h : ¬(max l.length r.length = 0)) :
    (make_full_replace l r).hunks =
      [⟨0, max l.length r.length, 0, max l.length r.length, DiffTag.REPLACE⟩] ∧
    (make_full_replace l r).left_lines.length = max l.length r.length ∧
    (make_full_replace l r).right_lines.length = max l.length r.length := by
  unfold make_full_replace DiffResult.append_hunk
  try dsimp only
  rw [if_pos (by simpa using h)]
  refine ⟨?_, ?_, ?_⟩ <;> try dsimp only
  · rw [foldl_hunks
      (fun r1 k => DiffResult.append_pair r1 (l.getD k []) (r.getD k [])
        DiffTag.REPLACE) (fun _ _ => rfl)]
    rfl
  · rw [foldl_llen _ (fun r x => by simp [DiffResult.append_pair])]
    simp
  · rw [foldl_rlen _ (fun r x => by simp [DiffResult.append_pair])]
    simp

end Diff

/-- C5 (amended): for every matcher and pair of (non-JSONL) line arrays
whose lengths sum to more than 50,000, the diff is skipped and the
result is one REPLACE hunk spanning the padded common length — but only
on the full-diff path, i.e. when block detection fails on either side
or the detected indents differ; the block-diff path checked first in
`_compute_line_diff` bypasses the 50,000-line valve entirely. -/
theorem full_diff_valve (m : Diff.Matcher) (l r : List PyStr)
    (hbig : l.length + r.length > Diff.FULL_DIFF_LIMIT)
    (hnb : Diff.detect_blocks l = none ∨ Diff.detect_blocks r = none ∨
      (∀ lb rb : Nat × Nat, Diff.detect_blocks l = some lb →
        Diff.detect_blocks r = some rb → lb.1 ≠ rb.1)) :
    Diff.compute_line_diff m l r = Diff.make_full_replace l r ∧
    (Diff.compute_line_diff m l r).hunks =
      [⟨0, max l.length r.length, 0, max l.length r.length,
        Diff.DiffTag.REPLACE⟩] ∧
    (Diff.compute_line_diff m l r).left_lines.length =
      max l.length r.length ∧
    (Diff.compute_line_diff m l r).right_lines.length =
      max l.length r.length := by
  have hmax : ¬(max l.length r.length = 0) := by
    unfold Diff.FULL_DIFF_LIMIT at hbig
    omega
  have hfull : Diff.compute_line_diff_full m l r = Diff.make_full_replace l r := by
    unfold Diff.compute_line_diff_full
    rw [if_pos hbig]
  have h1 : Diff.compute_line_diff m l r = Diff.make_full_replace l r := by
    unfold Diff.compute_line_diff
    cases hdl : Diff.detect_blocks l with
    | none => exact hfull
    | some lb =>
        cases hdr : Diff.detect_blocks r with
        | none => exact hfull
        | some rb =>
            have hne : lb.1 ≠ rb.1 := by
              rcases hnb with h | h | h
              · rw [hdl] at h
                cases h
              · rw [hdr] at h
                cases h
              · exact h lb rb hdl hdr
            try dsimp only
            rw [if_neg hne]
            exact hfull
  obtain ⟨s1, s2, s3⟩ := Diff.make_full_replace_spec l r hmax
  exact ⟨h1, by rw [h1, s1], by rw [h1, s2], by rw [h1, s3]⟩

/-- All-"x" line arrays have no brace-opened lines, so block detection
fails on them. -/
theorem indent_counts_all_x (n : Nat) :
    Diff.indent_counts (List.replicate n (str "x")) = [] := by
  unfold Diff.indent_counts
  induction n with
  | zero => rfl
  | succ n ih =>
      rw [List.replicate_succ, List.foldl_cons]
      exact ih

theorem detect_blocks_all_x (n : Nat) :
    Diff.detect_blocks (List.replicate n (str "x")) = none := by
  unfold Diff.detect_blocks
  rw [indent_counts_all_x n]
  rfl

theorem full_diff_valve_w :
    (Diff.compute_line_diff (fun _ _ => []) (List.replicate 25001 (str "x"))
        (List.replicate 25001 (str "x"))).hunks =
      [⟨0, 25001, 0, 25001, Diff.DiffTag.REPLACE⟩] ∧
    (Diff.compute_line_diff (fun _ _ => []) (List.replicate 25001 (str "x"))
        (List.replicate 25001 (str "x"))).left_lines.length = 25001 := by
  have h := full_diff_valve (fun _ _ => []) (List.replicate 25001 (str "x"))
    (List.replicate 25001 (str "x"))
    (by rw [List.length_replicate]; decide)
    (Or.inl (detect_blocks_all_x 25001))
  constructor
  · rw [h.2.1]
    simp only [List.length_replicate, max_self]
  · rw [h.2.2.1]
    simp only [List.length_replicate, max_self]

/-- Alternating rows "\x7b", "\x7d" repeated `n` times. -/
def braceRows : Nat → List PyStr
  | 0 => []
  | n + 1 => ['\x7b'] :: ['\x7d'] :: braceRows n

theorem braceRows_length (n : Nat) : (braceRows n).length = 2 * n := by
  induction n with
  | zero => rfl
  | succ n ih =>
      show (braceRows n).length + 1 + 1 = 2 * (n + 1)
      omega

theorem ic_braceRows (n : Nat) : ∀ k : Nat,
    (braceRows n).foldl (fun counts line =>
      let stripped := py_lstrip line
      if stripped ≠ [] ∧
          (stripped.head? = some '\x7b' ∨ stripped.head? = some '[') then
        Diff.bump counts (line.length - stripped.length)
      else counts) [(0, k)] = [(0, k + n)] := by
  induction n with
  | zero => intro k; rfl
  | succ n ih =>
      intro k
      show List.foldl _ [(0, k + 1)] (braceRows n) = [(0, k + (n + 1))]
      rw [ih (k + 1), (by omega : k + 1 + n = k + (n + 1))]

theorem indent_counts_braceRows (n : Nat) :
    Diff.indent_counts (braceRows (n + 1)) = [(0, n + 1)] := by
  unfold Diff.indent_counts
  show List.foldl _ [(0, 1)] (braceRows n) = [(0, n + 1)]
  rw [ic_braceRows n 1, (by omega : 1 + n = n + 1)]

theorem detect_blocks_braceRows (n : Nat) (h : 3 ≤ n) :
    Diff.detect_blocks (braceRows (n + 1)) = some (0, n + 1) := by
  unfold Diff.detect_blocks
  rw [indent_counts_braceRows n]
  have hb : Diff.best_of [(0, n + 1)] = some (0, n + 1) := rfl
  rw [hb]
  try dsimp only
  rw [if_neg (by omega)]

/-- A line matcher that reports identical inputs as one `equal` opcode
(as `difflib.SequenceMatcher` does). -/
def eqMatcher : Diff.Matcher := fun a b =>
  if a = b then [(Diff.OpTag.equal, 0, a.length, 0, b.length)]
  else [(Diff.OpTag.replace, 0, a.length, 0, b.length)]

theorem eqMatcher_self (a : List PyStr) :
    eqMatcher a a = [(Diff.OpTag.equal, 0, a.length, 0, a.length)] := by
  unfold eqMatcher
  rw [if_pos rfl]


/-- When both sides detect blocks with the same indent, the diff takes
the block path (in particular the 50,000-line valve is never tested). -/
theorem block_path_eq (m : Diff.Matcher) (l r : List PyStr) {lb rb : Nat × Nat}
    (hdl : Diff.detect_blocks l = some lb) (hdr : Diff.detect_blocks r = some rb)
    (heq : lb.1 = rb.1) :
    Diff.compute_line_diff m l r =
      Diff.compute_block_diff m l r (Diff.build_segments l lb.1)
        (Diff.build_segments r lb.1) := by
  unfold Diff.compute_line_diff
  rw [hdl, hdr]
  try dsimp only
  rw [if_pos heq]

/-- A block diff of a side against itself under `eqMatcher` produces no
hunks at all. -/
theorem compute_block_diff_self (src : List PyStr) (segs : List (Nat × Nat)) :
    (Diff.compute_block_diff eqMatcher src src segs segs).hunks = [] := by
  unfold Diff.compute_block_diff
  try dsimp only
  rw [eqMatcher_self]
  rw [List.foldl_cons, List.foldl_nil]
  try dsimp only
  refine (Diff.foldl_hunks _ ?_ _ _).trans rfl
  intro r k
  try dsimp only
  exact Diff.append_equal_hunks _ _ _

/-- C5 counterexample: two identical 25,002-line sides (50,004 lines in
total, over the 50,000 valve) whose lines form detected brace blocks;
`_compute_line_diff` takes the block path before ever consulting the
valve and returns a result with no hunks at all, not one giant REPLACE
hunk. -/
theorem full_diff_valve_cex :
    (braceRows 12501).length + (braceRows 12501).length >
      Diff.FULL_DIFF_LIMIT ∧
    (Diff.compute_line_diff eqMatcher (braceRows 12501)
      (braceRows 12501)).hunks = [] := by
  constructor
  · rw [braceRows_length]
    decide
  · rw [block_path_eq eqMatcher _ _ (detect_blocks_braceRows 12500 (by omega))
      (detect_blocks_braceRows 12500 (by omega)) rfl]
    exact compute_block_diff_self _ _

/-- C8: `:fmt`/`:format` — on parse failure (single JSON document, or
some JSONL record) it sets a "cannot format" status message and leaves
buffer, cursor and undo stack untouched; on success it pushes an undo
snapshot of the prior state, replaces the buffer with the indented
serialization, homes the cursor and reports "formatted". -/
theorem format_cmd_spec {J : Type} (lib : Jsonlib J) (st : Ed) :
    (st.jsonl = false → lib.loads (get_content st) = none →
      (format_json lib st).lines = st.lines ∧
      (format_json lib st).cursor_row = st.cursor_row ∧
      (format_json lib st).cursor_col = st.cursor_col ∧
      (format_json lib st).undo_stack = st.undo_stack ∧
      (format_json lib st).redo_stack = st.redo_stack ∧
      (format_json lib st).status_msg =
        str "cannot format: " ++ lib.err_msg (get_content st) ++
          str " (line " ++ nat_str (lib.err_lineno (get_content st)) ++
          str ")") ∧
    (∀ v : J, st.jsonl = false → lib.loads (get_content st) = some v →
      (format_json lib st).lines = split_nl (lib.dumps_indent v) ∧
      (format_json lib st).cursor_row = 0 ∧
      (format_json lib st).cursor_col = 0 ∧
      (format_json lib st).status_msg = str "formatted" ∧
      (format_json lib st).undo_stack.getLast? =
        some (st.lines, st.cursor_row, st.cursor_col) ∧
      (format_json lib st).redo_stack = []) ∧
    (∀ (i : Nat) (msg : PyStr), st.jsonl = true →
      fmt_blocks lib (split_jsonl_blocks (get_content st)) 1 =
        .error (i, msg) →
      (format_json lib st).lines = st.lines ∧
      (format_json lib st).cursor_row = st.cursor_row ∧
      (format_json lib st).cursor_col = st.cursor_col ∧
      (format_json lib st).undo_stack = st.undo_stack ∧
      (format_json lib st).redo_stack = st.redo_stack ∧
      (format_json lib st).status_msg =
        str "cannot format: record " ++ nat_str i ++ str ": " ++ msg) ∧
    (∀ formatted : List PyStr, st.jsonl = true →
      fmt_blocks lib (split_jsonl_blocks (get_content st)) 1 =
        .ok formatted →
      (format_json lib st).lines =
        split_nl (py_join (str "\n\n") formatted) ∧
      (format_json lib st).cursor_row = 0 ∧
      (format_json lib st).cursor_col = 0 ∧
      (format_json lib st).status_msg = str "formatted" ∧
      (format_json lib st).undo_stack.getLast? =
        some (st.lines, st.cursor_row, st.cursor_col) ∧
      (format_json lib st).redo_stack = []) := by
  refine ⟨?_, ?_, ?_, ?_⟩
  · intro hj hl
    unfold format_json
    rw [if_neg (by simp [hj])]
    try dsimp only
    rw [hl]
    exact ⟨rfl, rfl, rfl, rfl, rfl, rfl⟩
  · intro v hj hl
    unfold format_json
    rw [if_neg (by simp [hj])]
    try dsimp only
    rw [hl]
    exact ⟨rfl, rfl, rfl, rfl, save_undo_getLast st, rfl⟩
  · intro i msg hj hf
    unfold format_json
    rw [if_pos hj]
    unfold format_jsonl
    try dsimp only
    rw [hf]
    exact ⟨rfl, rfl, rfl, rfl, rfl, rfl⟩
  · intro formatted hj hf
    unfold format_json
    rw [if_pos hj]
    unfold format_jsonl
    try dsimp only
    rw [hf]
    exact ⟨rfl, rfl, rfl, rfl, save_undo_getLast st, rfl⟩

/-- Json hooks that parse anything and serialize to "42", for the
success-path witness. -/
def fmtLib : Jsonlib Unit :=
  ⟨fun _ => some (), fun _ => [], fun _ => 0, fun _ => str "42",
    fun _ => [], fun _ => none, fun _ => [], fun _ => false, fun _ => []⟩

theorem format_cmd_spec_w :
    (format_json triv_lib (mk_editor triv_lib (str "x") false false 10)).lines =
      [str "x"] ∧
    (format_json triv_lib
        (mk_editor triv_lib (str "x") false false 10)).undo_stack = [] ∧
    (format_json fmtLib (mk_editor fmtLib (str "x") false false 10)).lines =
      [str "42"] ∧
    (format_json fmtLib
        (mk_editor fmtLib (str "x") false false 10)).status_msg =
      str "formatted" ∧
    (format_json fmtLib
        (mk_editor fmtLib (str "x") false false 10)).undo_stack.getLast? =
      some ([str "x"], 0, 0) := by
  have h1 := (format_cmd_spec triv_lib
    (mk_editor triv_lib (str "x") false false 10)).1 rfl rfl
  have h2 := (format_cmd_spec fmtLib
    (mk_editor fmtLib (str "x") false false 10)).2.1 () rfl rfl
  refine ⟨?_, ?_, ?_, ?_, ?_⟩
  · rw [h1.1]
    rfl
  · rw [h1.2.2.2.1]
    rfl
  · rw [h2.1]
    rfl
  · rw [h2.2.2.2.1]
  · rw [h2.2.2.2.2.1]
    rfl

end VJ
